import Mathlib

/-! # discordterm: unread tracker, message handler and command dispatcher

A shallow embedding of `discordterm.go` (the `Client` with its selection state
and unread table, the message-created handler, the renderer) and of
`cmd/discordterm/main.go` (the line-oriented command dispatcher
`executeCommand`), followed by theorems about them.

Conventions of the embedding

* Go `string` is `String`; `len(s)` is `s.utf8ByteSize`.
* Go `int` is a 64-bit two's-complement integer: values are `Int`, and every
  addition performed by the program goes through `wrap64`.
* Go `map[string]T` is an association list with pairwise distinct keys, new
  keys appended at the end (`mapGet`, `mapSet`).
* The mutex of `Client` only serialises accesses; each method is one atomic
  step on the `Client` value.
* Everything outside the program (the discordgo session and its state cache,
  regexp, os, http, the image encoder) answers through a `World`; what the
  program does to the outside is recorded, in order, as a list of `Effect`.
* A function that can end the process returns a `Result`: nil, a non-nil
  error, a panic, or an exit.
* Standard input is the list of what the reads of os.Stdin return; every
  `bufio.Reader` the program creates on it has a buffer of its own.
* The case table of package unicode beyond ASCII is a field of the `World`.
* `executeCommand` calls itself on synthesised lines ("/c 0", "/m 25", ...).
  The embedding keeps the synthesised line and parses it again;
  `executeCommandN` bounds the nesting, and `executeCommandN_eq_executeCommand`
  shows that the bound of three is never hit.
-/

namespace Discordterm

/-! ## Go integers -/

/-- Two's-complement wrap-around of a mathematical integer into the range of
Go's 64-bit `int`, `[-2^63, 2^63)`. -/
def wrap64 (x : Int) : Int :=
  (x + 9223372036854775808) % 18446744073709551616 - 9223372036854775808

/-- Go `a + b` on `int`. -/
def addInt (a b : Int) : Int := wrap64 (a + b)

/-- The values of Go's `int`. -/
def isInt64 (x : Int) : Prop := -9223372036854775808 ≤ x ∧ x < 9223372036854775808

instance (x : Int) : Decidable (isInt64 x) := by unfold isInt64; infer_instance

/-! ## Go maps with string keys -/

/-- The comma-ok lookup `v, ok := m[k]`. -/
def mapGet {β : Type} : List (String × β) → String → Option β
  | [], _ => none
  | (k', v) :: rest, k => if k' = k then some v else mapGet rest k

/-- The assignment `m[k] = v`. -/
def mapSet {β : Type} : List (String × β) → String → β → List (String × β)
  | [], k, v => [(k, v)]
  | (k', v') :: rest, k, v =>
    if k' = k then (k', v) :: rest else (k', v') :: mapSet rest k v

/-- The keys of a map. -/
def mapKeys {β : Type} (m : List (String × β)) : List String := m.map Prod.fst

/-! ## Go standard library functions used by the program

Modelled from their documentation, on valid UTF-8 text. -/

/-- Go `uint(n)` for an `int` n: reduction modulo 2^64. -/
def uintOfInt (n : Int) : Nat := (n % 18446744073709551616).toNat

/-- Go `int(u)` for a `uint` u: the two's-complement reading. -/
def intOfUint (u : Nat) : Int := wrap64 u

/-- The function maxInt / MaxInt of both source files. -/
def MaxInt (a b : Int) : Int := if a > b then a else b

/-- The function minInt / MinInt of both source files. -/
def MinInt (a b : Int) : Int := if a < b then a else b

/-- Go `len(s)`: the number of bytes of the UTF-8 encoding. -/
def len (s : String) : Int := s.utf8ByteSize

/-- Split a character list at every occurrence of `sep`; the result is never
empty, and n separators give n + 1 pieces. -/
def splitChars (sep : Char) : List Char → List (List Char)
  | [] => [[]]
  | c :: cs =>
    if c = sep then [] :: splitChars sep cs
    else
      match splitChars sep cs with
      | [] => [[c]]
      | t :: ts => (c :: t) :: ts

/-- Join character lists, `sep` between consecutive ones. -/
def joinChars (sep : List Char) : List (List Char) → List Char
  | [] => []
  | [a] => a
  | a :: b :: rest => a ++ sep ++ joinChars sep (b :: rest)

/-- Go `strings.Split(s, sep)` for a one-character separator. -/
def strings.Split (s : String) (sep : Char) : List String :=
  (splitChars sep s.data).map String.mk

/-- Go `strings.Join(a, sep)`. -/
def strings.Join (a : List String) (sep : String) : String :=
  String.mk (joinChars sep.data (a.map String.data))

/-- Go `strings.Repeat(s, count)`, which panics (`none`) on a negative count. -/
def strings.Repeat (s : String) (count : Int) : Option String :=
  if count < 0 then none else some (String.join (List.replicate count.toNat s))

/-- The text `strings.Repeat(" ", MaxInt(0, n))`, whose count is never
negative. -/
def padding (n : Int) : String := String.join (List.replicate (MaxInt 0 n).toNat " ")

/-- Go `unicode.ToLower(r)`: the letters A to Z become a to z and every other
ASCII rune is kept; a rune beyond ASCII is looked up in the case table of
package unicode, which is given as `table`. -/
def unicode.ToLower (table : Char → Char) (r : Char) : Char :=
  if r.toNat < 128 then r.toLower else table r

/-- Go `strings.ToLower(s)`: every rune of `s` mapped by `unicode.ToLower`. -/
def strings.ToLower (table : Char → Char) (s : String) : String :=
  String.mk (s.data.map (unicode.ToLower table))

/-- Go `strings.Contains(s, substr)`. -/
def strings.Contains (s substr : String) : Bool := decide (substr.data <:+: s.data)

/-- Go `strings.Trim(s, cutset)`: all leading and trailing characters that
belong to `cutset` removed. -/
def strings.Trim (s : String) (cutset : List Char) : String :=
  String.mk ((s.data.dropWhile fun c => decide (c ∈ cutset)).reverse.dropWhile
    fun c => decide (c ∈ cutset)).reverse

/-- Go `utf8.RuneCountInString(s)`. -/
def utf8.RuneCountInString (s : String) : Int := s.length

/-- The value of a decimal digit character. -/
def digitValue (c : Char) : Option Nat :=
  if 48 ≤ c.toNat ∧ c.toNat ≤ 57 then some (c.toNat - 48) else none

/-- Read decimal digits left to right onto the accumulator `acc`; `none` on a
character that is no digit. -/
def parseDigits : List Char → Nat → Option Nat
  | [], acc => some acc
  | c :: cs, acc =>
    match digitValue c with
    | some d => parseDigits cs (acc * 10 + d)
    | none => none

/-- A non-empty string of decimal digits, read as a natural number. -/
def parseUnsigned (cs : List Char) : Option Nat :=
  match cs with
  | [] => none
  | _ :: _ => parseDigits cs 0

/-- Go `strconv.Atoi(s)`: an optional sign followed by one or more decimal
digits, with a value in the range of `int`; `none` stands for a non-nil error. -/
def strconv.Atoi (s : String) : Option Int :=
  match s.data with
  | '-' :: rest =>
    match parseUnsigned rest with
    | some n => if n ≤ 9223372036854775808 then some (-(n : Int)) else none
    | none => none
  | '+' :: rest =>
    match parseUnsigned rest with
    | some n => if n < 9223372036854775808 then some (n : Int) else none
    | none => none
  | cs =>
    match parseUnsigned cs with
    | some n => if n < 9223372036854775808 then some (n : Int) else none
    | none => none

/-- Go `strconv.Itoa(i)`. -/
def strconv.Itoa (i : Int) : String :=
  if i < 0 then "-" ++ Nat.repr i.natAbs else Nat.repr i.toNat

/-- The function isOn of main.go. -/
def isOn (table : Char → Char) (txt : String) : Bool := strings.ToLower table txt == "on"

/-- The function isOff of main.go. -/
def isOff (table : Char → Char) (txt : String) : Bool :=
  strings.ToLower table txt == "off"

/-- The function formatBoolOnOff of main.go. -/
def formatBoolOnOff (b : Bool) : String := if b then "on" else "off"

/-- Args provides helper methods for arguments. -/
abbrev Args := List String

/-- The method Get of Args. -/
def Args.Get (a : Args) (n : Int) : String :=
  if n ≥ a.length ∨ n < 0 then "" else a.getD n.toNat ""

/-- The method After of Args. -/
def Args.After (a : Args) (n : Int) : String :=
  if n ≥ 0 ∧ n < a.length then strings.Join (a.drop n.toNat) " " else ""

/-- The bytes of a buffer up to and including its first line feed, and the
bytes after it; `none` when the buffer holds no line feed. -/
def cutLine : List Char → Option (List Char × List Char)
  | [] => none
  | c :: cs =>
    if c = '\n' then some ([c], cs)
    else
      match cutLine cs with
      | some found => some (c :: found.1, found.2)
      | none => none

/-- Go `bufio.Reader.ReadString` with the delimiter line feed, on a reader
over os.Stdin: `buffer` is what the reader holds unread and `reads` is what
the reads of os.Stdin still to come return. A line in the buffer is returned
without reading; otherwise the reader reads until it has one. The result is
the line with its line feed (`none` for the error io.EOF, when the input ends
before a line feed), the new buffer and the reads still to come. -/
def bufio.ReadString : List Char → List String → Option String × List Char × List String
  | buffer, [] =>
    match cutLine buffer with
    | some found => (some (String.mk found.1), found.2, [])
    | none => (none, [], [])
  | buffer, chunk :: reads =>
    match cutLine buffer with
    | some found => (some (String.mk found.1), found.2, chunk :: reads)
    | none => bufio.ReadString (buffer ++ chunk.data) reads

/-- The complete lines of a buffer, each with its line feed, and the bytes
after the last line feed: what successive calls of ReadString return from the
buffer without reading, and what they leave in it. -/
def splitLines : List Char → List String × List Char
  | [] => ([], [])
  | c :: cs =>
    let r := splitLines cs
    if c = '\n' then (String.mk [c] :: r.1, r.2)
    else
      match r.1 with
      | [] => ([], c :: r.2)
      | first :: more => (String.mk (c :: first.data) :: more, r.2)

/-! ## The client (discordterm.go) -/

/-- Config is the configuration object. -/
structure Config where
  ColorText : Bool
  ColorImages : Bool
  ShowImages : Bool
  ImageWidth : Nat
  ImageHeight : Nat
  ShowNicknames : Bool
  deriving DecidableEq, Repr

/-- NewConfig returns the default config. -/
def NewConfig : Config :=
  { ColorText := true, ColorImages := true, ShowImages := true,
    ImageWidth := 100, ImageHeight := 0, ShowNicknames := false }

/-- The unread table `map[guildid][channelid]int`. -/
abbrev UnreadTable := List (String × List (String × Int))

/-- Client is a discordterm client (the session `Cli` is the adapter,
passed separately to the operations that use it). -/
structure Client where
  activeGuild : String
  activeChannel : String
  UnreadChannels : UnreadTable
  Conf : Config
  deriving DecidableEq, Repr

/-- NewClient returns a new client: nothing selected, an empty unread table,
and the default configuration when `conf` is nil (`none`). -/
def NewClient (conf : Option Config) : Client :=
  { activeGuild := "", activeChannel := "", UnreadChannels := [],
    Conf := match conf with
      | some conf => conf
      | none => NewConfig }

/-- The inner map `m` both mark operations work on: `c.UnreadChannels[guildID]`,
or the fresh empty map stored there when the guild is absent. -/
def innerMap (t : UnreadTable) (guildID : String) : List (String × Int) :=
  match mapGet t guildID with
  | some m => m
  | none => []

/-- The read `m[channelID]` of Go, which yields the zero value on a missing key. -/
def readCount (m : List (String × Int)) (channelID : String) : Int :=
  match mapGet m channelID with
  | some v => v
  | none => 0

/-- MarkUnread marks a channel as unread. -/
def Client.MarkUnread (c : Client) (guildID channelID : String) (numUnread : Int) : Client :=
  let m := innerMap c.UnreadChannels guildID
  let v := addInt (readCount m channelID) numUnread
  { c with UnreadChannels := mapSet c.UnreadChannels guildID (mapSet m channelID v) }

/-- MarkRead marks a channel as read, setting the unread message counter back
to zero. -/
def Client.MarkRead (c : Client) (guildID channelID : String) : Client :=
  let m := innerMap c.UnreadChannels guildID
  { c with UnreadChannels := mapSet c.UnreadChannels guildID (mapSet m channelID 0) }

/-- ChannelUnreadMessages returns the number of unread messages in a channel. -/
def Client.ChannelUnreadMessages (c : Client) (guildID channelID : String) : Int :=
  match mapGet c.UnreadChannels guildID with
  | some g =>
    match mapGet g channelID with
    | some numUnread => numUnread
    | none => 0
  | none => 0

/-- The loop `for _, v := range g { sum += v }` from a given `sum`. -/
def sumLoop : List (String × Int) → Int → Int
  | [], sum => sum
  | (_, v) :: rest, sum => sumLoop rest (addInt sum v)

/-- GuildUnreadMessages returns the total number of unread messages in a
guild's channels. -/
def Client.GuildUnreadMessages (c : Client) (guildID : String) : Int :=
  match mapGet c.UnreadChannels guildID with
  | some g => sumLoop g 0
  | none => 0

/-- ActiveChannel returns the client's active channel. -/
def Client.ActiveChannel (c : Client) : String := c.activeChannel

/-- SetChannel sets the client's current channel. -/
def Client.SetChannel (c : Client) (id : String) : Client := { c with activeChannel := id }

/-- SetGuild sets the client's current guild. -/
def Client.SetGuild (c : Client) (id : String) : Client := { c with activeGuild := id }

/-- ActiveGuild returns the client's current guild. -/
def Client.ActiveGuild (c : Client) : String := c.activeGuild

/-! ## The session adapter (package discordgo) and the program's environment

Only the fields and calls the program uses. An `error` is its message. -/

/-- The discordgo type User. -/
structure User where
  ID : String
  Username : String
  Discriminator : String
  Avatar : String
  deriving DecidableEq, Repr

/-- The discordgo type Member. -/
structure Member where
  User : User
  Nick : String
  Roles : List String
  deriving DecidableEq, Repr

/-- The discordgo type Role. -/
structure Role where
  ID : String
  Name : String
  deriving DecidableEq, Repr

/-- The discordgo type Presence; `Game` is the name of the game, if any. -/
structure Presence where
  User : User
  Status : String
  Game : Option String
  deriving DecidableEq, Repr

/-- The discordgo type Channel; `Voice` says that `Type` is
`ChannelTypeGuildVoice`. -/
structure Channel where
  ID : String
  Name : String
  GuildID : String
  Voice : Bool
  deriving DecidableEq, Repr

/-- The discordgo type Guild. -/
structure Guild where
  ID : String
  Name : String
  Roles : List Role
  Presences : List Presence
  deriving DecidableEq, Repr

/-- The discordgo type MessageAttachment. -/
structure MessageAttachment where
  URL : String
  Filename : String
  deriving DecidableEq, Repr

/-- The discordgo type MessageEmbedField. -/
structure MessageEmbedField where
  Name : String
  Value : String
  deriving DecidableEq, Repr

/-- The discordgo type MessageEmbed; `Image` and `Thumbnail` hold the URL of
the image when the pointer is not nil. -/
structure MessageEmbed where
  Title : String
  Description : String
  Fields : List MessageEmbedField
  Image : Option String
  Thumbnail : Option String
  deriving DecidableEq, Repr

/-- The discordgo type Message; `ContentWithMentionsReplaced` is the result
of the library method of that name. -/
structure Message where
  ID : String
  ChannelID : String
  Content : String
  ContentWithMentionsReplaced : String
  Author : User
  Attachments : List MessageAttachment
  Embeds : List MessageEmbed
  deriving DecidableEq, Repr

/-- The answers of everything outside the program during one command: the
session `dt.Cli` with its state cache, the regexp, os, http and image
libraries, and the login flags. -/
structure World where
  /-- The field State.Guilds. -/
  Guilds : List Guild
  /-- The field State.User, nil before the ready event. -/
  StateUser : Option User
  StateChannel : String → Except String Channel
  StateGuild : String → Except String Guild
  StateMember : String → String → Except String Member
  Channel : String → Except String Channel
  GuildChannels : String → Except String (List Discordterm.Channel)
  Guild : String → Except String Guild
  ChannelMessages : String → Int → Except String (List Message)
  ChannelMessageSend : String → String → Option String
  ChannelFileSend : String → String → Option String
  ChannelMessageDelete : String → String → Option String
  ChannelMessageEdit : String → String → String → Option String
  GuildMember : String → String → Except String Member
  GuildMembers : String → String → Int → Except String (List Member)
  GuildMemberRoleAdd : String → String → String → Option String
  GuildMemberRoleRemove : String → String → String → Option String
  GuildMemberNickname : String → String → String → Option String
  UserUpdate : String → String → String → String → String → Option String
  UserUpdateStatus : String → Option String
  UpdateStatus : Int → String → Option String
  /-- The method AvatarURL of User. -/
  AvatarURL : User → String → String
  /-- The result of sort.Sort(discordgo.Roles(roles)). -/
  SortRoles : List Role → List Role
  /-- The result of regexp.Compile: an error, or the MatchString of the
  compiled expression. -/
  RegexpCompile : String → Except String (String → Bool)
  /-- The lower-case mapping of package unicode for the runes beyond ASCII
  (the case table of the Unicode version the program is built with). -/
  UnicodeToLower : Char → Char
  /-- The result of os.Stat: an error, or the Name of the file info. -/
  Stat : String → Except String String
  /-- The error of os.Open, if any. -/
  Open : String → Option String
  /-- The error of fetching, decoding and encoding the image at a URL, if any. -/
  ImageError : String → Option String
  /-- The flag username. -/
  username : String
  /-- The flag password. -/
  password : String

/-- The colours of package aurora the program uses. -/
inductive Colour where
  | red | green | cyan | blue | magenta | brown
  deriving DecidableEq, Repr

/-- One operand of a print call: a text, possibly wrapped in a colour. -/
structure Span where
  colour : Option Colour
  text : String
  deriving DecidableEq, Repr

/-- An uncoloured operand. -/
def plain (text : String) : Span := { colour := none, text := text }

/-- An operand wrapped by one of aurora's colour functions. -/
def paint (c : Colour) (text : String) : Span := { colour := some c, text := text }

/-- What the program does to the outside, in order. -/
inductive Effect where
  /-- The call fmt.Println with these operands. -/
  | println (operands : List Span)
  /-- The call fmt.Printf, with the text written. -/
  | printf (text : String)
  /-- The call log.Println. -/
  | logPrintln (text : String)
  /-- The fetch of the image at a URL and its textify encoding with this
  width, height and colour mode. -/
  | printImage (url : String) (width height : Nat) (colour : Bool)
  /-- A call of a method of the session or of its state cache. -/
  | call (method : String) (arguments : List String)
  /-- A call of os.Stat or os.Open. -/
  | file (operation : String) (path : String)
  /-- A nested call of executeCommand on a synthesised line. -/
  | dispatch (line : String)
  deriving DecidableEq, Repr

/-- How a call of executeCommand, or of a function it calls, ends. -/
inductive Result where
  /-- The value returned is nil. -/
  | nil
  /-- The value returned is a non-nil error. -/
  | error (message : String)
  /-- A run-time panic: the process dies. -/
  | panic (message : String)
  /-- The process exits with this status (os.Exit, log.Fatal). -/
  | exit (status : Nat)
  deriving DecidableEq, Repr

/-- Whether the process is still running after this result. -/
def Result.alive : Result → Bool
  | .nil => true
  | .error _ => true
  | .panic _ => false
  | .exit _ => false

/-- The program state a command works on: the client, the effects so far
(oldest first) and the standard input: what the reads of os.Stdin still to
come return, one element for each read, the end of the list being the end of
the input. A terminal in line mode delivers one line, with its line feed, to
each read; a pipe or a file delivers as much as is there. -/
structure Sys where
  dt : Client
  out : List Effect
  stdin : List String
  deriving DecidableEq, Repr

/-- Record an effect. -/
def Sys.emit (s : Sys) (e : Effect) : Sys := { s with out := s.out ++ [e] }

/-- Record a print of uncoloured operands. -/
def Sys.println (s : Sys) (operands : List String) : Sys :=
  s.emit (.println (operands.map plain))

/-- Run `k` after a step unless the step killed the process. -/
def andThen (r : Result × Sys) (k : Sys → Result × Sys) : Result × Sys :=
  if r.1.alive then k r.2 else r

/-! ## The renderer (discordterm.go) -/

/-- ColorStatus colours a status string. -/
def ColorStatus (status : String) : Span :=
  if status = "online" then paint .green status
  else if status = "offline" ∨ status = "invisible" then plain status
  else if status = "dnd" then paint .red status
  else if status = "away" then paint .brown status
  else plain status

/-- PrintImageURLComplex accepts a config struct: the image is fetched,
decoded and encoded with the width and height of `conf` and the colour mode
of the client's own configuration. -/
def PrintImageURLComplex (w : World) (s : Sys) (path : String) (conf : Config) :
    Option String × Sys :=
  (w.ImageError path,
    s.emit (.printImage path conf.ImageWidth conf.ImageHeight s.dt.Conf.ColorImages))

/-- The text `strings.Split(s, "\n")[0]`. -/
def firstLine (s : String) : String := (strings.Split s '\n').headD ""

/-- The loop over the fields that widens the frame. -/
def fieldsWidth : List MessageEmbedField → Int → Int
  | [], frameWidth => frameWidth
  | v :: rest, frameWidth =>
    fieldsWidth rest (MaxInt (MaxInt frameWidth (len v.Name)) (len (firstLine v.Value)))

/-- The frame width PrintEmbeds computes for one embed. -/
def embedFrameWidth (em : MessageEmbed) (conf : Config) : Int :=
  let frameWidth := MaxInt 0 (len em.Title)
  let frameWidth := MaxInt frameWidth (len (firstLine em.Description))
  let frameWidth := fieldsWidth em.Fields frameWidth
  if conf.ShowImages then
    if em.Image.isSome ∨ em.Thumbnail.isSome then
      MaxInt frameWidth (intOfUint conf.ImageWidth)
    else frameWidth
  else
    let frameWidth :=
      match em.Image with
      | some url => MaxInt frameWidth (len url)
      | none => frameWidth
    match em.Thumbnail with
    | some url => MaxInt frameWidth (len url)
    | none => frameWidth

/-- The display of the image or of the thumbnail of an embed. -/
def printEmbedImage (w : World) (s : Sys) (image : Option String) (conf : Config) : Sys :=
  match image with
  | none => s
  | some url =>
    if url ≠ "" then
      if conf.ShowImages then
        let r := PrintImageURLComplex w s url conf
        match r.1 with
        | some err => r.2.emit (.logPrintln err)
        | none => r.2
      else if s.dt.Conf.ColorText then s.emit (.println [paint .green url])
      else s.emit (.println [plain url])
    else s

/-- The loop printing the fields of an embed. -/
def printEmbedFields (s : Sys) (frameWidth : Int) : List MessageEmbedField → Result × Sys
  | [] => (.nil, s)
  | v :: rest =>
    match strings.Repeat "-" (frameWidth - len v.Name - 2) with
    | none => (.panic "strings: negative Repeat count", s)
    | some dashes =>
      let s := s.println ["|-", v.Name, dashes]
      let s := s.println [v.Value]
      printEmbedFields s frameWidth rest

/-- The body of the loop of PrintEmbeds for one embed. -/
def printEmbed (w : World) (s : Sys) (em : MessageEmbed) (conf : Config) : Result × Sys :=
  let frameWidth := embedFrameWidth em conf
  match strings.Repeat "=" frameWidth with
  | none => (.panic "strings: negative Repeat count", s)
  | some border =>
    let s := s.println ["|", border, "|"]
    let s :=
      if em.Title ≠ "" then
        if conf.ColorText then s.emit (.println [paint .red em.Title])
        else s.println [em.Title]
      else s
    let s := if em.Description ≠ "" then s.println [em.Description] else s
    let s := printEmbedImage w s em.Image conf
    let s := printEmbedImage w s em.Thumbnail conf
    andThen (printEmbedFields s frameWidth em.Fields) fun s =>
      match strings.Repeat "_" frameWidth with
      | none => (.panic "strings: negative Repeat count", s)
      | some border => (.nil, s.println ["|", border, "|"])

/-- PrintEmbeds prints message embeds. -/
def PrintEmbeds (w : World) (s : Sys) (conf : Config) : List MessageEmbed → Result × Sys
  | [] => (.nil, s)
  | em :: rest => andThen (printEmbed w s em conf) fun s => PrintEmbeds w s conf rest

/-- PrintAttachments prints message attachments. -/
def PrintAttachments (w : World) (s : Sys) (conf : Config) : List MessageAttachment → Sys
  | [] => s
  | a :: rest =>
    if a.URL ≠ "" ∧ a.Filename ≠ "" then
      let s :=
        if conf.ColorText then
          s.emit (.println [paint .green a.Filename, plain " \t", paint .green a.URL])
        else s.println [a.Filename, " \t", a.URL]
      let s := if conf.ShowImages then (PrintImageURLComplex w s a.URL conf).2 else s
      PrintAttachments w s conf rest
    else PrintAttachments w s conf rest

/-- The end of the closure of PrintMessageComplex, once the channel of the
message is known: the nickname of the author in the state cache. -/
def memberNickname (w : World) (s : Sys) (channel : Channel) (m : Message) :
    Option String × Sys :=
  let s := s.emit (.call "State.Member" [channel.GuildID, m.Author.ID])
  match w.StateMember channel.GuildID m.Author.ID with
  | .error _ => (none, s)
  | .ok member => if member.Nick ≠ "" then (some member.Nick, s) else (none, s)

/-- The closure of PrintMessageComplex that fetches the nickname of the
author: the nickname on success (a nil error), `none` on a non-nil error. -/
def fetchNickname (w : World) (s : Sys) (m : Message) : Option String × Sys :=
  let s := s.emit (.call "State.Channel" [m.ChannelID])
  match w.StateChannel m.ChannelID with
  | .ok channel => memberNickname w s channel m
  | .error _ =>
    let s := s.emit (.call "Channel" [m.ChannelID])
    match w.Channel m.ChannelID with
    | .ok channel => memberNickname w s channel m
    | .error _ => (none, s)

/-- The display name PrintMessageComplex resolves. -/
def resolveDisplayName (w : World) (s : Sys) (m : Message) (conf : Config) : String × Sys :=
  if !conf.ShowNicknames then (m.Author.Username, s)
  else
    let r := fetchNickname w s m
    match r.1 with
    | some nick => (nick, r.2)
    | none => (m.Author.Username, r.2)

/-- PrintMessageComplex prints a message with the given configuration. -/
def PrintMessageComplex (w : World) (s : Sys) (m : Message) (conf : Config) : Result × Sys :=
  let named := resolveDisplayName w s m conf
  let displayName := named.1
  let s := named.2
  let paddingUseridLeft := padding (30 - len displayName)
  let s :=
    if conf.ColorText then
      s.emit (.println [paint .cyan displayName, plain paddingUseridLeft,
        paint .blue m.ID, plain "\t", paint .blue m.Author.ID])
    else s.println [displayName, paddingUseridLeft, "\t", m.Author.ID]
  let s := if m.Content ≠ "" then s.println [m.ContentWithMentionsReplaced] else s
  let s := PrintAttachments w s conf m.Attachments
  andThen (PrintEmbeds w s conf m.Embeds) fun s => (.nil, s.println [])

/-- PrintMessage prints a message to the console. -/
def PrintMessage (w : World) (s : Sys) (m : Message) : Result × Sys :=
  PrintMessageComplex w s m s.dt.Conf

/-! ## The message-created handler (addHandlers) -/

/-- The handler addHandlers registers, run on one message-created event. -/
def messageCreate (w : World) (s : Sys) (m : Message) : Result × Sys :=
  let s := s.emit (.call "State.Channel" [m.ChannelID])
  match w.StateChannel m.ChannelID with
  | .error err => (.nil, s.emit (.logPrintln err))
  | .ok channel =>
    let s := s.emit (.call "State.Guild" [channel.GuildID])
    match w.StateGuild channel.GuildID with
    | .error _ => (.nil, s)
    | .ok guild =>
      if m.ChannelID = s.dt.ActiveChannel then PrintMessage w s m
      else (.nil, { s with dt := s.dt.MarkUnread guild.ID channel.ID 1 })

/-! ## The command dispatcher (cmd/discordterm/main.go) -/

/-- A run of `n` equals signs, as in the frame of the help text. -/
def rule (n : Nat) : String := String.mk (List.replicate n '=')

/-- The lines of the constant helpMessage. -/
def helpLines : List String :=
  [ "====| Commands: |" ++ rule 46,
    "/say        say something in the currently active channel",
    "/gl         lists all the available guilds",
    "/cl         lists all the available channels in the selected guild",
    "/leave      leave the current channel to stop listening for messages",
    "",
    "/g [n]      selects a guild by index. If no guild is selected,",
    "            print information about the current guild.",
    "",
    "/gr [text]  selects a guild by name with the given regular expression",
    "            read the example for \"/cr\"",
    "       ",
    "/c [n]      selects a channel by index. If no channel is selected,",
    "            print information about the current channel",
    "",
    "/cr [text]  selects a channel by name with a regular expression",
    "            example: \"/cr go_discordgo\" will select a channel by the",
    "            name of go_discordgo.                                    ",
    "         ",
    "/m [n]      retrieves n messages from the active channel's history ",
    "            will retrieve 10 messages if no argument is specified  ",
    "",
    "/p [line 1] Send a multi-line paragraph to the current channel",
    "            Type /send to send the message or cancel to do nothing",
    "",
    "/roles [guildID]    lists the roles in the specified guild, or the current guild.",
    "/upload [path]      Uploads the file located at 'path' to the current channel",
    "",
    "/img-auto [off|on]  Auto image will automatically print message images",
    "                    When set to on.",
    "",
    "/text-color [off|on] Enable / disable colored text                    ",
    "",
    "/img-width [width]        Sets the default width of ascii images",
    "/img-color [on|off]       Print images with color or black and white",
    "/img [message id] [width] displays the given message's images",
    "/avatar [userid]          displays the avatar of the given user",
    "",
    "/members [lastid]         displays a list of up to 1000 users in your",
    "                          current guild. Call with lastID to retrieve",
    "                          more users.",
    "",
    "/presences                displays the list of presences in your current guild",
    "                          call with lastID to retrieve more presences",
    "",
    "/member-info [userid]     display information about a particular member in your",
    "                          current guild",
    "",
    "/show-nicknames [on|off]  toggle showing users' nicknames in place of their usernames",
    "",
    "/username [username]      Set a new username for your account",
    "/status  [online|idle|dnd|invisible|offline] Updates your current online status",
    "/playing   [string]       Set your playing status to the given string",
    "/playing-off              Set your playing status to off",
    "/streaming [string]       // TODO:: Set your streaming status to the given string",
    "",
    "/member-add-role [userid] [roleid]     Add role ROLEID to user USERID",
    "/member-remove-role [userid] [roleid]  remove role ROLEID from user USERID",
    "/member-nick [userid] [nickname]       Set a member's nickname in the current guild",
    "/nick [nickname]                       Set your own nickname in the current guild",
    "",
    "/delete [messageid]       Deletes the message with the given ID in your active channel",
    "/edit   [messageid]       Edits the message with the given ID in your active channel",
    "",
    "/ls [n]     If you are not in a guild, lists guilds",
    "            If you are in a guild but not in a channel, lists channels",
    "            If you are in a channel, lists 'n' messages with 25 being",
    "            the default",
    "            ",
    "/cd [i|..]  If you are not in a guild, selects the guild with index i",
    "            If you are in guild, selects the channel with index i",
    "            If you are in a channel and provide .. as an argument,",
    "            leave the channel. If you are in a guild but not a channel",
    "            and provide .. as an argument, leave the guild.",
    "                                           ",
    "/help       prints this help menu                                  ",
    "/exit       closes this program",
    rule 64 ++ "     ",
    "" ]

/-- The constant helpMessage. -/
def helpMessage : String := String.intercalate "\n" helpLines

/-- The cases of the switch of executeCommand, one per handler. -/
inductive Verb where
  | guildList | channelList | ls | cd | guild | guildRegex | channel | channelRegex
  | messages | upload | imgWidth | imgHeight | imgAuto | imgColor | textColor | img
  | avatar | paragraph | members | presences | delete | edit | roles | memberInfo
  | memberAddRole | memberRemoveRole | memberNick | showNicknames | username | status
  | playing | playingOff | nick | leave | help | say | exit
  deriving DecidableEq, Repr

/-- The case labels of the switch: which handler `args[0]` selects, if any. -/
def parseVerb (v : String) : Option Verb :=
  if v = "gl" ∨ v = "lg" ∨ v = "guild_list" ∨ v = "guilds" then some .guildList
  else if v = "cl" ∨ v = "lc" ∨ v = "channel_list" ∨ v = "channels" then some .channelList
  else if v = "ls" then some .ls
  else if v = "cd" then some .cd
  else if v = "g" ∨ v = "guild" then some .guild
  else if v = "gr" ∨ v = "guild_regex" then some .guildRegex
  else if v = "c" ∨ v = "channel" then some .channel
  else if v = "cr" ∨ v = "channel_regex" then some .channelRegex
  else if v = "m" ∨ v = "messages" then some .messages
  else if v = "upload" then some .upload
  else if v = "img-width" then some .imgWidth
  else if v = "img-height" then some .imgHeight
  else if v = "img-auto" then some .imgAuto
  else if v = "img-color" then some .imgColor
  else if v = "text-color" then some .textColor
  else if v = "img" then some .img
  else if v = "avatar" then some .avatar
  else if v = "p" ∨ v = "paragraph" then some .paragraph
  else if v = "members" then some .members
  else if v = "presences" then some .presences
  else if v = "delete" then some .delete
  else if v = "edit" then some .edit
  else if v = "roles" then some .roles
  else if v = "member-info" ∨ v = "m-info" then some .memberInfo
  else if v = "member-add-role" then some .memberAddRole
  else if v = "member-remove-role" then some .memberRemoveRole
  else if v = "member-nick" then some .memberNick
  else if v = "show-nicknames" ∨ v = "show-nicks" then some .showNicknames
  else if v = "username" then some .username
  else if v = "status" then some .status
  else if v = "playing" then some .playing
  else if v = "playing-off" then some .playingOff
  else if v = "nick" then some .nick
  else if v = "leave" then some .leave
  else if v = "help" then some .help
  else if v = "say" then some .say
  else if v = "exit" then some .exit
  else none

/-- Whether `s` is an optional sign followed by one or more decimal digits. -/
def isNumeral (s : String) : Bool :=
  match s.data with
  | '-' :: rest => (parseUnsigned rest).isSome
  | '+' :: rest => (parseUnsigned rest).isSome
  | cs => (parseUnsigned cs).isSome

/-- The error strconv.Atoi returns for a string it rejects: a numeral whose
value is outside the range of int is out of range, every other string is a
syntax error. -/
def atoiError (s : String) : String :=
  "strconv.Atoi: parsing " ++ s.quote ++ ": "
    ++ (if isNumeral s then "value out of range" else "invalid syntax")

/-- Replace the configuration of the client. -/
def Sys.setConf (s : Sys) (conf : Config) : Sys := { s with dt := { s.dt with Conf := conf } }

/-- Replace the client. -/
def Sys.setClient (s : Sys) (dt : Client) : Sys := { s with dt := dt }

/-- A nested call `executeCommand(dt, line)` through `self`. -/
def recurse (self : Sys → String → Result × Sys) (s : Sys) (line : String) : Result × Sys :=
  self (s.emit (.dispatch line)) line

/-- A nested call whose returned error is discarded. -/
def recurseDropped (self : Sys → String → Result × Sys) (s : Sys) (line : String) :
    Result × Sys :=
  andThen (recurse self s line) fun s => (.nil, s)

/-- The line printed for entry `i` of a guild or channel list. -/
def listEntry (colorText active : Bool) (unread : Int) (i : Nat) (name : String) : Effect :=
  if colorText then
    if active then
      .println [paint .magenta (strconv.Itoa i), plain "\t", paint .magenta name]
    else if unread > 0 then
      .println [paint .green (strconv.Itoa i), plain "\t", paint .green name,
        paint .red ("[" ++ strconv.Itoa unread ++ "]")]
    else .println [plain (strconv.Itoa i), plain "\t", plain name]
  else .println [plain (strconv.Itoa i), plain "\t", plain name]

/-- The loop of the guild list, from index `i`. -/
def guildListLoop (s : Sys) : Nat → List Guild → Sys
  | _, [] => s
  | i, g :: rest =>
    guildListLoop (s.emit (listEntry s.dt.Conf.ColorText (s.dt.ActiveGuild = g.ID)
      (s.dt.GuildUnreadMessages g.ID) i g.Name)) (i + 1) rest

/-- Guild list: the case "gl", "lg", "guild_list", "guilds". -/
def cmdGuildList (w : World) (s : Sys) : Result × Sys :=
  (.nil, guildListLoop s 0 w.Guilds)

/-- The loop of the channel list, from index `i`; voice channels are skipped. -/
def channelListLoop (guild : Guild) (s : Sys) : Nat → List Channel → Sys
  | _, [] => s
  | i, c :: rest =>
    if c.Voice then channelListLoop guild s (i + 1) rest
    else
      channelListLoop guild (s.emit (listEntry s.dt.Conf.ColorText
        (s.dt.ActiveChannel = c.ID) (s.dt.ChannelUnreadMessages guild.ID c.ID) i c.Name))
        (i + 1) rest

/-- Channel list: the case "cl", "lc", "channel_list", "channels". -/
def cmdChannelList (w : World) (s : Sys) : Result × Sys :=
  if s.dt.ActiveGuild = "" then (.error "You need to select a guild first", s)
  else
    let s := s.emit (.call "GuildChannels" [s.dt.ActiveGuild])
    match w.GuildChannels s.dt.ActiveGuild with
    | .error err => (.error err, s)
    | .ok channels =>
      let s := s.emit (.call "Guild" [s.dt.ActiveGuild])
      match w.Guild s.dt.ActiveGuild with
      | .error err => (.error err, s)
      | .ok guild => (.nil, channelListLoop guild (s.println [guild.Name]) 0 channels)

/-- The case "ls". -/
def cmdLs (self : Sys → String → Result × Sys) (s : Sys) : Result × Sys :=
  if s.dt.ActiveChannel ≠ "" then recurseDropped self s "/m 25"
  else if s.dt.ActiveGuild ≠ "" then recurseDropped self s "/cl"
  else recurseDropped self s "/gl"

/-- The case "cd". -/
def cmdCd (self : Sys → String → Result × Sys) (s : Sys) (args : Args) : Result × Sys :=
  if Args.Get args 1 = ".." then
    if s.dt.ActiveChannel ≠ "" then (.nil, s.setClient (s.dt.SetChannel ""))
    else if s.dt.ActiveGuild ≠ "" then (.nil, s.setClient (s.dt.SetGuild ""))
    else (.nil, s)
  else if s.dt.ActiveGuild ≠ "" then recurseDropped self s ("/c " ++ Args.Get args 1)
  else recurseDropped self s ("/g " ++ Args.Get args 1)

/-- Select guild by index: the case "g", "guild". -/
def cmdGuild (self : Sys → String → Result × Sys) (w : World) (s : Sys) (args : Args) :
    Result × Sys :=
  if Args.Get args 1 = "" then (.error "Please select a guild index", s)
  else
    match strconv.Atoi (Args.Get args 1) with
    | none => (.error (atoiError (Args.Get args 1)), s)
    | some n =>
      if n ≥ w.Guilds.length ∨ n < 0 then (.error "Index out of bounds", s)
      else
        match w.Guilds.get? n.toNat with
        | none => (.panic "index out of range", s)
        | some guild =>
          let s := s.setClient (s.dt.SetGuild guild.ID)
          let s := s.emit (.printf ("Selected guild: " ++ guild.Name ++ "\n"))
          recurseDropped self s "/c 0"

/-- The index of the first name, counted from `i`, whose lower-cased form the
compiled expression matches. -/
def firstMatch (table : Char → Char) (q : String → Bool) : Nat → List String → Option Nat
  | _, [] => none
  | i, name :: rest =>
    if q (strings.ToLower table name) then some i else firstMatch table q (i + 1) rest

/-- Select guild regex: the case "gr", "guild_regex". -/
def cmdGuildRegex (self : Sys → String → Result × Sys) (w : World) (s : Sys) (args : Args) :
    Result × Sys :=
  if Args.Get args 1 = "" then
    (.error "Please provide a regular expression to search with", s)
  else
    match w.RegexpCompile (strings.ToLower w.UnicodeToLower (Args.After args 1)) with
    | .error err => (.error err, s)
    | .ok q =>
      match firstMatch w.UnicodeToLower q 0 (w.Guilds.map fun g => g.Name) with
      | some i => recurseDropped self s ("/g " ++ strconv.Itoa i)
      | none => (.nil, s)

/-- Select channel: the case "c", "channel". -/
def cmdChannel (w : World) (s : Sys) (args : Args) : Result × Sys :=
  if s.dt.ActiveGuild = "" then (.error "You need to select a guild first", s)
  else if Args.Get args 1 = "" then (.error "Please select a channel index", s)
  else
    match strconv.Atoi (Args.Get args 1) with
    | none => (.error (atoiError (Args.Get args 1)), s)
    | some n =>
      let s := s.emit (.call "GuildChannels" [s.dt.ActiveGuild])
      match w.GuildChannels s.dt.ActiveGuild with
      | .error err => (.error err, s)
      | .ok channels =>
        if n ≥ channels.length ∨ n < 0 then (.error "index out of bounds", s)
        else
          match channels.get? n.toNat with
          | none => (.panic "index out of range", s)
          | some channel =>
            let s := s.setClient (s.dt.SetChannel channel.ID)
            let s := s.setClient (s.dt.MarkRead s.dt.ActiveGuild channel.ID)
            (.nil, s.emit (.printf ("Selected channel: " ++ channel.Name ++ "\n")))

/-- Select channel regex: the case "cr", "channel_regex". -/
def cmdChannelRegex (self : Sys → String → Result × Sys) (w : World) (s : Sys)
    (args : Args) : Result × Sys :=
  if s.dt.ActiveGuild = "" then (.error "You must be in a guild to use this command", s)
  else if Args.Get args 1 = "" then
    (.error "Please provide a regular expression to search with", s)
  else
    match w.RegexpCompile (strings.ToLower w.UnicodeToLower (Args.After args 1)) with
    | .error err => (.error err, s)
    | .ok q =>
      let s := s.emit (.call "GuildChannels" [s.dt.ActiveGuild])
      match w.GuildChannels s.dt.ActiveGuild with
      | .error err => (.error err, s)
      | .ok channels =>
        match firstMatch w.UnicodeToLower q 0 (channels.map fun c => c.Name) with
        | some i => recurseDropped self s ("/c " ++ strconv.Itoa i)
        | none => (.nil, s)

/-- The loop printing messages in the order given. -/
def printMessages (w : World) (s : Sys) : List Message → Result × Sys
  | [] => (.nil, s)
  | m :: rest => andThen (PrintMessage w s m) fun s => printMessages w s rest

/-- Retrieve messages: the case "m", "messages". -/
def cmdMessages (w : World) (s : Sys) (args : Args) : Result × Sys :=
  if s.dt.ActiveChannel = "" then
    (.error "You need to be in a channel to retrieve messages", s)
  else
    let n : Int :=
      match strconv.Atoi (Args.Get args 1) with
      | some n => n
      | none => 10
    let s := s.emit (.call "ChannelMessages" [s.dt.ActiveChannel, strconv.Itoa n])
    match w.ChannelMessages s.dt.ActiveChannel n with
    | .error err => (.error err, s)
    | .ok messages =>
      if messages.length = 0 then (.nil, s.println ["No messages to retrieve"])
      else printMessages w s messages.reverse

/-- Uploads a file: the case "upload". -/
def cmdUpload (w : World) (s : Sys) (args : Args) : Result × Sys :=
  if s.dt.ActiveChannel = "" then (.error "You need to be in a channel to upload a file", s)
  else if Args.Get args 1 = "" then (.error "Please enter a file path to upload", s)
  else
    let s := s.emit (.file "Stat" (Args.Get args 1))
    match w.Stat (Args.Get args 1) with
    | .error err => (.error err, s)
    | .ok name =>
      let s := s.emit (.file "Open" (Args.Get args 1))
      match w.Open (Args.Get args 1) with
      | some err => (.error err, s)
      | none => (.nil, s.emit (.call "ChannelFileSend" [s.dt.ActiveChannel, name]))

/-- The cases "img-width" and "img-height". -/
def cmdImgSize (s : Sys) (args : Args) (height : Bool) : Result × Sys :=
  match strconv.Atoi (Args.Get args 1) with
  | some n =>
    if height then
      (.nil, (s.setConf { s.dt.Conf with ImageHeight := uintOfInt n }).println
        ["Image height set to ", strconv.Itoa n])
    else
      (.nil, (s.setConf { s.dt.Conf with ImageWidth := uintOfInt n }).println
        ["Image width set to ", strconv.Itoa n])
  | none => (.error "Invalid number", s)

/-- The case "img-auto". -/
def cmdImgAuto (w : World) (s : Sys) (args : Args) : Result × Sys :=
  if Args.Get args 1 = "" then (.nil, s.println [formatBoolOnOff s.dt.Conf.ShowImages])
  else
    let s :=
      if isOn w.UnicodeToLower (Args.Get args 1) then
        (s.setConf { s.dt.Conf with ShowImages := true }).println
          ["Now automatically displaying images"]
      else s
    let s :=
      if isOff w.UnicodeToLower (Args.Get args 1) then
        (s.setConf { s.dt.Conf with ShowImages := false }).println
          ["No longer automatically displaying images"]
      else s
    (.nil, s)

/-- The case "img-color". -/
def cmdImgColor (w : World) (s : Sys) (args : Args) : Result × Sys :=
  if Args.Get args 1 = "" then (.nil, s.println [formatBoolOnOff s.dt.Conf.ColorImages])
  else
    let s :=
      if isOn w.UnicodeToLower (Args.Get args 1) then
        (s.setConf { s.dt.Conf with ColorImages := true }).println
          ["Images will be rendered in color"]
      else s
    let s :=
      if isOff w.UnicodeToLower (Args.Get args 1) then
        (s.setConf { s.dt.Conf with ColorImages := false }).println
          ["Images will be rendered in grayscale"]
      else s
    (.nil, s)

/-- The case "text-color". -/
def cmdTextColor (w : World) (s : Sys) (args : Args) : Result × Sys :=
  if Args.Get args 1 = "" then (.nil, s.println [formatBoolOnOff s.dt.Conf.ColorText])
  else
    let s :=
      if isOn w.UnicodeToLower (Args.Get args 1) then
        (s.println ["Text will be colored"]).setConf { s.dt.Conf with ColorText := true }
      else s
    let s :=
      if isOff w.UnicodeToLower (Args.Get args 1) then
        (s.println ["Text will not be colored"]).setConf { s.dt.Conf with ColorText := false }
      else s
    (.nil, s)

/-- The case "show-nicknames", "show-nicks". -/
def cmdShowNicknames (w : World) (s : Sys) (args : Args) : Result × Sys :=
  if Args.Get args 1 = "" then (.nil, s.println [formatBoolOnOff s.dt.Conf.ShowNicknames])
  else if isOn w.UnicodeToLower (Args.Get args 1) then
    (.nil, (s.println ["Nicknames will be displayed"]).setConf
      { s.dt.Conf with ShowNicknames := true })
  else if isOff w.UnicodeToLower (Args.Get args 1) then
    (.nil, (s.println ["Nicknames will not be displayed"]).setConf
      { s.dt.Conf with ShowNicknames := false })
  else (.nil, s)

/-- The width the cases "img" and "avatar" take from argument 2. -/
def argWidth (s : Sys) (args : Args) : Nat :=
  match strconv.Atoi (Args.Get args 2) with
  | some n => uintOfInt n
  | none => s.dt.Conf.ImageWidth

/-- The last message whose ID contains the text, as the loop of "img" finds it. -/
def lastContaining (messages : List Message) (text : String) : Option Message :=
  (messages.filter fun m => strings.Contains m.ID text).getLast?

/-- The case "img". -/
def cmdImg (w : World) (s : Sys) (args : Args) : Result × Sys :=
  if s.dt.ActiveChannel = "" then
    (.error "You need to be in a channel to use this command", s)
  else if Args.Get args 1 = "" then (.error "Please provide a message ID", s)
  else
    let width := argWidth s args
    let s := s.emit (.call "ChannelMessages" [s.dt.ActiveChannel, "100"])
    match w.ChannelMessages s.dt.ActiveChannel 100 with
    | .error err => (.error err, s)
    | .ok messages =>
      match lastContaining messages (Args.Get args 1) with
      | none =>
        (.error ("Message ID was not in the past 100 messages, " ++
          "or did not contain the given substring"), s)
      | some m =>
        PrintMessageComplex w s m
          { ColorText := s.dt.Conf.ColorText, ImageWidth := width, ImageHeight := 0,
            ShowImages := true, ColorImages := s.dt.Conf.ColorImages,
            ShowNicknames := false }

/-- The rest of the case "avatar" once the URL is known. -/
def showAvatar (w : World) (s : Sys) (args : Args) (avatarURL : String) : Result × Sys :=
  let width := argWidth s args
  let s :=
    if s.dt.Conf.ColorText then s.emit (.println [paint .green avatarURL])
    else s.println [avatarURL]
  (.nil, (PrintImageURLComplex w s avatarURL
    { ShowImages := true, ColorText := s.dt.Conf.ColorText, ImageWidth := width,
      ColorImages := s.dt.Conf.ColorImages, ImageHeight := 0, ShowNicknames := false }).2)

/-- Prints the avatar of a user: the case "avatar". -/
def cmdAvatar (w : World) (s : Sys) (args : Args) : Result × Sys :=
  if s.dt.ActiveGuild = "" then (.error "You must be in a guild to use this command", s)
  else if Args.Get args 1 ≠ "" then
    let s := s.emit (.call "GuildMember" [s.dt.ActiveGuild, Args.Get args 1])
    match w.GuildMember s.dt.ActiveGuild (Args.Get args 1) with
    | .error err => (.error err, s)
    | .ok m => showAvatar w s args (w.AvatarURL m.User "256")
  else
    match w.StateUser with
    | none => (.panic "invalid memory address or nil pointer dereference", s)
    | some user => showAvatar w s args (w.AvatarURL user "256")

/-- The turns of the read loop of the case "p" that are served from the buffer
of its reader: `ready` are the complete lines the reader holds and `reads`
the reads of os.Stdin still to come. A line is trimmed of its line end and
appended to `lines` until a line is "/send" or "/cancel"; then the loop is
over (`some`), and what the reader still holds is lost with the reader. With
no line left (`none`) the reader has to read again. -/
def paragraphTurns (w : World) (dt : Client) (out : List Effect) (reads : List String) :
    List String → List String → Option (Result × Sys) × List String
  | lines, [] => (none, lines)
  | lines, raw :: ready =>
    let line := strings.Trim raw ['\r', '\n']
    let s : Sys := { dt := dt, out := out, stdin := reads }
    if line = "/send" then
      let s := s.emit (.call "ChannelMessageSend" [dt.ActiveChannel, strings.Join lines "\n"])
      match w.ChannelMessageSend dt.ActiveChannel (strings.Join lines "\n") with
      | some err => (some (.error err, s), lines)
      | none => (some (.nil, s), lines)
    else if line = "/cancel" then (some (.nil, s), lines)
    else paragraphTurns w dt out reads (lines ++ [line]) ready

/-- The read loop of the case "p", `for { line := strings.Trim(ReadInputString(rd), "\r\n") ... }`,
on the reader `rd` the handler creates: `buffer` is what `rd` holds, which
has no line feed in it, and the last argument is what the reads of os.Stdin
still to come return. The reader reads once, the loop takes the complete
lines it then holds one per turn, and so on; the end of the input before a
line feed is the error io.EOF, which is fatal (Must: log.Fatal). -/
def paragraphLoop (w : World) (dt : Client) (out : List Effect) :
    List String → List Char → List String → Result × Sys
  | _, _, [] => (.exit 1, { dt := dt, out := out, stdin := [] })
  | lines, buffer, chunk :: reads =>
    let held := splitLines (buffer ++ chunk.data)
    let turns := paragraphTurns w dt out reads lines held.1
    match turns.1 with
    | some ended => ended
    | none => paragraphLoop w dt out turns.2 held.2 reads

/-- Write a multiline paragraph: the case "p", "paragraph". The reader is a
new `bufio.NewReader(os.Stdin)`, which holds nothing. -/
def cmdParagraph (w : World) (s : Sys) (args : Args) : Result × Sys :=
  if s.dt.ActiveChannel = "" then
    (.error "You need to be in a channel to use this command", s)
  else
    let lines : List String := if Args.After args 1 ≠ "" then [Args.After args 1] else []
    let s := s.println
      ["Enter your paragraph in multiple lines. Type /send or /cancel to finish"]
    paragraphLoop w s.dt s.out lines [] s.stdin

/-- The loop printing the members. -/
def membersLoop (s : Sys) : List Member → Sys
  | [] => s
  | m :: rest =>
    let nicknamePadLeft := padding (35 - utf8.RuneCountInString m.User.Username)
    let s :=
      if s.dt.Conf.ColorText then
        s.emit (.println [paint .cyan m.User.ID, plain "\t", paint .red m.User.Username,
          plain nicknamePadLeft, paint .green m.Nick])
      else s.println [m.User.ID, "\t", m.User.Username, nicknamePadLeft, m.Nick]
    membersLoop s rest

/-- Print a list of guild members: the case "members". -/
def cmdMembers (w : World) (s : Sys) (args : Args) : Result × Sys :=
  if s.dt.ActiveGuild = "" then (.error "You need to be in a guild to use this command", s)
  else
    let s := s.emit (.call "GuildMembers" [s.dt.ActiveGuild, Args.Get args 1, "1000"])
    match w.GuildMembers s.dt.ActiveGuild (Args.Get args 1) 1000 with
    | .error err => (.error err, s)
    | .ok ms =>
      if ms.length = 0 then (.nil, s.println ["No users returned"])
      else (.nil, membersLoop s ms)

/-- The member shown for a presence whose member is not in the state cache. -/
def unknownMember : Member :=
  { User := { ID := "", Username := "-------", Discriminator := "", Avatar := "" },
    Nick := "---------", Roles := [] }

/-- The loop printing the presences. -/
def presencesLoop (w : World) (s : Sys) : List Presence → Sys
  | [] => s
  | p :: rest =>
    let s := s.emit (.call "State.Member" [s.dt.ActiveGuild, p.User.ID])
    let m : Member :=
      match w.StateMember s.dt.ActiveGuild p.User.ID with
      | .ok m => m
      | .error _ => unknownMember
    let game : String :=
      match p.Game with
      | some name => name
      | none => ""
    let nicknamePadLeft := padding (35 - utf8.RuneCountInString m.User.Username)
    let statusPadLeft := padding (25 - utf8.RuneCountInString m.Nick)
    let gamePadLeft := padding (7 - len p.Status)
    let s :=
      if s.dt.Conf.ColorText then
        s.emit (.println [paint .cyan p.User.ID, plain "\t", paint .red m.User.Username,
          plain nicknamePadLeft, paint .green m.Nick, plain statusPadLeft,
          ColorStatus p.Status, plain gamePadLeft, plain game])
      else
        s.println [p.User.ID, "\t", m.User.Username, nicknamePadLeft, m.Nick,
          statusPadLeft, p.Status, gamePadLeft, game]
    presencesLoop w s rest

/-- The case "presences". -/
def cmdPresences (w : World) (s : Sys) : Result × Sys :=
  if s.dt.ActiveGuild = "" then (.error "You need to be in a guild to use this command", s)
  else
    let s := s.emit (.call "State.Guild" [s.dt.ActiveGuild])
    match w.StateGuild s.dt.ActiveGuild with
    | .error err => (.error err, s)
    | .ok guild =>
      if guild.Presences.length = 0 then (.nil, s.println ["No users returned"])
      else (.nil, presencesLoop w s guild.Presences)

/-- The case "delete". -/
def cmdDelete (self : Sys → String → Result × Sys) (w : World) (s : Sys) (args : Args) :
    Result × Sys :=
  if s.dt.ActiveChannel = "" then
    (.error "You need to be in a channel to use this command", s)
  else if Args.Get args 1 = "" then (.error "Please provide a message ID as an argument", s)
  else
    let s := s.emit (.call "ChannelMessageDelete" [s.dt.ActiveChannel, Args.Get args 1])
    match w.ChannelMessageDelete s.dt.ActiveChannel (Args.Get args 1) with
    | some err => (.error err, s)
    | none => recurseDropped self s "/m 25"

/-- The case "edit". -/
def cmdEdit (self : Sys → String → Result × Sys) (w : World) (s : Sys) (args : Args) :
    Result × Sys :=
  if s.dt.ActiveChannel = "" then
    (.error "You need to be in a channel to use this command", s)
  else if Args.Get args 1 = "" then (.error "Please specify a message id", s)
  else
    let s := s.emit (.call "ChannelMessageEdit"
      [s.dt.ActiveChannel, Args.Get args 1, Args.After args 2])
    match w.ChannelMessageEdit s.dt.ActiveChannel (Args.Get args 1) (Args.After args 2) with
    | some err => (.error err, s)
    | none => recurseDropped self s "/m 25"

/-- The loop printing the roles of a guild. -/
def rolesLoop (s : Sys) : List Role → Sys
  | [] => s
  | role :: rest =>
    let s :=
      if s.dt.Conf.ColorText then
        s.emit (.println [paint .cyan role.ID, plain "\t", paint .green role.Name])
      else s.println [role.ID, "\t", role.Name]
    rolesLoop s rest

/-- The rest of the case "roles" once the guild ID is chosen. -/
def showRoles (w : World) (s : Sys) (guildID : String) : Result × Sys :=
  let s := s.emit (.call "State.Guild" [guildID])
  match w.StateGuild guildID with
  | .error err => (.error err, s)
  | .ok guild =>
    if guild.Roles.length = 0 then (.error "No roles found", s)
    else (.nil, rolesLoop s (w.SortRoles guild.Roles))

/-- List the roles in a guild: the case "roles". -/
def cmdRoles (w : World) (s : Sys) (args : Args) : Result × Sys :=
  if Args.Get args 1 ≠ "" then showRoles w s (Args.Get args 1)
  else if s.dt.ActiveGuild = "" then
    (.error "Supply a guildID or enter a guild to use this command", s)
  else showRoles w s s.dt.ActiveGuild

/-- The loop printing the roles of a member. -/
def memberRolesLoop (s : Sys) : List Role → Sys
  | [] => s
  | role :: rest =>
    let s :=
      if s.dt.Conf.ColorText then
        s.emit (.println [plain "    ", paint .cyan role.ID, plain "\t", paint .red role.Name])
      else s.println ["    ", role.ID, "\t", role.Name]
    memberRolesLoop s rest

/-- The rest of the case "member-info" once the user ID is chosen. -/
def showMemberInfo (w : World) (s : Sys) (userID : String) : Result × Sys :=
  let s := s.emit (.call "GuildMember" [s.dt.ActiveGuild, userID])
  match w.GuildMember s.dt.ActiveGuild userID with
  | .error err => (.error err, s)
  | .ok member =>
    let s := s.emit (.call "State.Guild" [s.dt.ActiveGuild])
    match w.StateGuild s.dt.ActiveGuild with
    | .error err => (.error err, s)
    | .ok guild =>
      let memberRoles : List Role :=
        member.Roles.flatMap fun mrole => guild.Roles.filter fun grole => mrole = grole.ID
      let colour (c : Colour) (text : String) : Span :=
        if s.dt.Conf.ColorText then paint c text else plain text
      let s := s.println ["ID           \t", member.User.ID]
      let s := s.emit (.println [plain "Username:    \t", colour .red member.User.Username])
      let s := s.emit (.println [plain "Nickname:    \t", colour .green member.Nick])
      let s := s.emit (.println
        [plain "Discriminator\t", colour .cyan member.User.Discriminator])
      let s := s.emit (.println
        [plain "Avatar URL:  \t", colour .green (w.AvatarURL member.User "")])
      if memberRoles.length > 0 then
        (.nil, memberRolesLoop (s.println ["Roles: "]) memberRoles)
      else (.nil, s)

/-- Prints various information about a member: the case "member-info",
"m-info". -/
def cmdMemberInfo (w : World) (s : Sys) (args : Args) : Result × Sys :=
  if s.dt.ActiveGuild = "" then (.error "You must be in a guild to use this command", s)
  else if Args.Get args 1 = "" then
    match w.StateUser with
    | none => (.panic "invalid memory address or nil pointer dereference", s)
    | some user => showMemberInfo w s user.ID
  else showMemberInfo w s (Args.Get args 1)

/-- Adds a role to a guild member: the case "member-add-role". -/
def cmdMemberAddRole (w : World) (s : Sys) (args : Args) : Result × Sys :=
  if s.dt.ActiveGuild = "" then (.error "You need to be in a guild to use this command", s)
  else if Args.Get args 1 = "" ∨ Args.Get args 2 = "" then
    (.error "Please provide a member ID and a role ID", s)
  else
    let s := s.emit (.call "GuildMemberRoleAdd"
      [s.dt.ActiveGuild, Args.Get args 1, Args.Get args 2])
    match w.GuildMemberRoleAdd s.dt.ActiveGuild (Args.Get args 1) (Args.Get args 2) with
    | some err => (.error err, s)
    | none => (.nil, s.println ["Granted role to user"])

/-- Removes a role from a guild member: the case "member-remove-role". -/
def cmdMemberRemoveRole (w : World) (s : Sys) (args : Args) : Result × Sys :=
  if s.dt.ActiveGuild = "" then (.error "You need to be in a guild to use this command", s)
  else if Args.Get args 1 = "" ∨ Args.Get args 2 = "" then
    (.error "Please provide a memberID and a role ID", s)
  else
    let s := s.emit (.call "GuildMemberRoleRemove"
      [s.dt.ActiveGuild, Args.Get args 1, Args.Get args 2])
    match w.GuildMemberRoleRemove s.dt.ActiveGuild (Args.Get args 1) (Args.Get args 2) with
    | some err => (.error err, s)
    | none => (.nil, s)

/-- Set the nickname of another user: the case "member-nick". -/
def cmdMemberNick (w : World) (s : Sys) (args : Args) : Result × Sys :=
  if s.dt.ActiveGuild = "" then (.error "You need to be in a guild to use this command", s)
  else if Args.Get args 1 = "" then (.error "You need to enter a userID", s)
  else
    let s := s.emit (.call "GuildMemberNickname"
      [s.dt.ActiveGuild, Args.Get args 1, Args.Get args 2])
    match w.GuildMemberNickname s.dt.ActiveGuild (Args.Get args 1) (Args.Get args 2) with
    | some err => (.error err, s)
    | none => (.nil, s.println ["Nickname set to " ++ Args.Get args 2])

/-- Change your username: the case "username". -/
def cmdUsername (w : World) (s : Sys) (args : Args) : Result × Sys :=
  if Args.Get args 1 = "" then
    (.error "Please enter the username you wish to use as an argument", s)
  else
    match w.StateUser with
    | none => (.panic "invalid memory address or nil pointer dereference", s)
    | some user =>
      let s := s.emit (.call "UserUpdate"
        [w.username, w.password, Args.Get args 1, user.Avatar, ""])
      match w.UserUpdate w.username w.password (Args.Get args 1) user.Avatar "" with
      | some err => (.error err, s)
      | none => (.nil, s.println ["Username changed to " ++ Args.Get args 1])

/-- The case "status". -/
def cmdStatus (w : World) (s : Sys) (args : Args) : Result × Sys :=
  if Args.Get args 1 = "" then (.error "Please enter a status to switch to", s)
  else
    let s := s.emit (.call "UserUpdateStatus" [Args.Get args 1])
    match w.UserUpdateStatus (Args.Get args 1) with
    | some err => (.error err, s)
    | none => (.nil, s)

/-- Update your playing status: the case "playing". -/
def cmdPlaying (w : World) (s : Sys) (args : Args) : Result × Sys :=
  let s := s.emit (.call "UpdateStatus" ["0", Args.Get args 1])
  match w.UpdateStatus 0 (Args.Get args 1) with
  | some err => (.error err, s)
  | none => (.nil, s.println ["Playing status set to: ", Args.Get args 1])

/-- The case "playing-off". -/
def cmdPlayingOff (w : World) (s : Sys) : Result × Sys :=
  let s := s.emit (.call "UpdateStatus" ["1", ""])
  match w.UpdateStatus 1 "" with
  | some err => (.error err, s)
  | none => (.nil, s.println ["Playing status set to nothing"])

/-- Set your own nickname: the case "nick". -/
def cmdNick (self : Sys → String → Result × Sys) (s : Sys) (args : Args) : Result × Sys :=
  recurse self s ("/member-nick @me " ++ Args.After args 1)

/-- Leave channel: the case "leave". -/
def cmdLeave (s : Sys) : Result × Sys := (.nil, s.setClient (s.dt.SetChannel ""))

/-- The case "say". -/
def cmdSay (self : Sys → String → Result × Sys) (w : World) (s : Sys) (args : Args) :
    Result × Sys :=
  if s.dt.ActiveChannel = "" then (.error "You are not currently in a channel", s)
  else
    let s := s.emit (.call "ChannelMessageSend" [s.dt.ActiveChannel, Args.After args 1])
    match w.ChannelMessageSend s.dt.ActiveChannel (Args.After args 1) with
    | some err => (.error err, s)
    | none => if !s.dt.Conf.ShowImages then recurseDropped self s "/ls" else (.nil, s)

/-- The body of the selected case of the switch. -/
def runVerb (self : Sys → String → Result × Sys) (w : World) (s : Sys) (args : Args) :
    Verb → Result × Sys
  | .guildList => cmdGuildList w s
  | .channelList => cmdChannelList w s
  | .ls => cmdLs self s
  | .cd => cmdCd self s args
  | .guild => cmdGuild self w s args
  | .guildRegex => cmdGuildRegex self w s args
  | .channel => cmdChannel w s args
  | .channelRegex => cmdChannelRegex self w s args
  | .messages => cmdMessages w s args
  | .upload => cmdUpload w s args
  | .imgWidth => cmdImgSize s args false
  | .imgHeight => cmdImgSize s args true
  | .imgAuto => cmdImgAuto w s args
  | .imgColor => cmdImgColor w s args
  | .textColor => cmdTextColor w s args
  | .img => cmdImg w s args
  | .avatar => cmdAvatar w s args
  | .paragraph => cmdParagraph w s args
  | .members => cmdMembers w s args
  | .presences => cmdPresences w s
  | .delete => cmdDelete self w s args
  | .edit => cmdEdit self w s args
  | .roles => cmdRoles w s args
  | .memberInfo => cmdMemberInfo w s args
  | .memberAddRole => cmdMemberAddRole w s args
  | .memberRemoveRole => cmdMemberRemoveRole w s args
  | .memberNick => cmdMemberNick w s args
  | .showNicknames => cmdShowNicknames w s args
  | .username => cmdUsername w s args
  | .status => cmdStatus w s args
  | .playing => cmdPlaying w s args
  | .playingOff => cmdPlayingOff w s
  | .nick => cmdNick self s args
  | .leave => cmdLeave s
  | .help => (.nil, s.println [helpMessage])
  | .say => cmdSay self w s args
  | .exit => (.exit 0, s)

/-- The argument list of a line: `line[1:]` split at every space. The slice
panics on the empty line (`none`). The slice drops one byte: when the first
character of the line is not ASCII the rest begins inside that character, so
that `args[0]` is no verb; this is the result `some none`. -/
def parseLine (line : String) : Option (Option Args) :=
  match line.data with
  | [] => none
  | c :: rest =>
    if c.toNat < 128 then some (some (strings.Split (String.mk rest) ' ')) else some none

/-- The body of executeCommand, nested calls going to `self`. The test
`strings.HasPrefix(line, "")` of the source holds for every line. -/
def dispatch (self : Sys → String → Result × Sys) (w : World) (s : Sys) (line : String) :
    Result × Sys :=
  match parseLine line with
  | none => (.panic "slice bounds out of range", s)
  | some none => (.nil, s)
  | some (some args) =>
    match parseVerb (Args.Get args 0) with
    | none => (.nil, s)
    | some verb => runVerb self w s args verb

/-- The function executeCommand with at most `depth` levels of nested calls. -/
def executeCommandN (w : World) : Nat → Sys → String → Result × Sys
  | 0 => fun s _ => (.panic "executeCommand: nesting deeper than the program has", s)
  | depth + 1 => dispatch (executeCommandN w depth) w

/-- The function executeCommand executes a command; the program nests its
calls at most three deep (say, ls, m). -/
def executeCommand (w : World) (s : Sys) (line : String) : Result × Sys :=
  executeCommandN w 3 s line

/-- How deep the nested calls of executeCommand go below a handler: "say"
calls "ls", which calls "m". -/
def Verb.nesting : Verb → Nat
  | .ls => 1
  | .guild => 1
  | .channelRegex => 1
  | .delete => 1
  | .edit => 1
  | .nick => 1
  | .cd => 2
  | .guildRegex => 2
  | .say => 2
  | _ => 0

/-- The nesting of the handler a line selects (0 when it selects none). -/
def lineNesting (line : String) : Nat :=
  match parseLine line with
  | some (some args) =>
    match parseVerb (Args.Get args 0) with
    | some verb => verb.nesting
    | none => 0
  | _ => 0

/-- One event of a session: a command line handed to executeCommand, or a
message-created event handed to the handler, each with the answers of the
outside at that time. -/
inductive Event where
  | command (w : World) (line : String)
  | message (w : World) (m : Message)

/-- Run one event. -/
def Event.run (s : Sys) : Event → Result × Sys
  | .command w line => executeCommand w s line
  | .message w m => messageCreate w s m

/-- Run events in order while the process is alive. -/
def runEvents (s : Sys) : List Event → Result × Sys
  | [] => (.nil, s)
  | e :: rest => andThen (e.run s) fun s => runEvents s rest

/-- The state of the program at start-up. -/
def initialSys (conf : Config) (stdin : List String) : Sys :=
  { dt := NewClient (some conf), out := [], stdin := stdin }

/-! ## The input loop (readInputLoop) -/

/-- Go `unicode.IsSpace`: the white space of Unicode. -/
def isSpace (c : Char) : Bool :=
  decide (c.toNat ∈ [9, 10, 11, 12, 13, 32, 133, 160, 5760, 8232, 8233, 8239, 8287, 12288]
    ∨ (8192 ≤ c.toNat ∧ c.toNat ≤ 8202))

/-- Go `strings.TrimSpace(s)`: all leading and trailing white space removed. -/
def strings.TrimSpace (s : String) : String :=
  String.mk ((s.data.dropWhile isSpace).reverse.dropWhile isSpace).reverse

/-- One turn of the loop of readInputLoop on its reader, whose unread buffer
is `rd`: read a line (the end of the input is fatal), trim it, execute it,
and log the error it returns. The buffer of the reader is a local variable of
readInputLoop: the commands do not see it. -/
def readInputStep (w : World) (rd : List Char) (s : Sys) : Result × List Char × Sys :=
  let got := bufio.ReadString rd s.stdin
  match got.1 with
  | none => (.exit 1, got.2.1, { s with stdin := got.2.2 })
  | some raw =>
    let r := executeCommand w { s with stdin := got.2.2 } (strings.TrimSpace raw)
    match r.1 with
    | .error err => (.nil, got.2.1, r.2.emit (.logPrintln err))
    | .nil => (.nil, got.2.1, r.2)
    | .panic message => (.panic message, got.2.1, r.2)
    | .exit status => (.exit status, got.2.1, r.2)

/-! ## Predicates the theorems are stated with -/

/-- The invariant of the selection state: a channel is active only while a
guild is active. -/
def SelOK (dt : Client) : Prop := dt.activeChannel ≠ "" → dt.activeGuild ≠ ""

/-- The handlers that start by requiring an active guild. -/
def needsGuild : List Verb :=
  [.channelList, .channel, .channelRegex, .members, .presences, .avatar, .memberInfo,
    .memberAddRole, .memberRemoveRole, .memberNick]

/-- The handlers that start by requiring an active channel. -/
def needsChannel : List Verb :=
  [.messages, .upload, .img, .paragraph, .delete, .edit, .say]

/-- The toggle commands: "img-auto", "img-color", "text-color" and
"show-nicknames". -/
def toggles : List Verb := [.imgAuto, .imgColor, .textColor, .showNicknames]

/-- The flag of the configuration a toggle command reads and sets (for the
other verbs: false). -/
def toggleFlag (conf : Config) : Verb → Bool
  | .imgAuto => conf.ShowImages
  | .imgColor => conf.ColorImages
  | .textColor => conf.ColorText
  | .showNicknames => conf.ShowNicknames
  | _ => false

/-- The text of a character list that follows its n-th space (the whole list
for n = 0); `none` when it has fewer than n spaces. -/
def textAfterSpaces : Nat → List Char → Option (List Char)
  | 0, cs => some cs
  | _ + 1, [] => none
  | n + 1, c :: cs => if c = ' ' then textAfterSpaces n cs else textAfterSpaces (n + 1) cs

/-- The text following the n-th space as a string, empty when there is none. -/
def tailText (n : Nat) (cs : List Char) : String :=
  match textAfterSpaces n cs with
  | some t => String.mk t
  | none => ""

/-- The largest of a list of ints, and 0 for the empty list (every length
is at least 0). -/
def maxOf : List Int → Int
  | [] => 0
  | x :: rest => MaxInt (maxOf rest) x

/-- The frame width of an embed as the specification words it: the maximum of
the title length, the length of the first line of the description, the
length of the name and of the first line of the value of every field, and,
when images are inlined (`conf.ShowImages`), the image width, or else the
lengths of the image URLs. -/
def specFrameWidth (em : MessageEmbed) (conf : Config) : Int :=
  maxOf ([len em.Title, len (firstLine em.Description)]
    ++ em.Fields.flatMap (fun v => [len v.Name, len (firstLine v.Value)])
    ++ (if conf.ShowImages then [(conf.ImageWidth : Int)]
        else (em.Image.toList ++ em.Thumbnail.toList).map len))

/-- The candidates whose maximum is the frame width PrintEmbeds computes: the
image width counts only when the embed has an image or a thumbnail, and
after its conversion to int. -/
def frameCandidates (em : MessageEmbed) (conf : Config) : List Int :=
  [len em.Title, len (firstLine em.Description)]
    ++ em.Fields.flatMap (fun v => [len v.Name, len (firstLine v.Value)])
    ++ (if conf.ShowImages then
          (if em.Image.isSome ∨ em.Thumbnail.isSome then [intOfUint conf.ImageWidth] else [])
        else (em.Image.toList ++ em.Thumbnail.toList).map len)

/-- The texts a print call writes, one per operand. -/
def Effect.printed : Effect → List String
  | .println operands => operands.map fun operand => operand.text
  | _ => []

/-- Whether a printed line has `text` inside one of its operands. -/
def lineMentions (e : Effect) (text : String) : Bool :=
  e.printed.any fun operand => strings.Contains operand text

/-- The header line of a message: the first thing PrintMessageComplex does
once the display name is resolved. -/
def headerOf (w : World) (s : Sys) (m : Message) (conf : Config) : Option Effect :=
  (PrintMessageComplex w s m conf).2.out.get? (resolveDisplayName w s m conf).2.out.length

/-- The channel of a message as the name resolution finds it: in the state
cache or, failing that, by the remote call. -/
def lookupChannel (w : World) (channelID : String) : Option Channel :=
  match w.StateChannel channelID with
  | .ok channel => some channel
  | .error _ =>
    match w.Channel channelID with
    | .ok channel => some channel
    | .error _ => none

/-- The header line of a message under display name `displayName`: with
coloured text the name, the padding, the message id, a tab and the author id;
without, the name, the padding, a tab and the author id. -/
def headerLine (conf : Config) (displayName : String) (m : Message) : Effect :=
  if conf.ColorText then
    .println [paint .cyan displayName, plain (padding (30 - len displayName)),
      paint .blue m.ID, plain "\t", paint .blue m.Author.ID]
  else
    .println [plain displayName, plain (padding (30 - len displayName)), plain "\t",
      plain m.Author.ID]

/-- Whether the guild ids an event's adapter supplies are non-empty. -/
def Event.guildIdsNonEmpty : Event → Prop
  | .command w _ => ∀ g ∈ w.Guilds, g.ID ≠ ""
  | .message _ _ => True

/-! ## A small world on which the theorems are instantiated -/

/-- A text channel of the guild `demoGuild`. -/
def demoGeneral : Channel := { ID := "c1", Name := "general", GuildID := "g1", Voice := false }

/-- A second text channel of the guild `demoGuild`. -/
def demoRandom : Channel := { ID := "c2", Name := "random", GuildID := "g1", Voice := false }

/-- A guild with two channels. -/
def demoGuild : Guild := { ID := "g1", Name := "Alpha", Roles := [], Presences := [] }

/-- A guild without channels. -/
def demoEmptyGuild : Guild := { ID := "g2", Name := "Beta", Roles := [], Presences := [] }

/-- A third guild, whose channel list cannot be fetched. -/
def demoLostGuild : Guild := { ID := "g3", Name := "Gamma", Roles := [], Presences := [] }

/-- A world with three guilds; every call that sends or changes something
succeeds, every lookup of an unknown id fails. -/
def demoWorld : World where
  Guilds := [demoGuild, demoEmptyGuild, demoLostGuild]
  StateUser := none
  StateChannel := fun id =>
    if id = "c1" then .ok demoGeneral
    else if id = "c2" then .ok demoRandom
    else .error "state cache miss"
  StateGuild := fun id =>
    if id = "g1" then .ok demoGuild
    else if id = "g2" then .ok demoEmptyGuild
    else .error "state cache miss"
  StateMember := fun _ _ => .error "state cache miss"
  Channel := fun _ => .error "HTTP 404 Not Found"
  GuildChannels := fun id =>
    if id = "g1" then .ok [demoGeneral, demoRandom]
    else if id = "g2" then .ok []
    else .error "HTTP 404 Not Found"
  Guild := fun id => if id = "g1" then .ok demoGuild else .error "HTTP 404 Not Found"
  ChannelMessages := fun _ _ => .ok []
  ChannelMessageSend := fun _ _ => none
  ChannelFileSend := fun _ _ => none
  ChannelMessageDelete := fun _ _ => none
  ChannelMessageEdit := fun _ _ _ => none
  GuildMember := fun _ _ => .error "HTTP 404 Not Found"
  GuildMembers := fun _ _ _ => .ok []
  GuildMemberRoleAdd := fun _ _ _ => none
  GuildMemberRoleRemove := fun _ _ _ => none
  GuildMemberNickname := fun _ _ _ => none
  UserUpdate := fun _ _ _ _ _ => none
  UserUpdateStatus := fun _ => none
  UpdateStatus := fun _ _ => none
  AvatarURL := fun u _ => "https://cdn.discordapp.com/avatars/" ++ u.ID
  SortRoles := fun roles => roles
  RegexpCompile := fun pattern => .ok fun name => decide (pattern.data <:+: name.data)
  UnicodeToLower := fun r =>
    if 192 ≤ r.toNat ∧ r.toNat ≤ 222 ∧ r.toNat ≠ 215 then Char.ofNat (r.toNat + 32) else r
  Stat := fun _ => .error "no such file or directory"
  Open := fun _ => some "no such file or directory"
  ImageError := fun _ => none
  username := ""
  password := ""

/-- A message posted in the channel `demoRandom`. -/
def demoMessage : Message :=
  { ID := "m1", ChannelID := "c2", Content := "hello", ContentWithMentionsReplaced := "hello",
    Author := { ID := "u1", Username := "bob", Discriminator := "0001", Avatar := "" },
    Attachments := [], Embeds := [] }

/-- The program right after start-up, with the default configuration and no
console input pending. -/
def demoSys : Sys := initialSys NewConfig []

/-- An embed with a title only: no description, no field, no image and no
thumbnail. -/
def demoEmbed : MessageEmbed :=
  { Title := "hi", Description := "", Fields := [], Image := none, Thumbnail := none }

/-- An embed with a title, one field and an image. -/
def demoPicture : MessageEmbed :=
  { Title := "hi", Description := "", Fields := [{ Name := "size", Value := "3 MB" }],
    Image := some "https://example.org/cat.png", Thumbnail := none }

/-- An embed that is one field and nothing else. -/
def demoFieldEmbed : MessageEmbed :=
  { Title := "", Description := "", Fields := [{ Name := "status", Value := "ok" }],
    Image := none, Thumbnail := none }

/-- The author of `demoMessage` as a member with a nickname. -/
def demoMember : Member :=
  { User := { ID := "u1", Username := "bob", Discriminator := "0001", Avatar := "" },
    Nick := "Bobby", Roles := [] }

/-- The world `demoWorld` with a remote member lookup that succeeds; the
lookup in the state cache still fails. -/
def demoRemoteWorld : World := { demoWorld with GuildMember := fun _ _ => .ok demoMember }

/-- The world `demoWorld` with the author of `demoMessage` in the state
cache. -/
def demoCachedWorld : World := { demoWorld with StateMember := fun _ _ => .ok demoMember }

/-- The message `demoMessage` with the embed `demoFieldEmbed`. -/
def demoEmbedMessage : Message := { demoMessage with Embeds := [demoFieldEmbed] }

/-- The demo program with the channel "c2", the channel of `demoMessage`,
active. -/
def demoActiveSys : Sys :=
  demoSys.setClient ((demoSys.dt.SetGuild "g1").SetChannel "c2")

/-- A guild whose name has a space in it. -/
def demoSpaceGuild : Guild := { ID := "g4", Name := "Delta Four", Roles := [], Presences := [] }

/-- The world `demoWorld` with `demoSpaceGuild` as its only guild. -/
def demoSpaceWorld : World := { demoWorld with Guilds := [demoSpaceGuild] }

/-- The world `demoWorld` with two guilds whose names differ in case only,
beyond ASCII. -/
def demoAccentWorld : World :=
  { demoWorld with
    Guilds := [{ ID := "g5", Name := "ÉCOLE", Roles := [], Presences := [] },
      { ID := "g6", Name := "école", Roles := [], Presences := [] }] }

/-! ## Histories of the unread tracker -/

/-- One call of the unread tracker's mutating interface. -/
inductive Op where
  | markUnread (guildID channelID : String) (numUnread : Int)
  | markRead (guildID channelID : String)
  deriving DecidableEq, Repr

/-- Perform one call. -/
def Op.apply (c : Client) : Op → Client
  | .markUnread g ch d => c.MarkUnread g ch d
  | .markRead g ch => c.MarkRead g ch

/-- Perform a sequence of calls, oldest first. -/
def runOps (c : Client) (ops : List Op) : Client := ops.foldl Op.apply c

/-- The guild and channel a call marks. -/
def Op.target : Op → String × String
  | .markUnread g ch _ => (g, ch)
  | .markRead g ch => (g, ch)

/-- Whether the call is a `MarkUnread`. -/
def Op.isUnread : Op → Bool
  | .markUnread _ _ _ => true
  | .markRead _ _ => false

/-- The channels marked (unread or read) under guild `g` by a history. -/
def everMarked (ops : List Op) (g : String) : Finset String :=
  ((ops.filter fun o => o.target.1 = g).map fun o => o.target.2).toFinset

/-- `MarkUnread(g, c, 1)` called `n` times. -/
def markUnreadTimes (c : Client) (g ch : String) : Nat → Client
  | 0 => c
  | n + 1 => markUnreadTimes (c.MarkUnread g ch 1) g ch n

/-- The key sets of all inner maps of a client are duplicate-free and are
given by `F`. -/
def KeysAre (c : Client) (F : String → Finset String) : Prop :=
  ∀ g, (mapKeys (innerMap c.UnreadChannels g)).Nodup
    ∧ (mapKeys (innerMap c.UnreadChannels g)).toFinset = F g

/-- The increment a call asks for (none for `MarkRead`). -/
def Op.delta : Op → Int
  | .markUnread _ _ d => d
  | .markRead _ _ => 0

/-- The increments of a history added up. -/
def totalDelta (ops : List Op) : Int := (ops.map Op.delta).sum

/-- Every counter stored in the unread table is at least 0, and the counters
of each guild add up to at most `bound`. -/
def CountersWithin (c : Client) (bound : Int) : Prop :=
  ∀ entry ∈ c.UnreadChannels,
    (∀ counter ∈ entry.2, 0 ≤ counter.2) ∧ (entry.2.map Prod.snd).sum ≤ bound

/-! # Theorems -/

/-! ## Arithmetic of `wrap64` -/

theorem wrap64_of_isInt64 {x : Int} (h : isInt64 x) : wrap64 x = x := by
  unfold isInt64 at h
  unfold wrap64
  omega

theorem isInt64_wrap64 (x : Int) : isInt64 (wrap64 x) := by
  unfold isInt64 wrap64
  omega

theorem wrap64_add_left (a b : Int) : wrap64 (wrap64 a + b) = wrap64 (a + b) := by
  unfold wrap64
  omega

theorem wrap64_zero : wrap64 0 = 0 := by decide

/-! ## Lookup after assignment -/

theorem mapGet_mapSet_same {β : Type} (m : List (String × β)) (k : String) (v : β) :
    mapGet (mapSet m k v) k = some v := by
  induction m with
  | nil => simp [mapSet, mapGet]
  | cons p rest ih =>
    obtain ⟨k', v'⟩ := p
    by_cases h : k' = k
    · simp [mapSet, mapGet, h]
    · simp [mapSet, mapGet, h, ih]

theorem mapGet_mapSet_ne {β : Type} (m : List (String × β)) (k k2 : String) (v : β)
    (h : k2 ≠ k) : mapGet (mapSet m k v) k2 = mapGet m k2 := by
  induction m with
  | nil =>
    have h' : ¬ k = k2 := fun e => h e.symm
    simp [mapSet, mapGet, h']
  | cons p rest ih =>
    obtain ⟨k', v'⟩ := p
    by_cases h1 : k' = k
    · subst h1
      have h' : ¬ k' = k2 := fun e => h e.symm
      simp [mapSet, mapGet, h']
    · by_cases h2 : k' = k2
      · subst h2
        simp [mapSet, mapGet, h1]
      · simp [mapSet, mapGet, h1, h2, ih]

theorem innerMap_mapSet_same (t : UnreadTable) (g : String) (m : List (String × Int)) :
    innerMap (mapSet t g m) g = m := by
  simp [innerMap, mapGet_mapSet_same]

theorem innerMap_mapSet_ne (t : UnreadTable) (g g2 : String) (m : List (String × Int))
    (h : g2 ≠ g) : innerMap (mapSet t g m) g2 = innerMap t g2 := by
  simp [innerMap, mapGet_mapSet_ne _ _ _ _ h]

theorem readCount_mapSet_same (m : List (String × Int)) (k : String) (v : Int) :
    readCount (mapSet m k v) k = v := by
  simp [readCount, mapGet_mapSet_same]

theorem readCount_mapSet_ne (m : List (String × Int)) (k k2 : String) (v : Int)
    (h : k2 ≠ k) : readCount (mapSet m k v) k2 = readCount m k2 := by
  simp [readCount, mapGet_mapSet_ne _ _ _ _ h]

/-- ChannelUnreadMessages reads the counter of the guild's inner map, absent
keys at either level reading as zero. -/
theorem channelUnread_eq (c : Client) (g ch : String) :
    c.ChannelUnreadMessages g ch = readCount (innerMap c.UnreadChannels g) ch := by
  unfold Client.ChannelUnreadMessages readCount innerMap
  cases mapGet c.UnreadChannels g with
  | none => simp [mapGet]
  | some m => rfl

theorem channelUnread_markUnread_same (c : Client) (g ch : String) (d : Int) :
    (c.MarkUnread g ch d).ChannelUnreadMessages g ch
      = addInt (c.ChannelUnreadMessages g ch) d := by
  simp [channelUnread_eq, Client.MarkUnread, innerMap_mapSet_same, readCount_mapSet_same]

theorem channelUnread_markUnread_ne (c : Client) (g ch g2 ch2 : String) (d : Int)
    (h : (g2, ch2) ≠ (g, ch)) :
    (c.MarkUnread g ch d).ChannelUnreadMessages g2 ch2 = c.ChannelUnreadMessages g2 ch2 := by
  by_cases hg : g2 = g
  · subst hg
    have hc : ch2 ≠ ch := fun e => h (by rw [e])
    simp [channelUnread_eq, Client.MarkUnread, innerMap_mapSet_same,
      readCount_mapSet_ne _ _ _ _ hc]
  · simp [channelUnread_eq, Client.MarkUnread, innerMap_mapSet_ne _ _ _ _ hg]

theorem channelUnread_markRead_same (c : Client) (g ch : String) :
    (c.MarkRead g ch).ChannelUnreadMessages g ch = 0 := by
  simp [channelUnread_eq, Client.MarkRead, innerMap_mapSet_same, readCount_mapSet_same]

theorem channelUnread_markRead_ne (c : Client) (g ch g2 ch2 : String)
    (h : (g2, ch2) ≠ (g, ch)) :
    (c.MarkRead g ch).ChannelUnreadMessages g2 ch2 = c.ChannelUnreadMessages g2 ch2 := by
  by_cases hg : g2 = g
  · subst hg
    have hc : ch2 ≠ ch := fun e => h (by rw [e])
    simp [channelUnread_eq, Client.MarkRead, innerMap_mapSet_same,
      readCount_mapSet_ne _ _ _ _ hc]
  · simp [channelUnread_eq, Client.MarkRead, innerMap_mapSet_ne _ _ _ _ hg]

theorem channelUnread_markUnreadTimes (n : Nat) (c : Client) (g ch : String)
    (hk : isInt64 (c.ChannelUnreadMessages g ch)) :
    (markUnreadTimes c g ch n).ChannelUnreadMessages g ch
      = wrap64 (c.ChannelUnreadMessages g ch + n) := by
  induction n generalizing c with
  | zero =>
    simp only [markUnreadTimes, Nat.cast_zero, add_zero]
    exact (wrap64_of_isInt64 hk).symm
  | succ n ih =>
    have h1 : isInt64 ((c.MarkUnread g ch 1).ChannelUnreadMessages g ch) := by
      rw [channelUnread_markUnread_same]
      exact isInt64_wrap64 _
    rw [markUnreadTimes, ih _ h1, channelUnread_markUnread_same, addInt, wrap64_add_left]
    congr 1
    push_cast
    ring

/-! ## Keys and sums of the inner maps -/

theorem mapGet_eq_none_iff {β : Type} (m : List (String × β)) (k : String) :
    mapGet m k = none ↔ k ∉ mapKeys m := by
  induction m with
  | nil => simp [mapGet, mapKeys]
  | cons p rest ih =>
    obtain ⟨k', v'⟩ := p
    by_cases h : k' = k
    · simp [mapGet, mapKeys, h]
    · have h' : ¬ k = k' := fun e => h e.symm
      simp only [mapKeys] at ih
      simp [mapGet, mapKeys, h, h', ih]

theorem mapKeys_mapSet {β : Type} (m : List (String × β)) (k : String) (v : β) :
    mapKeys (mapSet m k v) = if k ∈ mapKeys m then mapKeys m else mapKeys m ++ [k] := by
  induction m with
  | nil => simp [mapSet, mapKeys]
  | cons p rest ih =>
    obtain ⟨k', v'⟩ := p
    simp only [mapKeys] at ih
    by_cases h : k' = k
    · simp [mapSet, mapKeys, h]
    · have h' : ¬ k = k' := fun e => h e.symm
      by_cases hm : k ∈ List.map Prod.fst rest
      · simp [mapSet, mapKeys, h, h', hm, ih]
      · simp [mapSet, mapKeys, h, h', hm, ih]

theorem mapKeys_mapSet_nodup {β : Type} (m : List (String × β)) (k : String) (v : β)
    (h : (mapKeys m).Nodup) : (mapKeys (mapSet m k v)).Nodup := by
  rw [mapKeys_mapSet]
  by_cases hm : k ∈ mapKeys m
  · simpa [hm] using h
  · simp only [hm, if_false]
    rw [List.nodup_append]
    refine ⟨h, List.nodup_singleton k, ?_⟩
    intro a ha hb
    simp only [List.mem_singleton] at hb
    exact hm (hb ▸ ha)

theorem mapKeys_mapSet_toFinset {β : Type} (m : List (String × β)) (k : String) (v : β) :
    (mapKeys (mapSet m k v)).toFinset = insert k (mapKeys m).toFinset := by
  rw [mapKeys_mapSet]
  by_cases hm : k ∈ mapKeys m
  · simp [hm]
  · ext a
    simp [hm, or_comm]

theorem sumLoop_eq (m : List (String × Int)) (acc : Int) (h : isInt64 acc) :
    sumLoop m acc = wrap64 (acc + (m.map Prod.snd).sum) := by
  induction m generalizing acc with
  | nil => simpa [sumLoop] using (wrap64_of_isInt64 h).symm
  | cons p rest ih =>
    obtain ⟨k, v⟩ := p
    rw [sumLoop, addInt, ih _ (isInt64_wrap64 _), wrap64_add_left]
    simp [add_assoc]

theorem values_sum_eq (m : List (String × Int)) (h : (mapKeys m).Nodup) :
    (m.map Prod.snd).sum = ∑ k in (mapKeys m).toFinset, readCount m k := by
  induction m with
  | nil => simp [mapKeys]
  | cons p rest ih =>
    obtain ⟨k, v⟩ := p
    simp only [mapKeys, List.map_cons, List.nodup_cons] at h
    have hk : k ∉ (mapKeys rest).toFinset := by simpa [mapKeys] using h.1
    have ih' := ih (by simpa [mapKeys] using h.2)
    have hkeys : (mapKeys ((k, v) :: rest)).toFinset = insert k (mapKeys rest).toFinset := by
      simp [mapKeys]
    rw [hkeys, Finset.sum_insert hk, List.map_cons, List.sum_cons, ih']
    congr 1
    · simp [readCount, mapGet]
    · apply Finset.sum_congr rfl
      intro a ha
      have hne : ¬ k = a := by
        intro e
        subst e
        exact hk ha
      simp [readCount, mapGet, hne]

theorem keysAre_apply (c : Client) (F : String → Finset String) (o : Op)
    (h : KeysAre c F) :
    KeysAre (o.apply c)
      (fun g => if o.target.1 = g then insert o.target.2 (F g) else F g) := by
  have key : ∀ (g0 c0 : String) (v : Int) (g : String),
      (mapKeys (innerMap (mapSet c.UnreadChannels g0
          (mapSet (innerMap c.UnreadChannels g0) c0 v)) g)).Nodup
      ∧ (mapKeys (innerMap (mapSet c.UnreadChannels g0
          (mapSet (innerMap c.UnreadChannels g0) c0 v)) g)).toFinset
        = if g0 = g then insert c0 (F g) else F g := by
    intro g0 c0 v g
    by_cases hg : g0 = g
    · subst hg
      rw [innerMap_mapSet_same, mapKeys_mapSet_toFinset, (h g0).2]
      exact ⟨mapKeys_mapSet_nodup _ _ _ (h g0).1, by simp⟩
    · have hg' : g ≠ g0 := fun e => hg e.symm
      rw [innerMap_mapSet_ne _ _ _ _ hg']
      simpa [hg] using h g
  intro g
  cases o with
  | markUnread g0 c0 d => exact key g0 c0 _ g
  | markRead g0 c0 => exact key g0 c0 0 g

theorem everMarked_cons (o : Op) (ops : List Op) (g : String) :
    everMarked (o :: ops) g
      = if o.target.1 = g then insert o.target.2 (everMarked ops g) else everMarked ops g := by
  by_cases h : o.target.1 = g
  · simp [everMarked, List.filter_cons, h]
  · simp [everMarked, List.filter_cons, h]

theorem keysAre_runOps (ops : List Op) (c : Client) (F : String → Finset String)
    (h : KeysAre c F) : KeysAre (runOps c ops) (fun g => F g ∪ everMarked ops g) := by
  induction ops generalizing c F with
  | nil => simpa [runOps, everMarked] using h
  | cons o ops ih =>
    have h1 := ih (o.apply c) _ (keysAre_apply c F o h)
    have e : (fun g => (if o.target.1 = g then insert o.target.2 (F g) else F g)
        ∪ everMarked ops g) = fun g => F g ∪ everMarked (o :: ops) g := by
      funext g
      rw [everMarked_cons]
      by_cases hg : o.target.1 = g
      · simp [hg]
      · simp [hg]
    rw [e] at h1
    simpa [runOps] using h1

theorem keysAre_newClient (conf : Option Config) : KeysAre (NewClient conf) (fun _ => ∅) := by
  intro g
  simp [NewClient, innerMap, mapGet, mapKeys]

theorem guildUnread_eq (c : Client) (g : String) :
    c.GuildUnreadMessages g = sumLoop (innerMap c.UnreadChannels g) 0 := by
  unfold Client.GuildUnreadMessages innerMap
  cases mapGet c.UnreadChannels g with
  | none => simp [sumLoop]
  | some m => rfl

theorem channelUnread_runOps_zero (g ch : String) (ops : List Op) (c : Client)
    (h0 : c.ChannelUnreadMessages g ch = 0)
    (h : ∀ o ∈ ops, o.isUnread = true → o.target ≠ (g, ch)) :
    (runOps c ops).ChannelUnreadMessages g ch = 0 := by
  induction ops generalizing c with
  | nil => simpa [runOps] using h0
  | cons o ops ih =>
    have hstep : (o.apply c).ChannelUnreadMessages g ch = 0 := by
      cases o with
      | markUnread g0 c0 d =>
        have hne : (g, ch) ≠ (g0, c0) := fun e =>
          h (Op.markUnread g0 c0 d) (List.mem_cons_self _ _) rfl e.symm
        simpa [Op.apply, channelUnread_markUnread_ne c g0 c0 g ch d hne] using h0
      | markRead g0 c0 =>
        by_cases e : (g, ch) = (g0, c0)
        · cases e
          exact channelUnread_markRead_same c g ch
        · simpa [Op.apply, channelUnread_markRead_ne c g0 c0 g ch e] using h0
    have := ih (o.apply c) hstep (fun o' ho' => h o' (List.mem_cons_of_mem _ ho'))
    simpa [runOps] using this

theorem mapSet_allZero (m : List (String × Int)) (k : String)
    (h : ∀ p ∈ m, p.2 = 0) : ∀ p ∈ mapSet m k 0, p.2 = 0 := by
  induction m with
  | nil => simp [mapSet]
  | cons q rest ih =>
    obtain ⟨k', v'⟩ := q
    have hq : v' = 0 := h (k', v') (List.mem_cons_self _ _)
    have hrest : ∀ p ∈ rest, p.2 = 0 := fun p hp => h p (List.mem_cons_of_mem _ hp)
    by_cases e : k' = k
    · intro p hp
      simp only [mapSet, e, if_true, List.mem_cons] at hp
      rcases hp with hp | hp
      · rw [hp]
      · exact hrest p hp
    · intro p hp
      simp only [mapSet, e, if_false, List.mem_cons] at hp
      rcases hp with hp | hp
      · rw [hp]; exact hq
      · exact ih hrest p hp

theorem sumLoop_allZero (m : List (String × Int)) (h : ∀ p ∈ m, p.2 = 0) :
    sumLoop m 0 = 0 := by
  induction m with
  | nil => rfl
  | cons q rest ih =>
    obtain ⟨k', v'⟩ := q
    have hq : v' = 0 := h (k', v') (List.mem_cons_self _ _)
    subst hq
    have e : addInt 0 0 = 0 := by decide
    rw [sumLoop, e]
    exact ih (fun p hp => h p (List.mem_cons_of_mem _ hp))

theorem innerMap_runOps_allZero (g : String) (ops : List Op) (c : Client)
    (h0 : ∀ p ∈ innerMap c.UnreadChannels g, p.2 = 0)
    (h : ∀ o ∈ ops, o.isUnread = true → o.target.1 ≠ g) :
    ∀ p ∈ innerMap (runOps c ops).UnreadChannels g, p.2 = 0 := by
  induction ops generalizing c with
  | nil => simpa [runOps] using h0
  | cons o ops ih =>
    have hstep : ∀ p ∈ innerMap (o.apply c).UnreadChannels g, p.2 = 0 := by
      cases o with
      | markUnread g0 c0 d =>
        have hne : g ≠ g0 := fun e =>
          h (Op.markUnread g0 c0 d) (List.mem_cons_self _ _) rfl e.symm
        simpa [Op.apply, Client.MarkUnread, innerMap_mapSet_ne _ _ _ _ hne] using h0
      | markRead g0 c0 =>
        by_cases e : g = g0
        · subst e
          simp only [Op.apply, Client.MarkRead, innerMap_mapSet_same]
          exact mapSet_allZero _ _ h0
        · simpa [Op.apply, Client.MarkRead, innerMap_mapSet_ne _ _ _ _ e] using h0
    have := ih (o.apply c) hstep (fun o' ho' => h o' (List.mem_cons_of_mem _ ho'))
    simpa [runOps] using this

/-! ## The unread tracker: claims C1 to C4 -/

/-- C1: from a state in which the counter of `(g, ch)` holds the int `k`,
`n` calls of `MarkUnread(g, ch, 1)` make `ChannelUnreadMessages(g, ch)` return
Go's `k + n`; that is exactly `k + n` as long as it fits the int type, and
exactly `n` when `(g, ch)` had never been marked. -/
theorem markUnread_n_times_count (c : Client) (g ch : String) (n : Nat)
    (hk : isInt64 (c.ChannelUnreadMessages g ch)) :
    (markUnreadTimes c g ch n).ChannelUnreadMessages g ch
        = addInt (c.ChannelUnreadMessages g ch) n
    ∧ (c.ChannelUnreadMessages g ch + n < 9223372036854775808 →
        (markUnreadTimes c g ch n).ChannelUnreadMessages g ch
          = c.ChannelUnreadMessages g ch + n)
    ∧ (mapGet (innerMap c.UnreadChannels g) ch = none → (n : Int) < 9223372036854775808 →
        (markUnreadTimes c g ch n).ChannelUnreadMessages g ch = n) := by
  have main := channelUnread_markUnreadTimes n c g ch hk
  refine ⟨main, ?_, ?_⟩
  · intro hlt
    rw [main]
    apply wrap64_of_isInt64
    unfold isInt64 at hk ⊢
    omega
  · intro hnone hlt
    have h0 : c.ChannelUnreadMessages g ch = 0 := by
      rw [channelUnread_eq, readCount, hnone]
    rw [main, h0, zero_add]
    apply wrap64_of_isInt64
    unfold isInt64
    omega

/-- Witness of C1: three marks on the fresh client give a count of 3. -/
theorem markUnread_n_times_count_witness :
    (markUnreadTimes (NewClient none) "g" "c" 3).ChannelUnreadMessages "g" "c" = 3 :=
  (markUnread_n_times_count (NewClient none) "g" "c" 3 (by decide)).2.2
    (by decide) (by decide)

/-- C2: after `MarkRead(g, ch)` the counter of `(g, ch)` reads 0, the counter
of every other pair reads what it read before, and the selection state (and
the configuration) are untouched. -/
theorem markRead_resets_only_target (c : Client) (g ch : String) :
    (c.MarkRead g ch).ChannelUnreadMessages g ch = 0
    ∧ (∀ g2 ch2, (g2, ch2) ≠ (g, ch) →
        (c.MarkRead g ch).ChannelUnreadMessages g2 ch2 = c.ChannelUnreadMessages g2 ch2)
    ∧ (c.MarkRead g ch).ActiveGuild = c.ActiveGuild
    ∧ (c.MarkRead g ch).ActiveChannel = c.ActiveChannel
    ∧ (c.MarkRead g ch).Conf = c.Conf :=
  ⟨channelUnread_markRead_same c g ch,
   fun g2 ch2 h => channelUnread_markRead_ne c g ch g2 ch2 h, rfl, rfl, rfl⟩

/-- C3: in every state reached from the new client by mark calls,
`GuildUnreadMessages(g)` is the int sum of `ChannelUnreadMessages(g, ch)` over
the channels ever marked under `g`: the sum wrapped to 64 bits, hence the
sum itself whenever that fits the int type. -/
theorem guildUnread_eq_sum_of_channels (conf : Option Config) (ops : List Op) (g : String) :
    (runOps (NewClient conf) ops).GuildUnreadMessages g
        = wrap64 (∑ ch in everMarked ops g,
            (runOps (NewClient conf) ops).ChannelUnreadMessages g ch)
    ∧ (isInt64 (∑ ch in everMarked ops g,
            (runOps (NewClient conf) ops).ChannelUnreadMessages g ch) →
        (runOps (NewClient conf) ops).GuildUnreadMessages g
          = ∑ ch in everMarked ops g,
              (runOps (NewClient conf) ops).ChannelUnreadMessages g ch) := by
  have hkeys := keysAre_runOps ops (NewClient conf) _ (keysAre_newClient conf) g
  simp only [Finset.empty_union] at hkeys
  have main : (runOps (NewClient conf) ops).GuildUnreadMessages g
        = wrap64 (∑ ch in everMarked ops g,
            (runOps (NewClient conf) ops).ChannelUnreadMessages g ch) := by
    rw [guildUnread_eq, sumLoop_eq _ _ (by decide), zero_add, values_sum_eq _ hkeys.1,
      hkeys.2]
    congr 1
    apply Finset.sum_congr rfl
    intro a _
    rw [channelUnread_eq]
  exact ⟨main, fun h => by rw [main]; exact wrap64_of_isInt64 h⟩

/-- C4: a lookup of an absent guild or of an absent channel returns 0, both
queries being total functions; in every state reached from the new client,
a pair never marked unread has channel count 0 and a guild none of whose
channels was marked unread has guild total 0. -/
theorem unmarked_reads_zero (c : Client) (conf : Option Config) (ops : List Op) (g ch : String) :
    (mapGet c.UnreadChannels g = none →
        c.ChannelUnreadMessages g ch = 0 ∧ c.GuildUnreadMessages g = 0)
    ∧ (mapGet (innerMap c.UnreadChannels g) ch = none → c.ChannelUnreadMessages g ch = 0)
    ∧ ((∀ o ∈ ops, o.isUnread = true → o.target ≠ (g, ch)) →
        (runOps (NewClient conf) ops).ChannelUnreadMessages g ch = 0)
    ∧ ((∀ o ∈ ops, o.isUnread = true → o.target.1 ≠ g) →
        (runOps (NewClient conf) ops).GuildUnreadMessages g = 0) := by
  refine ⟨?_, ?_, ?_, ?_⟩
  · intro h
    simp [Client.ChannelUnreadMessages, Client.GuildUnreadMessages, h]
  · intro h
    rw [channelUnread_eq, readCount, h]
  · intro h
    exact channelUnread_runOps_zero g ch ops _ (by simp [Client.ChannelUnreadMessages,
      NewClient, mapGet]) h
  · intro h
    rw [guildUnread_eq]
    apply sumLoop_allZero
    exact innerMap_runOps_allZero g ops _ (by simp [NewClient, innerMap, mapGet]) h

/-! ## Frame lemmas: what printing leaves alone -/

@[simp] theorem emit_dt (s : Sys) (e : Effect) : (s.emit e).dt = s.dt := rfl

@[simp] theorem emit_stdin (s : Sys) (e : Effect) : (s.emit e).stdin = s.stdin := rfl

@[simp] theorem println_dt (s : Sys) (l : List String) : (s.println l).dt = s.dt := rfl

@[simp] theorem println_stdin (s : Sys) (l : List String) : (s.println l).stdin = s.stdin := rfl

@[simp] theorem setClient_dt (s : Sys) (dt : Client) : (s.setClient dt).dt = dt := rfl

@[simp] theorem setConf_activeGuild (s : Sys) (c : Config) :
    (s.setConf c).dt.activeGuild = s.dt.activeGuild := rfl

@[simp] theorem setConf_activeChannel (s : Sys) (c : Config) :
    (s.setConf c).dt.activeChannel = s.dt.activeChannel := rfl

@[simp] theorem setConf_unread (s : Sys) (c : Config) :
    (s.setConf c).dt.UnreadChannels = s.dt.UnreadChannels := rfl

theorem andThen_dt (r : Result × Sys) (k : Sys → Result × Sys) (d : Client)
    (h1 : r.2.dt = d) (h2 : ∀ s, s.dt = d → (k s).2.dt = d) : (andThen r k).2.dt = d := by
  unfold andThen
  split
  · exact h2 _ h1
  · exact h1

@[simp] theorem printImageURLComplex_dt (w : World) (s : Sys) (path : String) (conf : Config) :
    (PrintImageURLComplex w s path conf).2.dt = s.dt := rfl

@[simp] theorem printEmbedImage_dt (w : World) (s : Sys) (image : Option String)
    (conf : Config) : (printEmbedImage w s image conf).dt = s.dt := by
  unfold printEmbedImage
  cases image with
  | none => rfl
  | some url =>
    simp only []
    cases h : (PrintImageURLComplex w s url conf).1 with
    | none => split_ifs <;> simp
    | some err => split_ifs <;> simp

@[simp] theorem printEmbedFields_dt (fw : Int) (fields : List MessageEmbedField) (s : Sys) :
    (printEmbedFields s fw fields).2.dt = s.dt := by
  induction fields generalizing s with
  | nil => rfl
  | cons v rest ih =>
    unfold printEmbedFields
    split
    · rfl
    · simp [ih]

@[simp] theorem printEmbed_dt (w : World) (s : Sys) (em : MessageEmbed) (conf : Config) :
    (printEmbed w s em conf).2.dt = s.dt := by
  unfold printEmbed
  simp only []
  split
  · rfl
  · apply andThen_dt
    · simp only [printEmbedFields_dt, printEmbedImage_dt]
      repeat' split
      all_goals simp
    · intro s' hs'
      split
      · exact hs'
      · simpa using hs'

@[simp] theorem printEmbeds_dt (w : World) (conf : Config) (embeds : List MessageEmbed)
    (s : Sys) : (PrintEmbeds w s conf embeds).2.dt = s.dt := by
  induction embeds generalizing s with
  | nil => rfl
  | cons em rest ih =>
    unfold PrintEmbeds
    apply andThen_dt
    · simp
    · intro s' hs'
      rw [ih, hs']

@[simp] theorem printAttachments_dt (w : World) (conf : Config)
    (attachments : List MessageAttachment) (s : Sys) :
    (PrintAttachments w s conf attachments).dt = s.dt := by
  induction attachments generalizing s with
  | nil => rfl
  | cons a rest ih =>
    unfold PrintAttachments
    repeat' split
    all_goals simp [ih]

@[simp] theorem memberNickname_dt (w : World) (s : Sys) (channel : Channel) (m : Message) :
    (memberNickname w s channel m).2.dt = s.dt := by
  unfold memberNickname
  repeat' split
  all_goals simp

@[simp] theorem fetchNickname_dt (w : World) (s : Sys) (m : Message) :
    (fetchNickname w s m).2.dt = s.dt := by
  unfold fetchNickname
  repeat' split
  all_goals simp

@[simp] theorem resolveDisplayName_dt (w : World) (s : Sys) (m : Message) (conf : Config) :
    (resolveDisplayName w s m conf).2.dt = s.dt := by
  unfold resolveDisplayName
  simp only []
  cases h : (fetchNickname w s m).1 with
  | none => split_ifs <;> simp
  | some nick => split_ifs <;> simp

@[simp] theorem printMessageComplex_dt (w : World) (s : Sys) (m : Message) (conf : Config) :
    (PrintMessageComplex w s m conf).2.dt = s.dt := by
  unfold PrintMessageComplex
  apply andThen_dt
  · simp only [printEmbeds_dt, printAttachments_dt]
    repeat' split
    all_goals simp
  · intro s' hs'
    simpa using hs'

@[simp] theorem printMessage_dt (w : World) (s : Sys) (m : Message) :
    (PrintMessage w s m).2.dt = s.dt := by
  unfold PrintMessage
  simp

@[simp] theorem printMessages_dt (w : World) (messages : List Message) (s : Sys) :
    (printMessages w s messages).2.dt = s.dt := by
  induction messages generalizing s with
  | nil => rfl
  | cons m rest ih =>
    unfold printMessages
    apply andThen_dt
    · simp
    · intro s' hs'
      rw [ih, hs']


/-! ## Frame lemmas: handlers that leave the client alone -/

@[simp] theorem guildListLoop_dt (guilds : List Guild) (i : Nat) (s : Sys) :
    (guildListLoop s i guilds).dt = s.dt := by
  induction guilds generalizing s i with
  | nil => rfl
  | cons g rest ih => simp [guildListLoop, ih]

@[simp] theorem channelListLoop_dt (guild : Guild) (channels : List Channel) (i : Nat)
    (s : Sys) : (channelListLoop guild s i channels).dt = s.dt := by
  induction channels generalizing s i with
  | nil => rfl
  | cons c rest ih =>
    unfold channelListLoop
    split_ifs <;> simp [ih]

@[simp] theorem membersLoop_dt (ms : List Member) (s : Sys) : (membersLoop s ms).dt = s.dt := by
  induction ms generalizing s with
  | nil => rfl
  | cons m rest ih =>
    unfold membersLoop
    simp only [ih]
    split_ifs <;> simp

@[simp] theorem presencesLoop_dt (w : World) (ps : List Presence) (s : Sys) :
    (presencesLoop w s ps).dt = s.dt := by
  induction ps generalizing s with
  | nil => rfl
  | cons p rest ih =>
    unfold presencesLoop
    simp only [ih]
    split_ifs <;> simp

@[simp] theorem rolesLoop_dt (roles : List Role) (s : Sys) : (rolesLoop s roles).dt = s.dt := by
  induction roles generalizing s with
  | nil => rfl
  | cons r rest ih =>
    unfold rolesLoop
    simp only [ih]
    split_ifs <;> simp

@[simp] theorem memberRolesLoop_dt (roles : List Role) (s : Sys) :
    (memberRolesLoop s roles).dt = s.dt := by
  induction roles generalizing s with
  | nil => rfl
  | cons r rest ih =>
    unfold memberRolesLoop
    simp only [ih]
    split_ifs <;> simp

theorem paragraphTurns_dt (w : World) (dt : Client) (out : List Effect)
    (reads : List String) (ready : List String) :
    ∀ (lines : List String) (ended : Result × Sys),
      (paragraphTurns w dt out reads lines ready).1 = some ended → ended.2.dt = dt := by
  induction ready with
  | nil =>
    intro lines ended h
    simp [paragraphTurns] at h
  | cons raw ready ih =>
    intro lines ended h
    unfold paragraphTurns at h
    simp only at h
    split_ifs at h
    · cases hsend : w.ChannelMessageSend dt.ActiveChannel (strings.Join lines "\n") with
      | none =>
        rw [hsend] at h
        simp only [Option.some.injEq] at h
        rw [← h]
        rfl
      | some err =>
        rw [hsend] at h
        simp only [Option.some.injEq] at h
        rw [← h]
        rfl
    · simp only [Option.some.injEq] at h
      rw [← h]
    · exact ih _ _ h

@[simp] theorem paragraphLoop_dt (w : World) (dt : Client) (out : List Effect)
    (stdin : List String) :
    ∀ (lines : List String) (buffer : List Char),
      (paragraphLoop w dt out lines buffer stdin).2.dt = dt := by
  induction stdin with
  | nil => intro lines buffer; rfl
  | cons chunk reads ih =>
    intro lines buffer
    unfold paragraphLoop
    simp only
    cases hturns : (paragraphTurns w dt out reads lines
        (splitLines (buffer ++ chunk.data)).1).1 with
    | none => exact ih _ _
    | some ended => exact paragraphTurns_dt w dt out reads _ _ _ hturns

@[simp] theorem cmdGuildList_dt (w : World) (s : Sys) : (cmdGuildList w s).2.dt = s.dt := by
  simp [cmdGuildList]

@[simp] theorem cmdChannelList_dt (w : World) (s : Sys) :
    (cmdChannelList w s).2.dt = s.dt := by
  unfold cmdChannelList
  simp only [emit_dt, println_dt]
  split_ifs
  · rfl
  · cases w.GuildChannels s.dt.ActiveGuild with
    | error e => rfl
    | ok channels =>
      cases w.Guild s.dt.ActiveGuild with
      | error e => rfl
      | ok guild => simp

@[simp] theorem cmdMessages_dt (w : World) (s : Sys) (args : Args) :
    (cmdMessages w s args).2.dt = s.dt := by
  unfold cmdMessages
  simp only [emit_dt, println_dt]
  split_ifs
  · rfl
  · generalize (match strconv.Atoi (Args.Get args 1) with
      | some n => n
      | none => (10 : Int)) = n
    cases w.ChannelMessages s.dt.ActiveChannel n with
    | error e => rfl
    | ok messages =>
      simp only []
      split_ifs <;> simp

@[simp] theorem cmdUpload_dt (w : World) (s : Sys) (args : Args) :
    (cmdUpload w s args).2.dt = s.dt := by
  unfold cmdUpload
  simp only [emit_dt, println_dt]
  split_ifs
  · rfl
  · rfl
  · cases w.Stat (Args.Get args 1) with
    | error e => rfl
    | ok name => cases w.Open (Args.Get args 1) <;> rfl

@[simp] theorem cmdImg_dt (w : World) (s : Sys) (args : Args) :
    (cmdImg w s args).2.dt = s.dt := by
  unfold cmdImg
  simp only [emit_dt, println_dt]
  split_ifs
  · rfl
  · rfl
  · cases w.ChannelMessages s.dt.ActiveChannel 100 with
    | error e => rfl
    | ok messages =>
      simp only []
      cases lastContaining messages (Args.Get args 1) with
      | none => rfl
      | some m => simp

@[simp] theorem showAvatar_dt (w : World) (s : Sys) (args : Args) (url : String) :
    (showAvatar w s args url).2.dt = s.dt := by
  unfold showAvatar
  repeat' split
  all_goals simp

@[simp] theorem cmdAvatar_dt (w : World) (s : Sys) (args : Args) :
    (cmdAvatar w s args).2.dt = s.dt := by
  unfold cmdAvatar
  simp only [emit_dt, println_dt]
  split_ifs
  · rfl
  · cases w.GuildMember s.dt.ActiveGuild (Args.Get args 1) with
    | error e => rfl
    | ok m => simp
  · cases w.StateUser with
    | none => rfl
    | some user => simp

@[simp] theorem cmdParagraph_dt (w : World) (s : Sys) (args : Args) :
    (cmdParagraph w s args).2.dt = s.dt := by
  unfold cmdParagraph
  repeat' split
  all_goals simp

@[simp] theorem cmdMembers_dt (w : World) (s : Sys) (args : Args) :
    (cmdMembers w s args).2.dt = s.dt := by
  unfold cmdMembers
  simp only [emit_dt, println_dt]
  split_ifs
  · rfl
  · cases w.GuildMembers s.dt.ActiveGuild (Args.Get args 1) 1000 with
    | error e => rfl
    | ok ms =>
      simp only []
      split_ifs <;> simp

@[simp] theorem cmdPresences_dt (w : World) (s : Sys) : (cmdPresences w s).2.dt = s.dt := by
  unfold cmdPresences
  simp only [emit_dt, println_dt]
  split_ifs
  · rfl
  · cases w.StateGuild s.dt.ActiveGuild with
    | error e => rfl
    | ok guild =>
      simp only []
      split_ifs <;> simp

@[simp] theorem showRoles_dt (w : World) (s : Sys) (guildID : String) :
    (showRoles w s guildID).2.dt = s.dt := by
  unfold showRoles
  simp only [emit_dt, println_dt]
  cases w.StateGuild guildID with
  | error e => rfl
  | ok guild =>
    simp only []
    split_ifs <;> simp

@[simp] theorem cmdRoles_dt (w : World) (s : Sys) (args : Args) :
    (cmdRoles w s args).2.dt = s.dt := by
  unfold cmdRoles
  repeat' split
  all_goals simp

@[simp] theorem showMemberInfo_dt (w : World) (s : Sys) (userID : String) :
    (showMemberInfo w s userID).2.dt = s.dt := by
  unfold showMemberInfo
  simp only [emit_dt, println_dt]
  cases w.GuildMember s.dt.ActiveGuild userID with
  | error e => rfl
  | ok member =>
    cases w.StateGuild s.dt.ActiveGuild with
    | error e => rfl
    | ok guild =>
      simp only []
      split_ifs <;> simp

@[simp] theorem cmdMemberInfo_dt (w : World) (s : Sys) (args : Args) :
    (cmdMemberInfo w s args).2.dt = s.dt := by
  unfold cmdMemberInfo
  split_ifs
  · rfl
  · cases w.StateUser with
    | none => rfl
    | some user => simp
  · simp

@[simp] theorem cmdMemberAddRole_dt (w : World) (s : Sys) (args : Args) :
    (cmdMemberAddRole w s args).2.dt = s.dt := by
  unfold cmdMemberAddRole
  simp only [emit_dt, println_dt]
  split_ifs
  · rfl
  · rfl
  · cases w.GuildMemberRoleAdd s.dt.ActiveGuild (Args.Get args 1) (Args.Get args 2) <;> rfl

@[simp] theorem cmdMemberRemoveRole_dt (w : World) (s : Sys) (args : Args) :
    (cmdMemberRemoveRole w s args).2.dt = s.dt := by
  unfold cmdMemberRemoveRole
  simp only [emit_dt, println_dt]
  split_ifs
  · rfl
  · rfl
  · cases w.GuildMemberRoleRemove s.dt.ActiveGuild (Args.Get args 1) (Args.Get args 2) <;> rfl

@[simp] theorem cmdMemberNick_dt (w : World) (s : Sys) (args : Args) :
    (cmdMemberNick w s args).2.dt = s.dt := by
  unfold cmdMemberNick
  simp only [emit_dt, println_dt]
  split_ifs
  · rfl
  · rfl
  · cases w.GuildMemberNickname s.dt.ActiveGuild (Args.Get args 1) (Args.Get args 2) <;> rfl

@[simp] theorem cmdUsername_dt (w : World) (s : Sys) (args : Args) :
    (cmdUsername w s args).2.dt = s.dt := by
  unfold cmdUsername
  simp only [emit_dt, println_dt]
  split_ifs
  · rfl
  · cases w.StateUser with
    | none => rfl
    | some user =>
      simp only []
      cases w.UserUpdate w.username w.password (Args.Get args 1) user.Avatar "" <;> rfl

@[simp] theorem cmdStatus_dt (w : World) (s : Sys) (args : Args) :
    (cmdStatus w s args).2.dt = s.dt := by
  unfold cmdStatus
  simp only [emit_dt, println_dt]
  split_ifs
  · rfl
  · cases w.UserUpdateStatus (Args.Get args 1) <;> rfl

@[simp] theorem cmdPlaying_dt (w : World) (s : Sys) (args : Args) :
    (cmdPlaying w s args).2.dt = s.dt := by
  unfold cmdPlaying
  simp only [emit_dt, println_dt]
  cases w.UpdateStatus 0 (Args.Get args 1) <;> rfl

@[simp] theorem cmdPlayingOff_dt (w : World) (s : Sys) : (cmdPlayingOff w s).2.dt = s.dt := by
  unfold cmdPlayingOff
  simp only [emit_dt, println_dt]
  cases w.UpdateStatus 1 "" <;> rfl

/-- The toggles and the image sizes change the configuration only. -/
theorem cmdImgSize_frame (s : Sys) (args : Args) (height : Bool) :
    (cmdImgSize s args height).2.dt.activeGuild = s.dt.activeGuild
    ∧ (cmdImgSize s args height).2.dt.activeChannel = s.dt.activeChannel
    ∧ (cmdImgSize s args height).2.dt.UnreadChannels = s.dt.UnreadChannels := by
  unfold cmdImgSize
  repeat' split
  all_goals simp

theorem cmdImgAuto_frame (w : World) (s : Sys) (args : Args) :
    (cmdImgAuto w s args).2.dt.activeGuild = s.dt.activeGuild
    ∧ (cmdImgAuto w s args).2.dt.activeChannel = s.dt.activeChannel
    ∧ (cmdImgAuto w s args).2.dt.UnreadChannels = s.dt.UnreadChannels := by
  unfold cmdImgAuto
  repeat' split
  all_goals simp

theorem cmdImgColor_frame (w : World) (s : Sys) (args : Args) :
    (cmdImgColor w s args).2.dt.activeGuild = s.dt.activeGuild
    ∧ (cmdImgColor w s args).2.dt.activeChannel = s.dt.activeChannel
    ∧ (cmdImgColor w s args).2.dt.UnreadChannels = s.dt.UnreadChannels := by
  unfold cmdImgColor
  repeat' split
  all_goals simp

theorem cmdTextColor_frame (w : World) (s : Sys) (args : Args) :
    (cmdTextColor w s args).2.dt.activeGuild = s.dt.activeGuild
    ∧ (cmdTextColor w s args).2.dt.activeChannel = s.dt.activeChannel
    ∧ (cmdTextColor w s args).2.dt.UnreadChannels = s.dt.UnreadChannels := by
  unfold cmdTextColor
  repeat' split
  all_goals simp

theorem cmdShowNicknames_frame (w : World) (s : Sys) (args : Args) :
    (cmdShowNicknames w s args).2.dt.activeGuild = s.dt.activeGuild
    ∧ (cmdShowNicknames w s args).2.dt.activeChannel = s.dt.activeChannel
    ∧ (cmdShowNicknames w s args).2.dt.UnreadChannels = s.dt.UnreadChannels := by
  unfold cmdShowNicknames
  repeat' split
  all_goals simp


/-! ## The selection invariant through the dispatcher -/

theorem recurseDropped_snd (self : Sys → String → Result × Sys) (s : Sys) (line : String) :
    (recurseDropped self s line).2 = (recurse self s line).2 := by
  unfold recurseDropped andThen
  split <;> rfl

theorem recurse_selOK (self : Sys → String → Result × Sys)
    (hself : ∀ s line, SelOK s.dt → SelOK (self s line).2.dt) (s : Sys) (line : String)
    (h : SelOK s.dt) : SelOK (recurse self s line).2.dt :=
  hself _ _ (by simpa using h)

theorem recurseDropped_selOK (self : Sys → String → Result × Sys)
    (hself : ∀ s line, SelOK s.dt → SelOK (self s line).2.dt) (s : Sys) (line : String)
    (h : SelOK s.dt) : SelOK (recurseDropped self s line).2.dt := by
  rw [recurseDropped_snd]
  exact recurse_selOK self hself s line h

theorem selOK_of_eq {d d2 : Client} (h : SelOK d) (hg : d2.activeGuild = d.activeGuild)
    (hc : d2.activeChannel = d.activeChannel) : SelOK d2 := by
  unfold SelOK at *
  rw [hg, hc]
  exact h

theorem cmdLs_selOK (self : Sys → String → Result × Sys)
    (hself : ∀ s line, SelOK s.dt → SelOK (self s line).2.dt) (s : Sys)
    (h : SelOK s.dt) : SelOK (cmdLs self s).2.dt := by
  unfold cmdLs
  split_ifs <;> exact recurseDropped_selOK self hself _ _ h

theorem cmdCd_selOK (self : Sys → String → Result × Sys)
    (hself : ∀ s line, SelOK s.dt → SelOK (self s line).2.dt) (s : Sys) (args : Args)
    (h : SelOK s.dt) : SelOK (cmdCd self s args).2.dt := by
  unfold cmdCd
  split_ifs with h1 h2 h3 h4
  · intro hc
    exact absurd rfl hc
  · intro hc
    simp only [Client.ActiveChannel, ne_eq, not_not] at h2
    exact absurd h2 hc
  · exact h
  · exact recurseDropped_selOK self hself _ _ h
  · exact recurseDropped_selOK self hself _ _ h

theorem cmdGuild_selOK (self : Sys → String → Result × Sys) (w : World)
    (hself : ∀ s line, SelOK s.dt → SelOK (self s line).2.dt)
    (hw : ∀ g ∈ w.Guilds, g.ID ≠ "") (s : Sys) (args : Args)
    (h : SelOK s.dt) : SelOK (cmdGuild self w s args).2.dt := by
  unfold cmdGuild
  split_ifs
  · exact h
  · cases strconv.Atoi (Args.Get args 1) with
    | none => exact h
    | some n =>
      simp only []
      split_ifs
      · exact h
      · cases hget : w.Guilds.get? n.toNat with
        | none => exact h
        | some guild =>
          simp only []
          apply recurseDropped_selOK self hself
          intro _
          exact hw guild (List.get?_mem hget)

theorem cmdGuildRegex_selOK (self : Sys → String → Result × Sys) (w : World)
    (hself : ∀ s line, SelOK s.dt → SelOK (self s line).2.dt) (s : Sys) (args : Args)
    (h : SelOK s.dt) : SelOK (cmdGuildRegex self w s args).2.dt := by
  unfold cmdGuildRegex
  split_ifs
  · exact h
  · cases w.RegexpCompile (strings.ToLower w.UnicodeToLower (Args.After args 1)) with
    | error e => exact h
    | ok q =>
      simp only []
      cases firstMatch w.UnicodeToLower q 0 (w.Guilds.map fun g => g.Name) with
      | none => exact h
      | some i => exact recurseDropped_selOK self hself _ _ h

theorem cmdChannel_selOK (w : World) (s : Sys) (args : Args)
    (h : SelOK s.dt) : SelOK (cmdChannel w s args).2.dt := by
  unfold cmdChannel
  simp only [emit_dt]
  split_ifs with hg ha
  · exact h
  · exact h
  · cases strconv.Atoi (Args.Get args 1) with
    | none => exact h
    | some n =>
      simp only []
      cases w.GuildChannels s.dt.ActiveGuild with
      | error e => exact h
      | ok channels =>
        simp only []
        split_ifs
        · exact h
        · cases channels.get? n.toNat with
          | none => exact h
          | some channel =>
            intro _
            exact hg

theorem cmdChannelRegex_selOK (self : Sys → String → Result × Sys) (w : World)
    (hself : ∀ s line, SelOK s.dt → SelOK (self s line).2.dt) (s : Sys) (args : Args)
    (h : SelOK s.dt) : SelOK (cmdChannelRegex self w s args).2.dt := by
  unfold cmdChannelRegex
  simp only [emit_dt]
  split_ifs
  · exact h
  · exact h
  · cases w.RegexpCompile (strings.ToLower w.UnicodeToLower (Args.After args 1)) with
    | error e => exact h
    | ok q =>
      simp only []
      cases w.GuildChannels s.dt.ActiveGuild with
      | error e => exact h
      | ok channels =>
        simp only []
        cases firstMatch w.UnicodeToLower q 0 (channels.map fun c => c.Name) with
        | none => exact h
        | some i => exact recurseDropped_selOK self hself _ _ h

theorem cmdDelete_selOK (self : Sys → String → Result × Sys) (w : World)
    (hself : ∀ s line, SelOK s.dt → SelOK (self s line).2.dt) (s : Sys) (args : Args)
    (h : SelOK s.dt) : SelOK (cmdDelete self w s args).2.dt := by
  unfold cmdDelete
  simp only [emit_dt]
  split_ifs
  · exact h
  · exact h
  · cases w.ChannelMessageDelete s.dt.ActiveChannel (Args.Get args 1) with
    | some e => exact h
    | none => exact recurseDropped_selOK self hself _ _ h

theorem cmdEdit_selOK (self : Sys → String → Result × Sys) (w : World)
    (hself : ∀ s line, SelOK s.dt → SelOK (self s line).2.dt) (s : Sys) (args : Args)
    (h : SelOK s.dt) : SelOK (cmdEdit self w s args).2.dt := by
  unfold cmdEdit
  simp only [emit_dt]
  split_ifs
  · exact h
  · exact h
  · cases w.ChannelMessageEdit s.dt.ActiveChannel (Args.Get args 1) (Args.After args 2) with
    | some e => exact h
    | none => exact recurseDropped_selOK self hself _ _ h

theorem cmdSay_selOK (self : Sys → String → Result × Sys) (w : World)
    (hself : ∀ s line, SelOK s.dt → SelOK (self s line).2.dt) (s : Sys) (args : Args)
    (h : SelOK s.dt) : SelOK (cmdSay self w s args).2.dt := by
  unfold cmdSay
  simp only [emit_dt]
  split_ifs
  · exact h
  · cases w.ChannelMessageSend s.dt.ActiveChannel (Args.After args 1) with
    | some e => exact h
    | none => exact recurseDropped_selOK self hself _ _ h
  · cases w.ChannelMessageSend s.dt.ActiveChannel (Args.After args 1) with
    | some e => exact h
    | none => exact h

theorem runVerb_selOK (self : Sys → String → Result × Sys) (w : World)
    (hself : ∀ s line, SelOK s.dt → SelOK (self s line).2.dt)
    (hw : ∀ g ∈ w.Guilds, g.ID ≠ "") (s : Sys) (args : Args) (verb : Verb)
    (h : SelOK s.dt) : SelOK (runVerb self w s args verb).2.dt := by
  cases verb
  case ls => exact cmdLs_selOK self hself s h
  case cd => exact cmdCd_selOK self hself s args h
  case guild => exact cmdGuild_selOK self w hself hw s args h
  case guildRegex => exact cmdGuildRegex_selOK self w hself s args h
  case channel => exact cmdChannel_selOK w s args h
  case channelRegex => exact cmdChannelRegex_selOK self w hself s args h
  case delete => exact cmdDelete_selOK self w hself s args h
  case edit => exact cmdEdit_selOK self w hself s args h
  case say => exact cmdSay_selOK self w hself s args h
  case nick => exact recurse_selOK self hself _ _ h
  case leave =>
    intro hc
    exact absurd rfl hc
  case imgWidth =>
    exact selOK_of_eq h (cmdImgSize_frame s args false).1 (cmdImgSize_frame s args false).2.1
  case imgHeight =>
    exact selOK_of_eq h (cmdImgSize_frame s args true).1 (cmdImgSize_frame s args true).2.1
  case imgAuto => exact selOK_of_eq h (cmdImgAuto_frame w s args).1 (cmdImgAuto_frame w s args).2.1
  case imgColor =>
    exact selOK_of_eq h (cmdImgColor_frame w s args).1 (cmdImgColor_frame w s args).2.1
  case textColor =>
    exact selOK_of_eq h (cmdTextColor_frame w s args).1 (cmdTextColor_frame w s args).2.1
  case showNicknames =>
    exact selOK_of_eq h (cmdShowNicknames_frame w s args).1 (cmdShowNicknames_frame w s args).2.1
  all_goals simpa [runVerb] using h

theorem dispatch_selOK (self : Sys → String → Result × Sys) (w : World)
    (hself : ∀ s line, SelOK s.dt → SelOK (self s line).2.dt)
    (hw : ∀ g ∈ w.Guilds, g.ID ≠ "") (s : Sys) (line : String)
    (h : SelOK s.dt) : SelOK (dispatch self w s line).2.dt := by
  unfold dispatch
  cases parseLine line with
  | none => exact h
  | some a =>
    cases a with
    | none => exact h
    | some args =>
      simp only []
      cases parseVerb (Args.Get args 0) with
      | none => exact h
      | some verb => exact runVerb_selOK self w hself hw s args verb h

theorem executeCommandN_selOK (w : World) (hw : ∀ g ∈ w.Guilds, g.ID ≠ "") (depth : Nat)
    (s : Sys) (line : String) (h : SelOK s.dt) :
    SelOK (executeCommandN w depth s line).2.dt := by
  induction depth generalizing s line with
  | zero => exact h
  | succ depth ih => exact dispatch_selOK _ w (fun s line hs => ih s line hs) hw s line h

theorem messageCreate_selection (w : World) (s : Sys) (m : Message) :
    (messageCreate w s m).2.dt.activeGuild = s.dt.activeGuild
    ∧ (messageCreate w s m).2.dt.activeChannel = s.dt.activeChannel := by
  unfold messageCreate
  simp only [emit_dt]
  cases w.StateChannel m.ChannelID with
  | error e => exact ⟨rfl, rfl⟩
  | ok channel =>
    simp only []
    cases w.StateGuild channel.GuildID with
    | error e => exact ⟨rfl, rfl⟩
    | ok guild =>
      simp only []
      split_ifs
      · simp
      · exact ⟨rfl, rfl⟩

/-- Every run of events keeps the selection invariant, when the guild ids of
the adapter are non-empty at each command. -/
theorem runEvents_selOK (events : List Event)
    (hw : ∀ e ∈ events, ∀ w line, e = Event.command w line → ∀ g ∈ w.Guilds, g.ID ≠ "")
    (s : Sys) (h : SelOK s.dt) : SelOK (runEvents s events).2.dt := by
  induction events generalizing s with
  | nil => exact h
  | cons e rest ih =>
    have hstep : SelOK (e.run s).2.dt := by
      cases e with
      | command w line =>
        exact executeCommandN_selOK w
          (hw _ (List.mem_cons_self _ _) w line rfl) 3 s line h
      | message w m =>
        exact selOK_of_eq h (messageCreate_selection w s m).1 (messageCreate_selection w s m).2
    unfold runEvents andThen
    split
    · exact ih (fun e' he' => hw e' (List.mem_cons_of_mem _ he')) _ hstep
    · exact hstep


/-! ## Decimal numerals: `Atoi` reads back what `Itoa` writes -/

theorem asString_data (l : List Char) : l.asString.data = l := rfl

theorem digitValue_digitChar (k : Nat) (h : k < 10) : digitValue (Nat.digitChar k) = some k := by
  interval_cases k <;> rfl

theorem parseDigits_toDigitsCore (fuel n : Nat) (ds : List Char) (h : n < fuel) :
    parseDigits (Nat.toDigitsCore 10 fuel n ds) 0 = parseDigits ds n := by
  induction fuel generalizing n ds with
  | zero => omega
  | succ fuel ih =>
    rw [Nat.toDigitsCore]
    have hd : digitValue (Nat.digitChar (n % 10)) = some (n % 10) :=
      digitValue_digitChar _ (Nat.mod_lt _ (by decide))
    split_ifs with h0
    · have hn : n % 10 = n := Nat.mod_eq_of_lt (by omega)
      rw [hn] at hd
      simp [parseDigits, hd, hn]
    · rw [ih (n / 10) _ (by omega)]
      have hn : n / 10 * 10 + n % 10 = n := by omega
      simp [parseDigits, hd, hn]

theorem toDigitsCore_ne_nil (fuel n : Nat) (ds : List Char) (h : ds ≠ []) :
    Nat.toDigitsCore 10 fuel n ds ≠ [] := by
  induction fuel generalizing n ds with
  | zero => simpa [Nat.toDigitsCore] using h
  | succ fuel ih =>
    rw [Nat.toDigitsCore]
    split_ifs
    · simp
    · exact ih _ _ (by simp)

theorem toDigits_ne_nil (n : Nat) : Nat.toDigits 10 n ≠ [] := by
  rw [Nat.toDigits, Nat.toDigitsCore]
  split_ifs
  · simp
  · exact toDigitsCore_ne_nil _ _ _ (by simp)

theorem parseDigits_toDigits (n : Nat) : parseDigits (Nat.toDigits 10 n) 0 = some n := by
  rw [Nat.toDigits, parseDigits_toDigitsCore _ _ _ (Nat.lt_succ_self n)]
  rfl

theorem parseUnsigned_toDigits (n : Nat) : parseUnsigned (Nat.toDigits 10 n) = some n := by
  have h := toDigits_ne_nil n
  have h2 := parseDigits_toDigits n
  cases hd : Nat.toDigits 10 n with
  | nil => exact absurd hd h
  | cons c cs =>
    rw [hd] at h2
    simpa [parseUnsigned] using h2

theorem parseDigits_all_digits (cs : List Char) (acc v : Nat)
    (h : parseDigits cs acc = some v) : ∀ c ∈ cs, 48 ≤ c.toNat ∧ c.toNat ≤ 57 := by
  induction cs generalizing acc with
  | nil => simp
  | cons c cs ih =>
    intro x hx
    unfold parseDigits at h
    cases hd : digitValue c with
    | none => simp [hd] at h
    | some d =>
      simp only [hd] at h
      rcases List.mem_cons.1 hx with rfl | hx
      · unfold digitValue at hd
        split_ifs at hd with hc
        exact hc
      · exact ih _ h x hx

theorem toDigits_all_digits (n : Nat) : ∀ c ∈ Nat.toDigits 10 n, 48 ≤ c.toNat ∧ c.toNat ≤ 57 :=
  parseDigits_all_digits _ _ _ (parseDigits_toDigits n)

/-- Atoi reads back the numeral Itoa writes, for every value of int. -/
theorem atoi_itoa (n : Int) (h : isInt64 n) : strconv.Atoi (strconv.Itoa n) = some n := by
  unfold isInt64 at h
  unfold strconv.Itoa
  split_ifs with hneg
  · have hdata : ("-" ++ Nat.repr n.natAbs).data = '-' :: Nat.toDigits 10 n.natAbs := by
      simp [Nat.repr, String.data_append, asString_data]
    unfold strconv.Atoi
    rw [hdata]
    simp only [parseUnsigned_toDigits]
    have hle : n.natAbs ≤ 9223372036854775808 := by omega
    simp only [hle, if_true]
    congr 1
    omega
  · have hdata : (Nat.repr n.toNat).data = Nat.toDigits 10 n.toNat := by
      simp [Nat.repr, asString_data]
    have hne := toDigits_ne_nil n.toNat
    have hall := toDigits_all_digits n.toNat
    have hlt : n.toNat < 9223372036854775808 := by omega
    have hcast : ((n.toNat : Nat) : Int) = n := by omega
    unfold strconv.Atoi
    rw [hdata]
    cases hd : Nat.toDigits 10 n.toNat with
    | nil => exact absurd hd hne
    | cons c cs =>
      have hc := hall c (by rw [hd]; exact List.mem_cons_self _ _)
      have hminus : c ≠ '-' := by
        intro e
        rw [e] at hc
        exact absurd hc (by decide)
      have hplus : c ≠ '+' := by
        intro e
        rw [e] at hc
        exact absurd hc (by decide)
      have hp := parseUnsigned_toDigits n.toNat
      rw [hd] at hp
      split
      · rename_i heq
        exact absurd (List.cons.inj heq).1 hminus
      · rename_i heq
        exact absurd (List.cons.inj heq).1 hplus
      · simp [hp, hlt, hcast]

/-- The numeral Itoa writes contains no space. -/
theorem itoa_no_space (n : Int) : ' ' ∉ (strconv.Itoa n).data := by
  have key : ∀ k : Nat, ' ' ∉ Nat.toDigits 10 k := by
    intro k hmem
    exact absurd (toDigits_all_digits k _ hmem) (by decide)
  unfold strconv.Itoa
  split_ifs
  · simp [Nat.repr, String.data_append, asString_data, key]
  · simp [Nat.repr, asString_data, key]

theorem itoa_ne_empty (n : Int) : strconv.Itoa n ≠ "" := by
  intro h
  have hd : (strconv.Itoa n).data = [] := by rw [h]
  unfold strconv.Itoa at hd
  split_ifs at hd
  · simp [String.data_append] at hd
  · simp only [Nat.repr, asString_data] at hd
    exact toDigits_ne_nil _ hd

/-! ## Splitting a line into arguments -/

theorem splitChars_no_sep (sep : Char) (cs : List Char) (h : sep ∉ cs) :
    splitChars sep cs = [cs] := by
  induction cs with
  | nil => rfl
  | cons c cs ih =>
    have hc : c ≠ sep := fun e => h (by simp [e])
    have hcs : sep ∉ cs := fun e => h (List.mem_cons_of_mem _ e)
    simp [splitChars, hc, ih hcs]

theorem splitChars_append_sep (sep : Char) (a b : List Char) (h : sep ∉ a) :
    splitChars sep (a ++ sep :: b) = a :: splitChars sep b := by
  induction a with
  | nil => simp [splitChars]
  | cons c cs ih =>
    have hc : c ≠ sep := fun e => h (by simp [e])
    have hcs : sep ∉ cs := fun e => h (List.mem_cons_of_mem _ e)
    simp [splitChars, hc, ih hcs]

/-- A line made of a one-byte marker, a verb without space, a space and an
argument without space has exactly these two arguments. -/
theorem parseLine_verb_arg (marker : Char) (hm : marker.toNat < 128) (verb arg : String)
    (hv : ' ' ∉ verb.data) (ha : ' ' ∉ arg.data) :
    parseLine (String.mk (marker :: (verb ++ " " ++ arg).data)) = some (some [verb, arg]) := by
  unfold parseLine
  simp only [hm, if_true, strings.Split]
  have e : (verb ++ " " ++ arg).data = verb.data ++ ' ' :: arg.data := by
    simp [String.data_append]
  rw [e, splitChars_append_sep _ _ _ hv, splitChars_no_sep _ _ ha]
  rfl


/-! ## The nesting bound of executeCommand is enough -/

theorem recurse_congr (self1 self2 : Sys → String → Result × Sys) (s : Sys) (line : String)
    (h : ∀ t, self1 t line = self2 t line) : recurse self1 s line = recurse self2 s line := by
  unfold recurse
  exact h _

theorem recurseDropped_congr (self1 self2 : Sys → String → Result × Sys) (s : Sys)
    (line : String) (h : ∀ t, self1 t line = self2 t line) :
    recurseDropped self1 s line = recurseDropped self2 s line := by
  unfold recurseDropped
  rw [recurse_congr self1 self2 s line h]

/-- A synthesised line "/verb rest" selects the handler of the verb. -/
theorem lineNesting_synthesised (verb : String) (v : Verb) (hs : ' ' ∉ verb.data)
    (hv : parseVerb verb = some v) (tail : String) :
    lineNesting (String.mk ('/' :: (verb.data ++ ' ' :: tail.data))) = v.nesting := by
  unfold lineNesting parseLine
  have h47 : ('/' : Char).toNat < 128 := by decide
  simp only [h47, if_true, strings.Split, splitChars_append_sep _ _ _ hs, List.map_cons]
  have h0 : Args.Get (String.mk verb.data :: List.map String.mk (splitChars ' ' tail.data)) 0
      = verb := by
    simp [Args.Get]
  rw [h0, hv]

theorem lineNesting_c (tail : String) : lineNesting ("/c " ++ tail) = 0 :=
  lineNesting_synthesised "c" .channel (by decide) (by decide) tail

theorem lineNesting_g (tail : String) : lineNesting ("/g " ++ tail) = 1 :=
  lineNesting_synthesised "g" .guild (by decide) (by decide) tail

theorem lineNesting_member_nick (tail : String) :
    lineNesting ("/member-nick @me " ++ tail) = 0 := by
  have h := lineNesting_synthesised "member-nick" .memberNick (by decide) (by decide)
    ("@me " ++ tail)
  have e : String.mk ('/' :: ("member-nick".data ++ ' ' :: ("@me " ++ tail).data))
      = "/member-nick @me " ++ tail := by
    apply String.ext
    simp [String.data_append]
  rw [e] at h
  exact h

/-- The handler of a verb consults `self` only on lines of smaller nesting. -/
theorem runVerb_congr (self1 self2 : Sys → String → Result × Sys) (w : World) (s : Sys)
    (args : Args) (verb : Verb)
    (h : ∀ t line, lineNesting line < verb.nesting → self1 t line = self2 t line) :
    runVerb self1 w s args verb = runVerb self2 w s args verb := by
  cases verb
  case ls =>
    have h1 := fun t => h t "/m 25" (by decide)
    have h2 := fun t => h t "/cl" (by decide)
    have h3 := fun t => h t "/gl" (by decide)
    simp only [runVerb, cmdLs, recurseDropped_congr self1 self2 _ _ h1,
      recurseDropped_congr self1 self2 _ _ h2, recurseDropped_congr self1 self2 _ _ h3]
  case guild =>
    have h1 := fun t => h t "/c 0" (by decide)
    simp only [runVerb, cmdGuild, recurseDropped_congr self1 self2 _ _ h1]
  case channelRegex =>
    have h1 := fun i t => h t ("/c " ++ strconv.Itoa i) (by rw [lineNesting_c]; decide)
    simp only [runVerb, cmdChannelRegex, recurseDropped_congr self1 self2 _ _ (h1 _)]
  case delete =>
    have h1 := fun t => h t "/m 25" (by decide)
    simp only [runVerb, cmdDelete, recurseDropped_congr self1 self2 _ _ h1]
  case edit =>
    have h1 := fun t => h t "/m 25" (by decide)
    simp only [runVerb, cmdEdit, recurseDropped_congr self1 self2 _ _ h1]
  case nick =>
    have h1 := fun tail t => h t ("/member-nick @me " ++ tail)
      (by rw [lineNesting_member_nick]; decide)
    simp only [runVerb, cmdNick, recurse_congr self1 self2 _ _ (h1 _)]
  case cd =>
    have h1 := fun tail t => h t ("/c " ++ tail) (by rw [lineNesting_c]; decide)
    have h2 := fun tail t => h t ("/g " ++ tail) (by rw [lineNesting_g]; decide)
    simp only [runVerb, cmdCd, recurseDropped_congr self1 self2 _ _ (h1 _),
      recurseDropped_congr self1 self2 _ _ (h2 _)]
  case guildRegex =>
    have h1 := fun i t => h t ("/g " ++ strconv.Itoa i) (by rw [lineNesting_g]; decide)
    simp only [runVerb, cmdGuildRegex, recurseDropped_congr self1 self2 _ _ (h1 _)]
  case say =>
    have h1 := fun t => h t "/ls" (by decide)
    simp only [runVerb, cmdSay, recurseDropped_congr self1 self2 _ _ h1]
  all_goals rfl

theorem dispatch_congr (self1 self2 : Sys → String → Result × Sys) (w : World) (s : Sys)
    (line : String)
    (h : ∀ t l, lineNesting l < lineNesting line → self1 t l = self2 t l) :
    dispatch self1 w s line = dispatch self2 w s line := by
  unfold dispatch
  unfold lineNesting at h
  cases hp : parseLine line with
  | none => rfl
  | some a =>
    cases a with
    | none => rfl
    | some args =>
      simp only []
      cases hv : parseVerb (Args.Get args 0) with
      | none => rfl
      | some verb =>
        simp only [hp, hv] at h
        exact runVerb_congr self1 self2 w s args verb h

theorem executeCommandN_stable (w : World) (k : Nat) :
    ∀ n m, k < n → k < m → ∀ s line, lineNesting line ≤ k →
      executeCommandN w n s line = executeCommandN w m s line := by
  induction k with
  | zero =>
    intro n m hn hm s line hl
    obtain ⟨n', rfl⟩ := Nat.exists_eq_succ_of_ne_zero (by omega : n ≠ 0)
    obtain ⟨m', rfl⟩ := Nat.exists_eq_succ_of_ne_zero (by omega : m ≠ 0)
    exact dispatch_congr _ _ w s line (fun t l hlt => by omega)
  | succ k ih =>
    intro n m hn hm s line hl
    obtain ⟨n', rfl⟩ := Nat.exists_eq_succ_of_ne_zero (by omega : n ≠ 0)
    obtain ⟨m', rfl⟩ := Nat.exists_eq_succ_of_ne_zero (by omega : m ≠ 0)
    exact dispatch_congr _ _ w s line
      (fun t l hlt => ih n' m' (by omega) (by omega) t l (by omega))

theorem lineNesting_le_two (line : String) : lineNesting line ≤ 2 := by
  unfold lineNesting
  cases parseLine line with
  | none => exact Nat.zero_le _
  | some a =>
    cases a with
    | none => exact Nat.zero_le _
    | some args =>
      simp only []
      cases parseVerb (Args.Get args 0) with
      | none => exact Nat.zero_le _
      | some verb => cases verb <;> decide

/-- Three levels are all executeCommand ever uses: with any larger bound on
the nesting the result is the same, so the bound is never hit. -/
theorem executeCommandN_eq_executeCommand (w : World) (n : Nat) (hn : 3 ≤ n) (s : Sys)
    (line : String) : executeCommandN w n s line = executeCommand w s line :=
  executeCommandN_stable w 2 n 3 (by omega) (by omega) s line (lineNesting_le_two line)

/-! ## Guild selection: claim C6 -/

theorem atoi_itoa_not_int64 (n : Int) (h : ¬ isInt64 n) :
    strconv.Atoi (strconv.Itoa n) = none := by
  unfold isInt64 at h
  unfold strconv.Itoa
  split_ifs with hneg
  · have hdata : ("-" ++ Nat.repr n.natAbs).data = '-' :: Nat.toDigits 10 n.natAbs := by
      simp [Nat.repr, String.data_append, asString_data]
    unfold strconv.Atoi
    rw [hdata]
    simp only [parseUnsigned_toDigits]
    have hle : ¬ n.natAbs ≤ 9223372036854775808 := by omega
    simp only [hle, if_false]
  · have hdata : (Nat.repr n.toNat).data = Nat.toDigits 10 n.toNat := by
      simp [Nat.repr, asString_data]
    have hne := toDigits_ne_nil n.toNat
    have hall := toDigits_all_digits n.toNat
    have hlt : ¬ n.toNat < 9223372036854775808 := by omega
    unfold strconv.Atoi
    rw [hdata]
    cases hd : Nat.toDigits 10 n.toNat with
    | nil => exact absurd hd hne
    | cons c cs =>
      have hc := hall c (by rw [hd]; exact List.mem_cons_self _ _)
      have hminus : c ≠ '-' := by
        intro e
        rw [e] at hc
        exact absurd hc (by decide)
      have hplus : c ≠ '+' := by
        intro e
        rw [e] at hc
        exact absurd hc (by decide)
      have hp := parseUnsigned_toDigits n.toNat
      rw [hd] at hp
      split
      · rename_i heq
        exact absurd (List.cons.inj heq).1 hminus
      · rename_i heq
        exact absurd (List.cons.inj heq).1 hplus
      · simp [hp, hlt]

/-- The handler of "g" returns an error and touches nothing unless its
argument reads as an index into the guild list. -/
theorem cmdGuild_reject (self : Sys → String → Result × Sys) (w : World) (s : Sys)
    (args : Args)
    (h : ∀ n, strconv.Atoi (Args.Get args 1) = some n → n < 0 ∨ n ≥ w.Guilds.length) :
    ∃ msg, cmdGuild self w s args = (.error msg, s) := by
  unfold cmdGuild
  split_ifs
  · exact ⟨_, rfl⟩
  · cases ha : strconv.Atoi (Args.Get args 1) with
    | none => exact ⟨_, rfl⟩
    | some n =>
      have hn := h n ha
      have hn' : n ≥ w.Guilds.length ∨ n < 0 := hn.symm
      simp only [hn', if_true]
      exact ⟨_, rfl⟩

theorem executeCommand_of_verb (w : World) (s : Sys) (line : String) (args : Args)
    (verb : Verb) (hp : parseLine line = some (some args))
    (hv : parseVerb (Args.Get args 0) = some verb) :
    executeCommand w s line = runVerb (executeCommandN w 2) w s args verb := by
  simp [executeCommand, executeCommandN, dispatch, hp, hv]

/-- C6: for every guild list and every integer n with n < 0 or n at least the
length of the list, the line made of a marker byte, "g" or "guild", a space and
the decimal numeral of n makes executeCommand return a non-nil error and leave
the whole program state as it was: the selection, the unread table, the
configuration, and the effect log, so that no nested "/c 0" is dispatched and
nothing is printed. -/
theorem guild_index_out_of_range (w : World) (s : Sys) (marker : Char)
    (hm : marker.toNat < 128) (verb : String) (hv : verb = "g" ∨ verb = "guild")
    (n : Int) (hn : n < 0 ∨ n ≥ w.Guilds.length) :
    ∃ msg, executeCommand w s (String.mk (marker :: (verb ++ " " ++ strconv.Itoa n).data))
      = (.error msg, s) := by
  have hverb : ' ' ∉ verb.data ∧ parseVerb verb = some .guild := by
    rcases hv with rfl | rfl <;> exact ⟨by decide, by decide⟩
  have hp := parseLine_verb_arg marker hm verb (strconv.Itoa n) hverb.1 (itoa_no_space n)
  have h0 : Args.Get [verb, strconv.Itoa n] 0 = verb := by simp [Args.Get]
  have h1 : Args.Get [verb, strconv.Itoa n] 1 = strconv.Itoa n := by simp [Args.Get]
  rw [executeCommand_of_verb w s _ _ .guild hp (by rw [h0]; exact hverb.2)]
  apply cmdGuild_reject
  intro k hk
  rw [h1] at hk
  by_cases hi : isInt64 n
  · rw [atoi_itoa n hi] at hk
    cases hk
    exact hn
  · rw [atoi_itoa_not_int64 n hi] at hk
    cases hk

/-- Witness of C6: index 5 with three guilds. -/
theorem guild_index_out_of_range_witness :
    ∃ msg, executeCommand demoWorld demoSys
        (String.mk ('/' :: ("g" ++ " " ++ strconv.Itoa 5).data)) = (.error msg, demoSys) :=
  guild_index_out_of_range demoWorld demoSys '/' (by decide) "g" (Or.inl rfl) 5
    (Or.inr (by decide))


/-! ## Channel selection: the computation of "c" -/

theorem atoi_empty : strconv.Atoi "" = none := by decide

/-- The handler of "c" on an index that is in range. -/
theorem cmdChannel_select (w : World) (s : Sys) (args : Args) (n : Int)
    (channels : List Channel) (channel : Channel)
    (hg : s.dt.ActiveGuild ≠ "")
    (ha : strconv.Atoi (Args.Get args 1) = some n)
    (hL : w.GuildChannels s.dt.ActiveGuild = .ok channels)
    (h0 : 0 ≤ n) (hget : channels.get? n.toNat = some channel) :
    cmdChannel w s args
      = (.nil, (((s.emit (.call "GuildChannels" [s.dt.ActiveGuild])).setClient
            ((s.dt.SetChannel channel.ID).MarkRead s.dt.ActiveGuild channel.ID)).emit
              (.printf ("Selected channel: " ++ channel.Name ++ "\n")))) := by
  have hne : Args.Get args 1 ≠ "" := by
    intro e
    rw [e, atoi_empty] at ha
    cases ha
  have hlen : n.toNat < channels.length := by
    rcases List.get?_eq_some.1 hget with ⟨h, _⟩
    exact h
  have hrange : ¬ (n ≥ channels.length ∨ n < 0) := by omega
  unfold cmdChannel
  simp only [emit_dt, hL, ha, hget]
  rw [if_neg hg, if_neg hne, if_neg hrange]
  rfl

/-- The handler of "c" when the argument is no index into the list: an
error, and the client is untouched. -/
theorem cmdChannel_reject (w : World) (s : Sys) (args : Args) (channels : List Channel)
    (hL : w.GuildChannels s.dt.ActiveGuild = .ok channels)
    (h : ∀ n, strconv.Atoi (Args.Get args 1) = some n → n < 0 ∨ n ≥ channels.length) :
    ∃ msg, (cmdChannel w s args).1 = .error msg ∧ (cmdChannel w s args).2.dt = s.dt := by
  unfold cmdChannel
  simp only [emit_dt, hL]
  split_ifs
  · exact ⟨_, rfl, rfl⟩
  · exact ⟨_, rfl, rfl⟩
  · cases ha : strconv.Atoi (Args.Get args 1) with
    | none => exact ⟨_, rfl, rfl⟩
    | some n =>
      have hn' : n ≥ channels.length ∨ n < 0 := (h n ha).symm
      simp only [hn', if_true]
      exact ⟨_, rfl, rfl⟩

/-! ## The scenario of claim C7 -/

/-- C7: when guild 0 of the adapter has a non-empty id and a fetchable channel
list whose channel 0 has a non-empty id: "/g 0" returns nil and makes guild 0
the active guild and its channel 0 the active channel; a following "/cd .."
clears the active channel and keeps the guild; a second "/cd .." clears the
active guild. (The lines "/cd .." do not consult the adapter, so its answers
at that time, `w2` and `w3`, are arbitrary; the start state is arbitrary.) -/
theorem select_guild_then_cd_up_twice (w w2 w3 : World) (s : Sys) (guild : Guild)
    (guilds : List Guild) (channel : Channel) (channels : List Channel)
    (hG : w.Guilds = guild :: guilds) (hgid : guild.ID ≠ "")
    (hC : w.GuildChannels guild.ID = .ok (channel :: channels)) (hcid : channel.ID ≠ "") :
    (executeCommand w s "/g 0").1 = .nil
    ∧ (executeCommand w s "/g 0").2.dt.ActiveGuild = guild.ID
    ∧ (executeCommand w s "/g 0").2.dt.ActiveChannel = channel.ID
    ∧ (executeCommand w2 (executeCommand w s "/g 0").2 "/cd ..").1 = .nil
    ∧ (executeCommand w2 (executeCommand w s "/g 0").2 "/cd ..").2.dt.ActiveChannel = ""
    ∧ (executeCommand w2 (executeCommand w s "/g 0").2 "/cd ..").2.dt.ActiveGuild = guild.ID
    ∧ (executeCommand w3 (executeCommand w2 (executeCommand w s "/g 0").2 "/cd ..").2
        "/cd ..").1 = .nil
    ∧ (executeCommand w3 (executeCommand w2 (executeCommand w s "/g 0").2 "/cd ..").2
        "/cd ..").2.dt.ActiveGuild = ""
    ∧ (executeCommand w3 (executeCommand w2 (executeCommand w s "/g 0").2 "/cd ..").2
        "/cd ..").2.dt.ActiveChannel = "" := by
  have pg : parseLine "/g 0" = some (some ["g", "0"]) := by decide
  have pc : parseLine "/c 0" = some (some ["c", "0"]) := by decide
  have pcd : parseLine "/cd .." = some (some ["cd", ".."]) := by decide
  have vg : parseVerb (Args.Get ["g", "0"] 0) = some .guild := by decide
  have vc : parseVerb (Args.Get ["c", "0"] 0) = some .channel := by decide
  have vcd : parseVerb (Args.Get ["cd", ".."] 0) = some .cd := by decide
  have a0 : strconv.Atoi (Args.Get ["g", "0"] 1) = some 0 := by decide
  have a0c : strconv.Atoi (Args.Get ["c", "0"] 1) = some 0 := by decide
  have g1 : Args.Get ["g", "0"] 1 ≠ "" := by decide
  have cd1 : Args.Get ["cd", ".."] 1 = ".." := by decide
  -- the state in which the nested "/c 0" runs
  let s1 : Sys := ((s.setClient (s.dt.SetGuild guild.ID)).emit
    (.printf ("Selected guild: " ++ guild.Name ++ "\n"))).emit (.dispatch "/c 0")
  have hs1g : s1.dt.ActiveGuild = guild.ID := rfl
  have hsel := cmdChannel_select w s1 ["c", "0"] 0 (channel :: channels) channel
    (by rw [hs1g]; exact hgid) a0c (by rw [hs1g]; exact hC) (le_refl 0) rfl
  have hnested : executeCommandN w 2 s1 "/c 0" = cmdChannel w s1 ["c", "0"] := by
    simp [executeCommandN, dispatch, pc, vc, runVerb]
  have hrange : ¬ ((0 : Int) ≥ (w.Guilds.length : Int) ∨ (0 : Int) < 0) := by
    rw [hG]
    simp
  let t1 : Sys := ((s1.emit (.call "GuildChannels" [guild.ID])).setClient
    ((s1.dt.SetChannel channel.ID).MarkRead guild.ID channel.ID)).emit
      (.printf ("Selected channel: " ++ channel.Name ++ "\n"))
  have e1 : executeCommand w s "/g 0" = (.nil, t1) := by
    rw [executeCommand_of_verb w s _ _ .guild pg vg]
    simp only [runVerb, cmdGuild, a0]
    rw [if_neg g1, if_neg hrange]
    have hget : w.Guilds.get? (0 : Int).toNat = some guild := by rw [hG]; rfl
    simp only [hget, recurseDropped, recurse, andThen]
    rw [show executeCommandN w 2 s1 "/c 0" = _ from hnested, hsel]
    rfl
  have e2 : ∀ (t : Sys), t.dt.ActiveChannel ≠ "" →
      executeCommand w2 t "/cd .." = (.nil, t.setClient (t.dt.SetChannel "")) := by
    intro t ht
    rw [executeCommand_of_verb w2 t _ _ .cd pcd vcd]
    simp only [runVerb, cmdCd, cd1, if_true]
    rw [if_pos ht]
  have e3 : ∀ (t : Sys), t.dt.ActiveChannel = "" → t.dt.ActiveGuild ≠ "" →
      executeCommand w3 t "/cd .." = (.nil, t.setClient (t.dt.SetGuild "")) := by
    intro t ht hg
    rw [executeCommand_of_verb w3 t _ _ .cd pcd vcd]
    simp only [runVerb, cmdCd, cd1, if_true]
    rw [if_neg (by simpa using ht), if_pos hg]
  have ht1 : t1.dt.ActiveChannel ≠ "" := hcid
  have e2' := e2 t1 ht1
  have e3' := e3 (t1.setClient (t1.dt.SetChannel "")) rfl hgid
  rw [e1]
  refine ⟨rfl, rfl, rfl, ?_⟩
  rw [show (Result.nil, t1).2 = t1 from rfl, e2']
  refine ⟨rfl, rfl, rfl, ?_⟩
  rw [show (Result.nil, t1.setClient (t1.dt.SetChannel "")).2
    = t1.setClient (t1.dt.SetChannel "") from rfl, e3']
  exact ⟨rfl, rfl, rfl⟩

/-- Witness of C7 on the demo world: guild "g1", channel "c1". -/
theorem select_guild_then_cd_up_twice_witness :
    (executeCommand demoWorld demoSys "/g 0").2.dt.ActiveChannel = "c1"
    ∧ (executeCommand demoWorld (executeCommand demoWorld demoSys "/g 0").2
        "/cd ..").2.dt.ActiveGuild = "g1" :=
  have h := select_guild_then_cd_up_twice demoWorld demoWorld demoWorld demoSys demoGuild
    [demoEmptyGuild, demoLostGuild] demoGeneral [demoRandom] rfl (by decide) rfl (by decide)
  ⟨h.2.2.1, h.2.2.2.2.2.1⟩


/-! ## The selection invariant: claim C8 -/

/-- C8: in every state reached from start-up (nothing selected) by any
sequence of command lines handed to executeCommand, interleaved in any way
with message-created events, the adapter answering differently each time but
always with non-empty guild ids: the active channel is non-empty only if the
active guild is non-empty. -/
theorem channel_selected_only_with_guild (conf : Config) (stdin : List String)
    (events : List Event) (hw : ∀ e ∈ events, e.guildIdsNonEmpty) :
    (runEvents (initialSys conf stdin) events).2.dt.ActiveChannel ≠ "" →
      (runEvents (initialSys conf stdin) events).2.dt.ActiveGuild ≠ "" := by
  apply runEvents_selOK events
  · intro e he w line heq g hg
    have := hw e he
    rw [heq] at this
    exact this g hg
  · intro h
    exact absurd rfl h

/-- Witness of C8: select guild 0, go up, receive a message, select channel 1:
a channel is active at the end, and so is a guild. -/
theorem channel_selected_only_with_guild_witness :
    (runEvents (initialSys NewConfig [])
        [.command demoWorld "/g 0", .command demoWorld "/cd ..",
          .message demoWorld demoMessage, .command demoWorld "/cd 1"]).2.dt.ActiveGuild
      ≠ "" :=
  channel_selected_only_with_guild NewConfig []
    [.command demoWorld "/g 0", .command demoWorld "/cd ..",
      .message demoWorld demoMessage, .command demoWorld "/cd 1"]
    (by
      intro e he
      simp only [List.mem_cons, List.mem_singleton, List.not_mem_nil, or_false] at he
      rcases he with rfl | rfl | rfl | rfl <;>
        simp [Event.guildIdsNonEmpty, demoWorld, demoGuild, demoEmptyGuild, demoLostGuild])
    (by decide)

/-! ## Preconditions of the handlers: claim C9 -/

/-- C9: a handler that requires an active guild, dispatched while no guild is
active, and a handler that requires an active channel, dispatched while no
channel is active, make executeCommand return a non-nil error with a
non-empty message and leave the whole program state as it was: no call of the
session is made (the effect log is unchanged), and the selection, the
configuration and the unread table are unchanged. -/
theorem missing_selection_is_rejected (w : World) (s : Sys) (line : String) (args : Args)
    (verb : Verb) (hp : parseLine line = some (some args))
    (hv : parseVerb (Args.Get args 0) = some verb)
    (h : (verb ∈ needsGuild ∧ s.dt.ActiveGuild = "")
      ∨ (verb ∈ needsChannel ∧ s.dt.ActiveChannel = "")) :
    ∃ msg, msg ≠ "" ∧ executeCommand w s line = (.error msg, s) := by
  rw [executeCommand_of_verb w s line args verb hp hv]
  rcases h with ⟨hmem, hg⟩ | ⟨hmem, hc⟩
  · simp only [needsGuild, List.mem_cons, List.mem_singleton, List.not_mem_nil,
      or_false] at hmem
    rcases hmem with rfl | rfl | rfl | rfl | rfl | rfl | rfl | rfl | rfl | rfl
    · simp [runVerb, cmdChannelList, hg]
    · simp [runVerb, cmdChannel, hg]
    · simp [runVerb, cmdChannelRegex, hg]
    · simp [runVerb, cmdMembers, hg]
    · simp [runVerb, cmdPresences, hg]
    · simp [runVerb, cmdAvatar, hg]
    · simp [runVerb, cmdMemberInfo, hg]
    · simp [runVerb, cmdMemberAddRole, hg]
    · simp [runVerb, cmdMemberRemoveRole, hg]
    · simp [runVerb, cmdMemberNick, hg]
  · simp only [needsChannel, List.mem_cons, List.mem_singleton, List.not_mem_nil,
      or_false] at hmem
    rcases hmem with rfl | rfl | rfl | rfl | rfl | rfl | rfl
    · simp [runVerb, cmdMessages, hc]
    · simp [runVerb, cmdUpload, hc]
    · simp [runVerb, cmdImg, hc]
    · simp [runVerb, cmdParagraph, hc]
    · simp [runVerb, cmdDelete, hc]
    · simp [runVerb, cmdEdit, hc]
    · simp [runVerb, cmdSay, hc]

/-- Witness of C9: "/say hi" right after start-up. -/
theorem missing_selection_is_rejected_witness :
    ∃ msg, msg ≠ "" ∧ executeCommand demoWorld demoSys "/say hi" = (.error msg, demoSys) :=
  missing_selection_is_rejected demoWorld demoSys "/say hi" ["say", "hi"] .say
    (by decide) (by decide) (Or.inr ⟨by decide, rfl⟩)

/-! ## Channel selection by index: claim C10 -/

/-- C10: with an active guild g whose channel list the adapter returns as L,
a line selecting the handler "c" returns nil exactly when its argument 1 reads
(Atoi) as an integer n with 0 <= n < len(L); then the active channel is
L[n].ID, the counter of (g, L[n].ID) reads 0, and the active guild, every
other counter and the configuration are unchanged; otherwise a non-nil error
is returned and the client (selection, unread table, configuration) is
unchanged. -/
theorem channel_index_selects (w : World) (s : Sys) (line : String) (args : Args)
    (L : List Channel) (hp : parseLine line = some (some args))
    (hv : parseVerb (Args.Get args 0) = some .channel)
    (hg : s.dt.ActiveGuild ≠ "") (hL : w.GuildChannels s.dt.ActiveGuild = .ok L) :
    ((executeCommand w s line).1 = .nil ↔
        ∃ n, strconv.Atoi (Args.Get args 1) = some n ∧ 0 ≤ n ∧ n < L.length)
    ∧ (∀ n channel, strconv.Atoi (Args.Get args 1) = some n → 0 ≤ n →
        L.get? n.toNat = some channel →
          (executeCommand w s line).1 = .nil
        ∧ (executeCommand w s line).2.dt.ActiveChannel = channel.ID
        ∧ (executeCommand w s line).2.dt.ChannelUnreadMessages s.dt.ActiveGuild channel.ID = 0
        ∧ (executeCommand w s line).2.dt.ActiveGuild = s.dt.ActiveGuild
        ∧ (∀ g2 c2, (g2, c2) ≠ (s.dt.ActiveGuild, channel.ID) →
            (executeCommand w s line).2.dt.ChannelUnreadMessages g2 c2
              = s.dt.ChannelUnreadMessages g2 c2)
        ∧ (executeCommand w s line).2.dt.Conf = s.dt.Conf)
    ∧ ((¬ ∃ n, strconv.Atoi (Args.Get args 1) = some n ∧ 0 ≤ n ∧ n < L.length) →
        ∃ msg, (executeCommand w s line).1 = .error msg
          ∧ (executeCommand w s line).2.dt = s.dt) := by
  rw [executeCommand_of_verb w s line args .channel hp hv]
  simp only [runVerb]
  have good : ∀ n channel, strconv.Atoi (Args.Get args 1) = some n → 0 ≤ n →
      L.get? n.toNat = some channel →
        (cmdChannel w s args).1 = .nil
      ∧ (cmdChannel w s args).2.dt.ActiveChannel = channel.ID
      ∧ (cmdChannel w s args).2.dt.ChannelUnreadMessages s.dt.ActiveGuild channel.ID = 0
      ∧ (cmdChannel w s args).2.dt.ActiveGuild = s.dt.ActiveGuild
      ∧ (∀ g2 c2, (g2, c2) ≠ (s.dt.ActiveGuild, channel.ID) →
          (cmdChannel w s args).2.dt.ChannelUnreadMessages g2 c2
            = s.dt.ChannelUnreadMessages g2 c2)
      ∧ (cmdChannel w s args).2.dt.Conf = s.dt.Conf := by
    intro n channel ha h0 hget
    rw [cmdChannel_select w s args n L channel hg ha hL h0 hget]
    refine ⟨rfl, rfl, channelUnread_markRead_same _ _ _, rfl, ?_, rfl⟩
    intro g2 c2 hne
    exact channelUnread_markRead_ne _ _ _ _ _ hne
  have bad : (¬ ∃ n, strconv.Atoi (Args.Get args 1) = some n ∧ 0 ≤ n ∧ n < L.length) →
      ∃ msg, (cmdChannel w s args).1 = .error msg ∧ (cmdChannel w s args).2.dt = s.dt := by
    intro hno
    apply cmdChannel_reject w s args L hL
    intro n ha
    by_contra hcon
    exact hno ⟨n, ha, by omega, by omega⟩
  refine ⟨⟨?_, ?_⟩, good, bad⟩
  · intro hnil
    by_contra hno
    obtain ⟨msg, hmsg, _⟩ := bad hno
    rw [hmsg] at hnil
    cases hnil
  · rintro ⟨n, ha, h0, hlt⟩
    have hlt' : n.toNat < L.length := by omega
    exact (good n (L.get ⟨n.toNat, hlt'⟩) ha h0 (List.get?_eq_get hlt')).1

/-- Witness of C10: "/c 1" in guild "g1" selects the channel "c2". -/
theorem channel_index_selects_witness :
    (executeCommand demoWorld (executeCommand demoWorld demoSys "/g 0").2
      "/c 1").2.dt.ActiveChannel = "c2" :=
  ((channel_index_selects demoWorld (executeCommand demoWorld demoSys "/g 0").2 "/c 1"
    ["c", "1"] [demoGeneral, demoRandom] (by decide) (by decide) (by decide) rfl).2.1
      1 demoRandom (by decide) (by decide) rfl).2.1


/-! ## The input loop on a blank line: claim C11 -/

theorem executeCommand_no_verb (w : World) (s : Sys) (line : String) (args : Args)
    (hp : parseLine line = some (some args)) (hv : parseVerb (Args.Get args 0) = none) :
    executeCommand w s line = (.nil, s) := by
  simp [executeCommand, executeCommandN, dispatch, hp, hv]

theorem executeCommand_empty (w : World) (s : Sys) :
    executeCommand w s "" = (.panic "slice bounds out of range", s) := by
  have hp : parseLine "" = none := by decide
  simp [executeCommand, executeCommandN, dispatch, hp]

/-- C11: executeCommand faults on the empty line: `line[1:]` of a line of
length 0 panics, whatever the adapter and the state; a blank console line is
trimmed to the empty line by the input loop, so that one turn of the loop on
it ends in the panic instead of proceeding. The marker alone and an unknown
verb do return nil and change nothing. -/
theorem blank_line_panics (w : World) (s : Sys) (rest : List String) :
    executeCommand w s "" = (.panic "slice bounds out of range", s)
    ∧ strings.TrimSpace "\n" = ""
    ∧ (readInputStep w [] { s with stdin := "\n" :: rest }).1
        = .panic "slice bounds out of range"
    ∧ executeCommand w s "/" = (.nil, s)
    ∧ executeCommand w s "/frobnicate now" = (.nil, s) := by
  have ht : strings.TrimSpace "\n" = "" := by decide
  refine ⟨executeCommand_empty w s, ht, ?_, ?_, ?_⟩
  · have hd : ("\n" : String).data = ['\n'] := rfl
    have hr : bufio.ReadString [] ("\n" :: rest) = (some "\n", [], rest) := by
      cases rest <;> simp [bufio.ReadString, cutLine, hd]
    simp only [readInputStep, hr, ht, executeCommand_empty]
  · exact executeCommand_no_verb w s "/" [""] (by decide) (by decide)
  · exact executeCommand_no_verb w s "/frobnicate now" ["frobnicate", "now"]
      (by decide) (by decide)

/-! ## Errors of nested dispatch: claim C12 -/

theorem recurseDropped_fst (self : Sys → String → Result × Sys) (s : Sys) (line : String) :
    (recurseDropped self s line).1 = .nil ∨ (recurseDropped self s line).1.alive = false := by
  unfold recurseDropped andThen
  split
  · exact Or.inl rfl
  · rename_i h
    exact Or.inr (by simpa using h)

/-- The handlers of "ls" and "cd" never return an error: whatever the nested
call returns is discarded. -/
theorem ls_cd_never_return_error (w : World) (s : Sys) (line : String) (args : Args)
    (verb : Verb) (hp : parseLine line = some (some args))
    (hv : parseVerb (Args.Get args 0) = some verb) (h : verb = .ls ∨ verb = .cd) :
    (executeCommand w s line).1 = .nil ∨ (executeCommand w s line).1.alive = false := by
  rw [executeCommand_of_verb w s line args verb hp hv]
  rcases h with rfl | rfl
  · simp only [runVerb, cmdLs]
    split_ifs <;> exact recurseDropped_fst _ _ _
  · simp only [runVerb, cmdCd]
    split_ifs
    · exact Or.inl rfl
    · exact Or.inl rfl
    · exact Or.inl rfl
    · exact recurseDropped_fst _ _ _
    · exact recurseDropped_fst _ _ _

/-- C12: an error met inside a nested dispatch is not returned. On the demo
world (three guilds; guild 0 has two channels, guild 1 none): "/cd 5" returns
nil with no guild active although "/g 5" returns an error, and with guild 0
active although "/c 5" returns an error; "/g 1" returns nil although its
automatic "/c 0" fails; and "/ls" in a channel whose message fetch fails
returns nil although "/m 25" returns the error of the fetch. -/
theorem nested_errors_are_dropped :
    (executeCommand demoWorld demoSys "/g 5").1 = .error "Index out of bounds"
    ∧ (executeCommand demoWorld demoSys "/cd 5").1 = .nil
    ∧ (executeCommand demoWorld (executeCommand demoWorld demoSys "/g 0").2 "/c 5").1
        = .error "index out of bounds"
    ∧ (executeCommand demoWorld (executeCommand demoWorld demoSys "/g 0").2 "/cd 5").1 = .nil
    ∧ (executeCommand demoWorld demoSys "/g 1").1 = .nil
    ∧ (executeCommand demoWorld demoSys "/g 1").2.out
        = [.printf "Selected guild: Beta\n", .dispatch "/c 0", .call "GuildChannels" ["g2"]]
    ∧ (executeCommand { demoWorld with ChannelMessages := fun _ _ => .error "HTTP 403" }
        (executeCommand demoWorld demoSys "/g 0").2 "/m 25").1 = .error "HTTP 403"
    ∧ (executeCommand { demoWorld with ChannelMessages := fun _ _ => .error "HTTP 403" }
        (executeCommand demoWorld demoSys "/g 0").2 "/ls").1 = .nil := by
  refine ⟨?_, ?_, ?_, ?_, ?_, ?_, ?_, ?_⟩ <;> decide


/-! ## Splitting at single spaces and joining again -/

theorem splitChars_ne_nil (sep : Char) (cs : List Char) : splitChars sep cs ≠ [] := by
  cases cs with
  | nil => simp [splitChars]
  | cons c cs =>
    unfold splitChars
    split_ifs
    · simp
    · split <;> simp

theorem joinChars_cons_head (sep : List Char) (c : Char) (t : List Char)
    (ts : List (List Char)) :
    joinChars sep ((c :: t) :: ts) = c :: joinChars sep (t :: ts) := by
  cases ts with
  | nil => simp [joinChars]
  | cons b rest => simp [joinChars]

theorem joinChars_nil_head (sep : List Char) (ts : List (List Char)) (h : ts ≠ []) :
    joinChars sep ([] :: ts) = sep ++ joinChars sep ts := by
  cases ts with
  | nil => exact absurd rfl h
  | cons b rest => simp [joinChars]

/-- Joining the pieces with the separator gives the text back. -/
theorem joinChars_splitChars (sep : Char) (cs : List Char) :
    joinChars [sep] (splitChars sep cs) = cs := by
  induction cs with
  | nil => simp [splitChars, joinChars]
  | cons c cs ih =>
    unfold splitChars
    split_ifs with h
    · rw [joinChars_nil_head _ _ (splitChars_ne_nil sep cs), ih, h]
      rfl
    · cases hs : splitChars sep cs with
      | nil => exact absurd hs (splitChars_ne_nil sep cs)
      | cons t ts =>
        rw [hs] at ih
        simp only []
        rw [joinChars_cons_head, ih]

/-- No piece contains the separator. -/
theorem splitChars_no_sep_in_piece (sep : Char) (cs : List Char) :
    ∀ t ∈ splitChars sep cs, sep ∉ t := by
  induction cs with
  | nil => simp [splitChars]
  | cons c cs ih =>
    unfold splitChars
    split_ifs with h
    · intro t ht
      rcases List.mem_cons.1 ht with rfl | ht
      · simp
      · exact ih t ht
    · cases hs : splitChars sep cs with
      | nil => exact absurd hs (splitChars_ne_nil sep cs)
      | cons t ts =>
        rw [hs] at ih
        intro x hx
        simp only [List.mem_cons] at hx
        rcases hx with rfl | hx
        · intro hmem
          rcases List.mem_cons.1 hmem with e | hmem
          · exact h e.symm
          · exact ih t (List.mem_cons_self _ _) hmem
        · exact ih x (List.mem_cons_of_mem _ hx)

/-- There is one piece more than there are separators. -/
theorem splitChars_length (sep : Char) (cs : List Char) :
    (splitChars sep cs).length = cs.count sep + 1 := by
  induction cs with
  | nil => simp [splitChars]
  | cons c cs ih =>
    unfold splitChars
    split_ifs with h
    · subst h
      simp [ih]
    · have hne : ¬ (c == sep) = true := by simpa using h
      cases hs : splitChars sep cs with
      | nil => exact absurd hs (splitChars_ne_nil sep cs)
      | cons t ts =>
        rw [hs] at ih
        simp only [List.length_cons] at ih ⊢
        rw [List.count_cons, if_neg hne]
        omega

theorem join_split (s : String) : strings.Join (strings.Split s ' ') " " = s := by
  unfold strings.Join strings.Split
  have e : List.map String.data (List.map String.mk (splitChars ' ' s.data))
      = splitChars ' ' s.data := by
    rw [List.map_map]
    exact List.map_id _
  rw [e]
  have e2 : (" " : String).data = [' '] := rfl
  rw [e2, joinChars_splitChars]

/-! ## Every line is a command: claim C13 -/

theorem parseLine_cons (c : Char) (rest : List Char) :
    parseLine (String.mk (c :: rest))
      = if c.toNat < 128 then some (some (strings.Split (String.mk rest) ' ')) else some none :=
  rfl

/-- C13 as amended: no line is sent as a bare message. The first byte of a
line is dropped whatever it is: a line with any ASCII first character is
executed exactly as the same line with "/" in its place, by the handler its
first token after that byte names, and has no effect at all (nil, nothing
sent, nothing printed) when that token names no handler; a line whose first
character is not ASCII has no effect either. -/
theorem every_line_is_routed_by_its_tail (w : World) (s : Sys) (c : Char) (rest : List Char) :
    (c.toNat < 128 →
        executeCommand w s (String.mk (c :: rest)) = executeCommand w s (String.mk ('/' :: rest))
      ∧ (∀ verb, parseVerb (Args.Get (strings.Split (String.mk rest) ' ') 0) = some verb →
          executeCommand w s (String.mk (c :: rest))
            = runVerb (executeCommandN w 2) w s (strings.Split (String.mk rest) ' ') verb)
      ∧ (parseVerb (Args.Get (strings.Split (String.mk rest) ' ') 0) = none →
          executeCommand w s (String.mk (c :: rest)) = (.nil, s)))
    ∧ (¬ c.toNat < 128 → executeCommand w s (String.mk (c :: rest)) = (.nil, s)) := by
  constructor
  · intro hc
    have hp : parseLine (String.mk (c :: rest))
        = some (some (strings.Split (String.mk rest) ' ')) := by
      rw [parseLine_cons, if_pos hc]
    have hp2 : parseLine (String.mk ('/' :: rest))
        = some (some (strings.Split (String.mk rest) ' ')) := by
      rw [parseLine_cons, if_pos (by decide)]
    refine ⟨?_, ?_, ?_⟩
    · simp [executeCommand, executeCommandN, dispatch, hp, hp2]
    · intro verb hv
      exact executeCommand_of_verb w s _ _ verb hp hv
    · intro hv
      exact executeCommand_no_verb w s _ _ hp hv
  · intro hc
    have hp : parseLine (String.mk (c :: rest)) = some none := by
      rw [parseLine_cons, if_neg hc]
    simp [executeCommand, executeCommandN, dispatch, hp]

/-- Witness of C13: "hello" is executed as "/ello". -/
theorem every_line_is_routed_by_its_tail_witness :
    executeCommand demoWorld demoSys (String.mk ('h' :: "ello".data))
      = executeCommand demoWorld demoSys (String.mk ('/' :: "ello".data)) :=
  ((every_line_is_routed_by_its_tail demoWorld demoSys 'h' "ello".data).1 (by decide)).1

/-- Counterexample to C13: with the channel "c1" active, the line "hello",
which does not start with the marker, is not sent: executeCommand returns
nil and the state, effect log included, is what it was. -/
theorem bare_line_is_not_sent :
    (executeCommand demoWorld demoSys "/g 0").2.dt.ActiveChannel = "c1"
    ∧ executeCommand demoWorld (executeCommand demoWorld demoSys "/g 0").2 "hello"
        = (.nil, (executeCommand demoWorld demoSys "/g 0").2)
    ∧ Effect.call "ChannelMessageSend" ["c1", "hello"]
        ∉ (executeCommand demoWorld (executeCommand demoWorld demoSys "/g 0").2 "hello").2.out := by
  refine ⟨?_, ?_, ?_⟩ <;> decide


/-! ## Tokens and synonyms: claim C14 -/

theorem args_get_one_tail (v1 v2 : String) (tail : List String) :
    Args.Get (v1 :: tail) 1 = Args.Get (v2 :: tail) 1 := by
  simp [Args.Get]

theorem args_get_two_tail (v1 v2 : String) (tail : List String) :
    Args.Get (v1 :: tail) 2 = Args.Get (v2 :: tail) 2 := by
  simp [Args.Get]

theorem args_after_one_tail (v1 v2 : String) (tail : List String) :
    Args.After (v1 :: tail) 1 = Args.After (v2 :: tail) 1 := by
  simp [Args.After]

theorem args_after_two_tail (v1 v2 : String) (tail : List String) :
    Args.After (v1 :: tail) 2 = Args.After (v2 :: tail) 2 := by
  simp [Args.After]

/-- No handler looks at `args[0]`: the arguments after it decide. -/
theorem runVerb_head_irrelevant (self : Sys → String → Result × Sys) (w : World) (s : Sys)
    (v1 v2 : String) (tail : List String) (verb : Verb) :
    runVerb self w s (v1 :: tail) verb = runVerb self w s (v2 :: tail) verb := by
  have g1 := args_get_one_tail v1 v2 tail
  have g2 := args_get_two_tail v1 v2 tail
  have a1 := args_after_one_tail v1 v2 tail
  have a2 := args_after_two_tail v1 v2 tail
  cases verb <;>
    simp only [runVerb, cmdCd, cmdGuild, cmdGuildRegex, cmdChannel, cmdChannelRegex,
      cmdMessages, cmdUpload, cmdImgSize, cmdImgAuto, cmdImgColor, cmdTextColor,
      cmdShowNicknames, cmdImg, cmdAvatar, showAvatar, argWidth, cmdParagraph, cmdMembers,
      cmdDelete, cmdEdit, cmdRoles, cmdMemberInfo, cmdMemberAddRole, cmdMemberRemoveRole,
      cmdMemberNick, cmdUsername, cmdStatus, cmdPlaying, cmdNick, cmdSay, g1, g2, a1, a2]

/-- C14 as amended: the token list of a command line is the text after the
marker split at every single space: joining the tokens with single spaces
gives that text back, no token contains a space, and n spaces give n + 1
tokens (so two spaces in a row give an empty token, and a tab separates
nothing). The first token selects the handler by exact, case-sensitive
comparison; lines whose first tokens select the same handler ("g" and
"guild") and whose remaining tokens are equal have the same effect. -/
theorem tokens_are_split_at_single_spaces (w : World) (s : Sys) (c : Char)
    (hc : c.toNat < 128) (rest : List Char) :
    parseLine (String.mk (c :: rest)) = some (some (strings.Split (String.mk rest) ' '))
    ∧ strings.Join (strings.Split (String.mk rest) ' ') " " = String.mk rest
    ∧ (∀ t ∈ strings.Split (String.mk rest) ' ', ' ' ∉ t.data)
    ∧ (strings.Split (String.mk rest) ' ').length = rest.count ' ' + 1
    ∧ (∀ l1 l2 v1 v2 tail, parseLine l1 = some (some (v1 :: tail)) →
        parseLine l2 = some (some (v2 :: tail)) → parseVerb v1 = parseVerb v2 →
        executeCommand w s l1 = executeCommand w s l2)
    ∧ parseVerb "g" = parseVerb "guild"
    ∧ parseVerb "G" = none := by
  refine ⟨?_, join_split _, ?_, ?_, ?_, by decide, by decide⟩
  · rw [parseLine_cons, if_pos hc]
  · intro t ht
    simp only [strings.Split, List.mem_map] at ht
    obtain ⟨cs, hcs, rfl⟩ := ht
    exact splitChars_no_sep_in_piece ' ' rest cs hcs
  · simp only [strings.Split, List.length_map]
    exact splitChars_length ' ' rest
  · intro l1 l2 v1 v2 tail h1 h2 hv
    have e0 : ∀ v : String, Args.Get (v :: tail) 0 = v := by
      intro v
      simp [Args.Get]
    cases hv1 : parseVerb v1 with
    | none =>
      rw [executeCommand_no_verb w s l1 _ h1 (by rw [e0]; exact hv1),
        executeCommand_no_verb w s l2 _ h2 (by rw [e0, ← hv]; exact hv1)]
    | some verb =>
      rw [executeCommand_of_verb w s l1 _ verb h1 (by rw [e0]; exact hv1),
        executeCommand_of_verb w s l2 _ verb h2 (by rw [e0, ← hv]; exact hv1)]
      exact runVerb_head_irrelevant _ w s v1 v2 tail verb

/-- Witness of C14: "/g 0" and "/guild 0" have the same effect. -/
theorem tokens_are_split_at_single_spaces_witness :
    executeCommand demoWorld demoSys "/g 0" = executeCommand demoWorld demoSys "/guild 0" :=
  (tokens_are_split_at_single_spaces demoWorld demoSys '/' (by decide) "g 0".data).2.2.2.2.1
    "/g 0" "/guild 0" "g" "guild" ["0"] (by decide) (by decide) (by decide)

/-- Counterexample to C14: "/g 1" selects guild 1, but "/g  1", with two
spaces, is an error (argument 1 is the empty token) and "/g\t1", with a tab,
selects no handler at all. -/
theorem whitespace_is_not_collapsed :
    (executeCommand demoWorld demoSys "/g 1").1 = .nil
    ∧ (executeCommand demoWorld demoSys "/g 1").2.dt.ActiveGuild = "g2"
    ∧ executeCommand demoWorld demoSys "/g  1"
        = (.error "Please select a guild index", demoSys)
    ∧ executeCommand demoWorld demoSys "/g\t1" = (.nil, demoSys) := by
  refine ⟨?_, ?_, ?_, ?_⟩ <;> decide


/-! ## The helpers of Args: claim C15 -/

theorem textAfterSpaces_eq (cs : List Char) (n : Nat) :
    textAfterSpaces n cs
      = if n < (splitChars ' ' cs).length then
          some (joinChars [' '] ((splitChars ' ' cs).drop n))
        else none := by
  induction cs generalizing n with
  | nil =>
    cases n with
    | zero => simp [textAfterSpaces, splitChars, joinChars]
    | succ n => simp [textAfterSpaces, splitChars]
  | cons c cs ih =>
    cases n with
    | zero =>
      have hpos : 0 < (splitChars ' ' (c :: cs)).length :=
        List.length_pos.2 (splitChars_ne_nil _ _)
      simp only [textAfterSpaces, hpos, if_true, List.drop_zero, joinChars_splitChars]
    | succ n =>
      unfold textAfterSpaces splitChars
      split_ifs with h h1 h2
      · rw [ih n, if_pos (by simpa using h1)]
        rfl
      · rw [ih n, if_neg (by simpa using h1)]
      · cases hs : splitChars ' ' cs with
        | nil => exact absurd hs (splitChars_ne_nil _ cs)
        | cons t ts =>
          rw [hs] at h2
          rw [ih (n + 1), hs, if_pos (by simpa using h2)]
          rfl
      · cases hs : splitChars ' ' cs with
        | nil => exact absurd hs (splitChars_ne_nil _ cs)
        | cons t ts =>
          rw [hs] at h2
          rw [ih (n + 1), hs, if_neg (by simpa using h2)]

theorem after_split (s : String) (n : Nat) :
    Args.After (strings.Split s ' ') n = tailText n s.data := by
  unfold Args.After tailText strings.Split strings.Join
  rw [textAfterSpaces_eq]
  have hlen : (List.map String.mk (splitChars ' ' s.data)).length
      = (splitChars ' ' s.data).length := List.length_map _ _
  by_cases h : n < (splitChars ' ' s.data).length
  · have hc : (0 : Int) ≤ (n : Int) ∧ (n : Int) < ((List.map String.mk
        (splitChars ' ' s.data)).length : Int) := by
      rw [hlen]
      omega
    rw [if_pos hc, if_pos h]
    simp only [Int.toNat_ofNat]
    rw [← List.map_drop, List.map_map]
    have e : (String.data ∘ String.mk) = (id : List Char → List Char) := rfl
    rw [e, List.map_id]
  · have hc : ¬ ((0 : Int) ≤ (n : Int) ∧ (n : Int) < ((List.map String.mk
        (splitChars ' ' s.data)).length : Int)) := by
      rw [hlen]
      omega
    rw [if_neg hc, if_neg h]

/-- C15 as amended: Get(n) is a[n] for 0 <= n < len(a) and "" otherwise;
After(n) is a[n..] joined by single spaces for 0 <= n < len(a) and ""
otherwise; for the arguments of a text s this makes After(0) = s and After(n)
the text of s following its n-th space. In a command line with text `rest`
after the marker, "say" sends the text after the first space, "edit" sends
the text after the second space and "p" starts its buffer with the text after
the first space, all unchanged; "gr" and "cr" hand the regexp compiler the
text after the first space in lower case. -/
theorem free_text_tails (w : World) (s : Sys) (c : Char) (hc : c.toNat < 128)
    (rest : List Char) :
    (∀ (a : Args) (n : Int), Args.Get a n
        = if 0 ≤ n ∧ n < a.length then a.getD n.toNat "" else "")
    ∧ (∀ (a : Args) (n : Int), Args.After a n
        = if 0 ≤ n ∧ n < a.length then strings.Join (a.drop n.toNat) " " else "")
    ∧ Args.After (strings.Split (String.mk rest) ' ') 0 = String.mk rest
    ∧ (∀ n : Nat, Args.After (strings.Split (String.mk rest) ' ') n = tailText n rest)
    ∧ (parseVerb (Args.Get (strings.Split (String.mk rest) ' ') 0) = some .say →
        s.dt.ActiveChannel ≠ "" →
        executeCommand w s (String.mk (c :: rest))
          = match w.ChannelMessageSend s.dt.ActiveChannel (tailText 1 rest) with
            | some err =>
              (.error err,
                s.emit (.call "ChannelMessageSend" [s.dt.ActiveChannel, tailText 1 rest]))
            | none =>
              if !s.dt.Conf.ShowImages then
                recurseDropped (executeCommandN w 2)
                  (s.emit (.call "ChannelMessageSend" [s.dt.ActiveChannel, tailText 1 rest]))
                  "/ls"
              else
                (.nil,
                  s.emit (.call "ChannelMessageSend" [s.dt.ActiveChannel, tailText 1 rest])))
    ∧ (parseVerb (Args.Get (strings.Split (String.mk rest) ' ') 0) = some .edit →
        s.dt.ActiveChannel ≠ "" →
        Args.Get (strings.Split (String.mk rest) ' ') 1 ≠ "" →
        executeCommand w s (String.mk (c :: rest))
          = match w.ChannelMessageEdit s.dt.ActiveChannel
                (Args.Get (strings.Split (String.mk rest) ' ') 1) (tailText 2 rest) with
            | some err =>
              (.error err, s.emit (.call "ChannelMessageEdit" [s.dt.ActiveChannel,
                Args.Get (strings.Split (String.mk rest) ' ') 1, tailText 2 rest]))
            | none =>
              recurseDropped (executeCommandN w 2)
                (s.emit (.call "ChannelMessageEdit" [s.dt.ActiveChannel,
                  Args.Get (strings.Split (String.mk rest) ' ') 1, tailText 2 rest]))
                "/m 25")
    ∧ (parseVerb (Args.Get (strings.Split (String.mk rest) ' ') 0) = some .paragraph →
        s.dt.ActiveChannel ≠ "" →
        executeCommand w s (String.mk (c :: rest))
          = paragraphLoop w s.dt
              (s.out ++ [.println [plain
                "Enter your paragraph in multiple lines. Type /send or /cancel to finish"]])
              (if tailText 1 rest ≠ "" then [tailText 1 rest] else []) [] s.stdin)
    ∧ (parseVerb (Args.Get (strings.Split (String.mk rest) ' ') 0) = some .guildRegex →
        Args.Get (strings.Split (String.mk rest) ' ') 1 ≠ "" →
        ∀ err, w.RegexpCompile (strings.ToLower w.UnicodeToLower (tailText 1 rest)) = .error err →
          executeCommand w s (String.mk (c :: rest)) = (.error err, s))
    ∧ (parseVerb (Args.Get (strings.Split (String.mk rest) ' ') 0) = some .channelRegex →
        s.dt.ActiveGuild ≠ "" →
        Args.Get (strings.Split (String.mk rest) ' ') 1 ≠ "" →
        ∀ err, w.RegexpCompile (strings.ToLower w.UnicodeToLower (tailText 1 rest)) = .error err →
          executeCommand w s (String.mk (c :: rest)) = (.error err, s)) := by
  have hp : parseLine (String.mk (c :: rest))
      = some (some (strings.Split (String.mk rest) ' ')) := by
    rw [parseLine_cons, if_pos hc]
  have h1 : Args.After (strings.Split (String.mk rest) ' ') 1 = tailText 1 rest :=
    after_split (String.mk rest) 1
  have h2 : Args.After (strings.Split (String.mk rest) ' ') 2 = tailText 2 rest :=
    after_split (String.mk rest) 2
  refine ⟨?_, ?_, ?_, fun n => after_split (String.mk rest) n, ?_, ?_, ?_, ?_, ?_⟩
  · intro a n
    unfold Args.Get
    by_cases h : 0 ≤ n ∧ n < a.length
    · have h' : ¬ (n ≥ a.length ∨ n < 0) := by omega
      rw [if_pos h, if_neg h']
    · have h' : n ≥ a.length ∨ n < 0 := by omega
      rw [if_neg h, if_pos h']
  · intro a n
    unfold Args.After
    by_cases h : 0 ≤ n ∧ n < a.length
    · rw [if_pos h]
    · rw [if_neg h]
  · have h0 := after_split (String.mk rest) 0
    simpa [tailText, textAfterSpaces] using h0
  · intro hv hch
    rw [executeCommand_of_verb w s _ _ .say hp hv]
    simp only [runVerb, cmdSay, h1, emit_dt, println_dt]
    rw [if_neg hch]
  · intro hv hch hid
    rw [executeCommand_of_verb w s _ _ .edit hp hv]
    simp only [runVerb, cmdEdit, h2, emit_dt, println_dt]
    rw [if_neg hch, if_neg hid]
  · intro hv hch
    rw [executeCommand_of_verb w s _ _ .paragraph hp hv]
    simp only [runVerb, cmdParagraph, h1, emit_dt, println_dt]
    rw [if_neg hch]
    rfl
  · intro hv hid err he
    rw [executeCommand_of_verb w s _ _ .guildRegex hp hv]
    simp only [runVerb, cmdGuildRegex, h1, he, emit_dt, println_dt]
    rw [if_neg hid]
  · intro hv hg hid err he
    rw [executeCommand_of_verb w s _ _ .channelRegex hp hv]
    simp only [runVerb, cmdChannelRegex, h1, he, emit_dt, println_dt]
    rw [if_neg hg, if_neg hid]

/-- Witness of C15: the tail of "say hello  there" is "hello  there". -/
theorem free_text_tails_witness :
    Args.After (strings.Split (String.mk "say hello  there".data) ' ') 1
      = tailText 1 "say hello  there".data :=
  (free_text_tails demoWorld demoSys '/' (by decide) "say hello  there".data).2.2.2.1 1

/-- Counterexample to C15: on a world whose regexp compiler rejects every
pattern and reports the pattern it was given, "/gr ABC" reports "abc": the
text handed on is not the text typed. The same beyond ASCII: "/gr É("
reports the pattern with a small e acute. -/
theorem regex_tail_is_lowercased :
    executeCommand { demoWorld with RegexpCompile := fun pattern => .error pattern }
        demoSys "/gr ABC" = (.error "abc", demoSys)
    ∧ Args.After (strings.Split "gr ABC" ' ') 1 = "ABC"
    ∧ executeCommand { demoWorld with RegexpCompile := fun pattern => .error pattern }
        demoSys "/gr É(" = (.error "é(", demoSys) := by
  refine ⟨?_, ?_, ?_⟩ <;> decide


/-! ## The toggle commands: claims C16 and C17 -/

theorem isOn_ne_empty (table : Char → Char) (x : String) (h : isOn table x = true) :
    x ≠ "" := by
  intro e
  rw [e] at h
  have h0 : isOn table "" = false := rfl
  rw [h0] at h
  exact Bool.noConfusion h

theorem isOff_ne_empty (table : Char → Char) (x : String) (h : isOff table x = true) :
    x ≠ "" := by
  intro e
  rw [e] at h
  have h0 : isOff table "" = false := rfl
  rw [h0] at h
  exact Bool.noConfusion h

theorem isOn_not_isOff (table : Char → Char) (x : String) (h : isOn table x = true) :
    isOff table x = false := by
  unfold isOn at h
  unfold isOff
  have e : strings.ToLower table x = "on" := by simpa using h
  rw [e]
  decide

theorem isOff_not_isOn (table : Char → Char) (x : String) (h : isOff table x = true) :
    isOn table x = false := by
  unfold isOff at h
  unfold isOn
  have e : strings.ToLower table x = "off" := by simpa using h
  rw [e]
  decide

/-- A toggle command without argument prints the flag and changes nothing. -/
theorem toggle_query (self : Sys → String → Result × Sys) (w : World) (s : Sys)
    (args : Args) (verb : Verb) (hverb : verb ∈ toggles) (h : Args.Get args 1 = "") :
    runVerb self w s args verb
      = (.nil, s.println [formatBoolOnOff (toggleFlag s.dt.Conf verb)]) := by
  simp only [toggles, List.mem_cons, List.mem_singleton, List.not_mem_nil, or_false] at hverb
  rcases hverb with rfl | rfl | rfl | rfl
  · simp [runVerb, cmdImgAuto, h, toggleFlag]
  · simp [runVerb, cmdImgColor, h, toggleFlag]
  · simp [runVerb, cmdTextColor, h, toggleFlag]
  · simp [runVerb, cmdShowNicknames, h, toggleFlag]

/-- A toggle command with "on" returns nil and sets its flag; with "off" it
returns nil and clears it. -/
theorem toggle_set (self : Sys → String → Result × Sys) (w : World) (s : Sys)
    (args : Args) (verb : Verb) (hverb : verb ∈ toggles) :
    (isOn w.UnicodeToLower (Args.Get args 1) = true →
        (runVerb self w s args verb).1 = .nil
      ∧ toggleFlag (runVerb self w s args verb).2.dt.Conf verb = true)
    ∧ (isOff w.UnicodeToLower (Args.Get args 1) = true →
        (runVerb self w s args verb).1 = .nil
      ∧ toggleFlag (runVerb self w s args verb).2.dt.Conf verb = false) := by
  simp only [toggles, List.mem_cons, List.mem_singleton, List.not_mem_nil, or_false] at hverb
  constructor
  · intro hon
    have hne := isOn_ne_empty _ _ hon
    have hoff := isOn_not_isOff _ _ hon
    rcases hverb with rfl | rfl | rfl | rfl
    · simp [runVerb, cmdImgAuto, hne, hon, hoff, toggleFlag, Sys.setConf, Sys.println,
        Sys.emit]
    · simp [runVerb, cmdImgColor, hne, hon, hoff, toggleFlag, Sys.setConf, Sys.println,
        Sys.emit]
    · simp [runVerb, cmdTextColor, hne, hon, hoff, toggleFlag, Sys.setConf, Sys.println,
        Sys.emit]
    · simp [runVerb, cmdShowNicknames, hne, hon, toggleFlag, Sys.setConf, Sys.println,
        Sys.emit]
  · intro hoff
    have hne := isOff_ne_empty _ _ hoff
    have hon := isOff_not_isOn _ _ hoff
    rcases hverb with rfl | rfl | rfl | rfl
    · simp [runVerb, cmdImgAuto, hne, hon, hoff, toggleFlag, Sys.setConf, Sys.println,
        Sys.emit]
    · simp [runVerb, cmdImgColor, hne, hon, hoff, toggleFlag, Sys.setConf, Sys.println,
        Sys.emit]
    · simp [runVerb, cmdTextColor, hne, hon, hoff, toggleFlag, Sys.setConf, Sys.println,
        Sys.emit]
    · simp [runVerb, cmdShowNicknames, hne, hon, hoff, toggleFlag, Sys.setConf, Sys.println,
        Sys.emit]

/-- C16 as amended: for each of the toggle commands the dispatcher has,
"text-color", "img-auto", "img-color" and "show-nicknames": after the command
with the argument "on" (in any case), the same command without argument
returns nil, prints exactly "on" and changes nothing else in the program
state; after the command with "off" it prints exactly "off". -/
theorem toggle_round_trip (w w2 : World) (s : Sys) (l1 l2 : String) (a1 a2 : Args)
    (verb : Verb) (hverb : verb ∈ toggles)
    (hp1 : parseLine l1 = some (some a1)) (hv1 : parseVerb (Args.Get a1 0) = some verb)
    (hp2 : parseLine l2 = some (some a2)) (hv2 : parseVerb (Args.Get a2 0) = some verb)
    (hq : Args.Get a2 1 = "") :
    (isOn w.UnicodeToLower (Args.Get a1 1) = true →
        (executeCommand w s l1).1 = .nil
      ∧ executeCommand w2 (executeCommand w s l1).2 l2
          = (.nil, (executeCommand w s l1).2.println ["on"]))
    ∧ (isOff w.UnicodeToLower (Args.Get a1 1) = true →
        (executeCommand w s l1).1 = .nil
      ∧ executeCommand w2 (executeCommand w s l1).2 l2
          = (.nil, (executeCommand w s l1).2.println ["off"])) := by
  have hset := toggle_set (executeCommandN w 2) w s a1 verb hverb
  rw [executeCommand_of_verb w s l1 a1 verb hp1 hv1]
  constructor
  · intro hon
    obtain ⟨h1, h2⟩ := hset.1 hon
    refine ⟨h1, ?_⟩
    rw [executeCommand_of_verb w2 _ l2 a2 verb hp2 hv2, toggle_query _ w2 _ a2 verb hverb hq,
      h2]
    rfl
  · intro hoff
    obtain ⟨h1, h2⟩ := hset.2 hoff
    refine ⟨h1, ?_⟩
    rw [executeCommand_of_verb w2 _ l2 a2 verb hp2 hv2, toggle_query _ w2 _ a2 verb hverb hq,
      h2]
    rfl

/-- Witness of C16: "/text-color OFF" then "/text-color" prints "off". -/
theorem toggle_round_trip_witness :
    executeCommand demoWorld (executeCommand demoWorld demoSys "/text-color OFF").2
        "/text-color"
      = (.nil, (executeCommand demoWorld demoSys "/text-color OFF").2.println ["off"]) :=
  ((toggle_round_trip demoWorld demoWorld demoSys "/text-color OFF" "/text-color"
    ["text-color", "OFF"] ["text-color"] .textColor (by decide) (by decide) (by decide)
    (by decide) (by decide) (by decide)).2 (by decide)).2

/-- Counterexample to C16: the dispatcher has no verb "color-text",
"image-auto" or "color-images". From a state whose colour flag is on,
"/color-text off" returns nil and changes nothing, and "/color-text" then
prints nothing; likewise for the two other names. -/
theorem spec_toggle_names_select_nothing :
    parseVerb "color-text" = none
    ∧ parseVerb "image-auto" = none
    ∧ parseVerb "color-images" = none
    ∧ demoSys.dt.Conf.ColorText = true
    ∧ executeCommand demoWorld demoSys "/color-text off" = (.nil, demoSys)
    ∧ executeCommand demoWorld demoSys "/color-text" = (.nil, demoSys)
    ∧ executeCommand demoWorld demoSys "/image-auto off" = (.nil, demoSys)
    ∧ executeCommand demoWorld demoSys "/image-auto" = (.nil, demoSys)
    ∧ executeCommand demoWorld demoSys "/color-images off" = (.nil, demoSys)
    ∧ executeCommand demoWorld demoSys "/color-images" = (.nil, demoSys) := by
  refine ⟨?_, ?_, ?_, ?_, ?_, ?_, ?_, ?_, ?_, ?_⟩ <;> decide

/-- C17: a toggle command ("img-auto", "img-color", "text-color",
"show-nicknames") with a non-empty argument that is neither "on" nor "off" in
any case returns nil and leaves the whole program state as it was: nothing is
printed, and the configuration, the selection and the unread table are
unchanged. -/
theorem toggle_other_argument_is_noop (w : World) (s : Sys) (line : String) (args : Args)
    (verb : Verb) (hverb : verb ∈ toggles)
    (hp : parseLine line = some (some args))
    (hv : parseVerb (Args.Get args 0) = some verb)
    (hne : Args.Get args 1 ≠ "")
    (hon : isOn w.UnicodeToLower (Args.Get args 1) = false)
    (hoff : isOff w.UnicodeToLower (Args.Get args 1) = false) :
    executeCommand w s line = (.nil, s) := by
  rw [executeCommand_of_verb w s line args verb hp hv]
  simp only [toggles, List.mem_cons, List.mem_singleton, List.not_mem_nil, or_false] at hverb
  rcases hverb with rfl | rfl | rfl | rfl
  · simp [runVerb, cmdImgAuto, hne, hon, hoff]
  · simp [runVerb, cmdImgColor, hne, hon, hoff]
  · simp [runVerb, cmdTextColor, hne, hon, hoff]
  · simp [runVerb, cmdShowNicknames, hne, hon, hoff]

/-- Witness of C17: "/img-auto maybe". -/
theorem toggle_other_argument_is_noop_witness :
    executeCommand demoWorld demoSys "/img-auto maybe" = (.nil, demoSys) :=
  toggle_other_argument_is_noop demoWorld demoSys "/img-auto maybe" ["img-auto", "maybe"]
    .imgAuto (by decide) (by decide) (by decide) (by decide) (by decide) (by decide)


/-! ## Selecting by regular expression: claims C18 and C19 -/

theorem firstMatch_none (table : Char → Char) (q : String → Bool) (names : List String) :
    ∀ k, firstMatch table q k names = none
      ↔ ∀ name ∈ names, q (strings.ToLower table name) = false := by
  induction names with
  | nil => intro k; simp [firstMatch]
  | cons name rest ih =>
    intro k
    unfold firstMatch
    by_cases h : q (strings.ToLower table name) = true
    · simp [h]
    · have h0 : q (strings.ToLower table name) = false := by simpa using h
      simp [h0, ih (k + 1)]

theorem firstMatch_some (table : Char → Char) (q : String → Bool) (names : List String) :
    ∀ (k i : Nat) (name : String), names.get? i = some name →
      q (strings.ToLower table name) = true →
      (∀ j nm, j < i → names.get? j = some nm → q (strings.ToLower table nm) = false) →
      firstMatch table q k names = some (k + i) := by
  induction names with
  | nil => intro k i name hget; simp at hget
  | cons head rest ih =>
    intro k i name hget hm hmin
    unfold firstMatch
    cases i with
    | zero =>
      simp only [List.get?_cons_zero, Option.some.injEq] at hget
      subst hget
      simp [hm]
    | succ i =>
      have h0 : q (strings.ToLower table head) = false := hmin 0 head (by omega) rfl
      have hrec := ih (k + 1) i name (by simpa using hget) hm
        (fun j nm hj hjn => hmin (j + 1) nm (by omega) (by simpa using hjn))
      rw [h0, hrec]
      simp only [Bool.false_eq_true, if_false, Option.some.injEq]
      omega

theorem executeCommandN_of_verb (w : World) (n : Nat) (s : Sys) (line : String) (args : Args)
    (verb : Verb) (hp : parseLine line = some (some args))
    (hv : parseVerb (Args.Get args 0) = some verb) :
    executeCommandN w (n + 1) s line = runVerb (executeCommandN w n) w s args verb := by
  simp [executeCommandN, dispatch, hp, hv]

theorem parseLine_slash (verb arg : String) (hv : ' ' ∉ verb.data) (ha : ' ' ∉ arg.data) :
    parseLine ("/" ++ verb ++ " " ++ arg) = some (some [verb, arg]) := by
  have e : "/" ++ verb ++ " " ++ arg = String.mk ('/' :: (verb ++ " " ++ arg).data) := by
    apply String.ext
    simp [String.data_append]
  rw [e]
  exact parseLine_verb_arg '/' (by decide) verb arg hv ha

/-- The handler of "c" reads the program state only through the client: from
two states with the same client it returns the same result and the same
client. -/
theorem cmdChannel_dt_congr (w : World) (s t : Sys) (args : Args) (h : s.dt = t.dt) :
    (cmdChannel w s args).1 = (cmdChannel w t args).1
    ∧ (cmdChannel w s args).2.dt = (cmdChannel w t args).2.dt := by
  unfold cmdChannel
  simp only [emit_dt, h]
  split_ifs
  · exact ⟨rfl, h⟩
  · exact ⟨rfl, h⟩
  · cases strconv.Atoi (Args.Get args 1) with
    | none => exact ⟨rfl, h⟩
    | some n =>
      simp only
      cases w.GuildChannels t.dt.ActiveGuild with
      | error err => exact ⟨rfl, by simp [h]⟩
      | ok channels =>
        simp only
        split_ifs
        · exact ⟨rfl, by simp [h]⟩
        · cases channels.get? n.toNat with
          | none => exact ⟨rfl, by simp [h]⟩
          | some channel => exact ⟨rfl, by simp [Sys.setClient, Sys.emit, h]⟩

theorem andThen_drop_congr (r1 r2 : Result × Sys) (h1 : r1.1 = r2.1) (h2 : r1.2.dt = r2.2.dt) :
    (andThen r1 fun s => (.nil, s)).1 = (andThen r2 fun s => (.nil, s)).1
    ∧ (andThen r1 fun s => (.nil, s)).2.dt = (andThen r2 fun s => (.nil, s)).2.dt := by
  unfold andThen
  rw [h1]
  split_ifs
  · exact ⟨rfl, h2⟩
  · exact ⟨h1, h2⟩

/-- The handler of "g" reads the program state only through the client, when
its nested "/c 0" is run by the handler of "c". -/
theorem cmdGuild_dt_congr (self1 self2 : Sys → String → Result × Sys) (w : World)
    (s t : Sys) (args : Args)
    (hself1 : ∀ u, self1 u "/c 0" = cmdChannel w u ["c", "0"])
    (hself2 : ∀ u, self2 u "/c 0" = cmdChannel w u ["c", "0"])
    (h : s.dt = t.dt) :
    (cmdGuild self1 w s args).1 = (cmdGuild self2 w t args).1
    ∧ (cmdGuild self1 w s args).2.dt = (cmdGuild self2 w t args).2.dt := by
  unfold cmdGuild
  split_ifs
  · exact ⟨rfl, h⟩
  · cases strconv.Atoi (Args.Get args 1) with
    | none => exact ⟨rfl, h⟩
    | some n =>
      simp only
      split_ifs
      · exact ⟨rfl, h⟩
      · cases w.Guilds.get? n.toNat with
        | none => exact ⟨rfl, h⟩
        | some guild =>
          simp only [recurseDropped, recurse, hself1, hself2]
          have hc := cmdChannel_dt_congr w
            (((s.setClient (s.dt.SetGuild guild.ID)).emit
              (.printf ("Selected guild: " ++ guild.Name ++ "\n"))).emit (.dispatch "/c 0"))
            (((t.setClient (t.dt.SetGuild guild.ID)).emit
              (.printf ("Selected guild: " ++ guild.Name ++ "\n"))).emit (.dispatch "/c 0"))
            ["c", "0"] (by simp [Sys.setClient, Sys.emit, h])
          exact andThen_drop_congr _ _ hc.1 hc.2

theorem executeCommandN_c_zero (w : World) (n : Nat) (u : Sys) :
    executeCommandN w (n + 1) u "/c 0" = cmdChannel w u ["c", "0"] := by
  rw [executeCommandN_of_verb w n u "/c 0" ["c", "0"] .channel (by decide) (by decide)]
  rfl

/-- A "cr" command with a pattern that matches no channel only fetches the
channel list. -/
theorem cmdChannelRegex_no_match (w : World) (s : Sys) (line : String) (args : Args)
    (q : String → Bool) (channels : List Channel)
    (hp : parseLine line = some (some args))
    (hv : parseVerb (Args.Get args 0) = some .channelRegex)
    (hg : s.dt.ActiveGuild ≠ "")
    (hpat : Args.Get args 1 ≠ "")
    (hq : w.RegexpCompile (strings.ToLower w.UnicodeToLower (Args.After args 1)) = .ok q)
    (hL : w.GuildChannels s.dt.ActiveGuild = .ok channels)
    (hno : ∀ channel ∈ channels, q (strings.ToLower w.UnicodeToLower channel.Name) = false) :
    executeCommand w s line = (.nil, s.emit (.call "GuildChannels" [s.dt.ActiveGuild]))
    ∧ (executeCommand w s line).2.dt = s.dt
    ∧ (executeCommand w s line).2.stdin = s.stdin
    ∧ ∀ nested, Effect.dispatch nested ∉ (executeCommand w s line).2.out.drop s.out.length := by
  have hnone : firstMatch w.UnicodeToLower q 0 (channels.map fun c => c.Name) = none := by
    rw [firstMatch_none]
    intro name hname
    obtain ⟨channel, hc, rfl⟩ := List.mem_map.mp hname
    exact hno channel hc
  have key : executeCommand w s line
      = (.nil, s.emit (.call "GuildChannels" [s.dt.ActiveGuild])) := by
    rw [executeCommand_of_verb w s line args .channelRegex hp hv]
    simp [runVerb, cmdChannelRegex, hg, hpat, hq, hL, hnone]
  rw [key]
  refine ⟨rfl, rfl, rfl, ?_⟩
  intro nested
  simp [Sys.emit]

/-- A "gr" or "cr" command with a pattern selects what the index command of
the first match selects. -/
theorem regex_first_match_as_index (w : World) (s : Sys) (line : String) (args : Args)
    (q : String → Bool) (i : Nat)
    (hp : parseLine line = some (some args))
    (hpat : Args.Get args 1 ≠ "")
    (hq : w.RegexpCompile (strings.ToLower w.UnicodeToLower (Args.After args 1)) = .ok q) :
    (parseVerb (Args.Get args 0) = some .guildRegex →
      ∀ guild, w.Guilds.get? i = some guild →
      q (strings.ToLower w.UnicodeToLower guild.Name) = true →
      (∀ j other, j < i → w.Guilds.get? j = some other →
        q (strings.ToLower w.UnicodeToLower other.Name) = false) →
      (executeCommand w s line).2.dt
        = (executeCommand w s ("/g " ++ strconv.Itoa i)).2.dt)
    ∧ (parseVerb (Args.Get args 0) = some .channelRegex →
      s.dt.ActiveGuild ≠ "" →
      ∀ channels channel, w.GuildChannels s.dt.ActiveGuild = .ok channels →
      channels.get? i = some channel →
      q (strings.ToLower w.UnicodeToLower channel.Name) = true →
      (∀ j other, j < i → channels.get? j = some other →
        q (strings.ToLower w.UnicodeToLower other.Name) = false) →
      (executeCommand w s line).2.dt
        = (executeCommand w s ("/c " ++ strconv.Itoa i)).2.dt) := by
  have hpg : parseLine ("/g " ++ strconv.Itoa i) = some (some ["g", strconv.Itoa i]) :=
    parseLine_slash "g" (strconv.Itoa i) (by decide) (itoa_no_space i)
  have hpc : parseLine ("/c " ++ strconv.Itoa i) = some (some ["c", strconv.Itoa i]) :=
    parseLine_slash "c" (strconv.Itoa i) (by decide) (itoa_no_space i)
  have hvg : parseVerb (Args.Get ["g", strconv.Itoa i] 0) = some .guild := by
    have e : Args.Get ["g", strconv.Itoa i] 0 = "g" := by simp [Args.Get]
    rw [e]
    decide
  have hvc : parseVerb (Args.Get ["c", strconv.Itoa i] 0) = some .channel := by
    have e : Args.Get ["c", strconv.Itoa i] 0 = "c" := by simp [Args.Get]
    rw [e]
    decide
  constructor
  · intro hv guild hget hm hmin
    have hfirst : firstMatch w.UnicodeToLower q 0 (w.Guilds.map fun g => g.Name) = some i := by
      have h := firstMatch_some w.UnicodeToLower q (w.Guilds.map fun g => g.Name) 0 i guild.Name
        (by rw [List.get?_eq_getElem?, List.getElem?_map, ← List.get?_eq_getElem?, hget]; rfl) hm
        (by
          intro j nm hj hjn
          rw [List.get?_eq_getElem?, List.getElem?_map, ← List.get?_eq_getElem?] at hjn
          simp only [Option.map_eq_some'] at hjn
          obtain ⟨other, ho, rfl⟩ := hjn
          exact hmin j other hj ho)
      simpa using h
    rw [executeCommand_of_verb w s line args .guildRegex hp hv,
      executeCommand_of_verb w s _ _ .guild hpg hvg]
    simp only [runVerb, cmdGuildRegex, hpat, if_false, hq, hfirst, recurseDropped_snd, recurse]
    rw [executeCommandN_of_verb w 1 _ _ _ .guild hpg hvg]
    simp only [runVerb]
    exact (cmdGuild_dt_congr (executeCommandN w 1) (executeCommandN w 2) w
      (s.emit (.dispatch ("/g " ++ strconv.Itoa i))) s ["g", strconv.Itoa i]
      (executeCommandN_c_zero w 0) (executeCommandN_c_zero w 1) rfl).2
  · intro hv hg channels channel hL hget hm hmin
    have hfirst : firstMatch w.UnicodeToLower q 0 (channels.map fun c => c.Name) = some i := by
      have h := firstMatch_some w.UnicodeToLower q (channels.map fun c => c.Name) 0 i channel.Name
        (by rw [List.get?_eq_getElem?, List.getElem?_map, ← List.get?_eq_getElem?, hget]; rfl) hm
        (by
          intro j nm hj hjn
          rw [List.get?_eq_getElem?, List.getElem?_map, ← List.get?_eq_getElem?] at hjn
          simp only [Option.map_eq_some'] at hjn
          obtain ⟨other, ho, rfl⟩ := hjn
          exact hmin j other hj ho)
      simpa using h
    rw [executeCommand_of_verb w s line args .channelRegex hp hv,
      executeCommand_of_verb w s _ _ .channel hpc hvc]
    simp only [runVerb, cmdChannelRegex, hg, hpat, if_false, hq, emit_dt, hL, hfirst,
      recurseDropped_snd, recurse]
    rw [executeCommandN_of_verb w 1 _ _ _ .channel hpc hvc]
    simp only [runVerb]
    exact (cmdChannel_dt_congr w
      ((s.emit (.call "GuildChannels" [s.dt.ActiveGuild])).emit
        (.dispatch ("/c " ++ strconv.Itoa i))) s ["c", strconv.Itoa i] rfl).2

/-- C18 as amended: with an active guild, a "cr" or "channel_regex" command
whose argument 1 is not empty (the pattern does not start with a space) and
whose pattern, lower-cased, compiles and matches the lower-cased name of no
channel of the guild's channel list returns nil; it only fetches the channel
list: no nested command is dispatched, nothing is printed, and the client
(selection, unread table, configuration) and the standard input are
unchanged. When argument 1 is empty, which is the case for every pattern
that starts with a space, the command returns an error and does nothing. -/
theorem channel_regex_without_match (w : World) (s : Sys) (line : String) (args : Args)
    (hp : parseLine line = some (some args))
    (hv : parseVerb (Args.Get args 0) = some .channelRegex)
    (hg : s.dt.ActiveGuild ≠ "") :
    (Args.Get args 1 ≠ "" → ∀ (q : String → Bool) (channels : List Channel),
      w.RegexpCompile (strings.ToLower w.UnicodeToLower (Args.After args 1)) = .ok q →
      w.GuildChannels s.dt.ActiveGuild = .ok channels →
      (∀ channel ∈ channels, q (strings.ToLower w.UnicodeToLower channel.Name) = false) →
      executeCommand w s line = (.nil, s.emit (.call "GuildChannels" [s.dt.ActiveGuild]))
      ∧ (executeCommand w s line).2.dt = s.dt
      ∧ (executeCommand w s line).2.stdin = s.stdin
      ∧ ∀ nested,
          Effect.dispatch nested ∉ (executeCommand w s line).2.out.drop s.out.length)
    ∧ (Args.Get args 1 = "" →
      executeCommand w s line
        = (.error "Please provide a regular expression to search with", s)) := by
  constructor
  · intro hpat q channels hq hL hno
    exact cmdChannelRegex_no_match w s line args q channels hp hv hg hpat hq hL hno
  · intro hempty
    rw [executeCommand_of_verb w s line args .channelRegex hp hv]
    simp [runVerb, cmdChannelRegex, hg, hempty]

/-- Witness of C18: on the demo world with guild "g1" active, "/cr zzz"
matches neither "general" nor "random". -/
theorem channel_regex_without_match_witness :
    (executeCommand demoWorld (demoSys.setClient (demoSys.dt.SetGuild "g1")) "/cr zzz").1
        = .nil
    ∧ (executeCommand demoWorld (demoSys.setClient (demoSys.dt.SetGuild "g1"))
        "/cr zzz").2.dt = (demoSys.setClient (demoSys.dt.SetGuild "g1")).dt :=
  have h := (channel_regex_without_match demoWorld
    (demoSys.setClient (demoSys.dt.SetGuild "g1")) "/cr zzz" ["cr", "zzz"]
    (by decide) (by decide) (by decide)).1 (by decide)
    (fun name => decide ("zzz".data <:+: name.data)) [demoGeneral, demoRandom]
    rfl rfl (by decide)
  ⟨congrArg Prod.fst h.1, h.2.1⟩

/-- Counterexample to C18: with the guild "g1" active on the demo world, the
line "/cr  zzz" has the pattern " zzz", which compiles and matches neither
"general" nor "random"; the command does not return nil but the error that
no pattern was given. -/
theorem channel_regex_pattern_after_two_spaces :
    Args.After (strings.Split "cr  zzz" ' ') 1 = " zzz"
    ∧ (demoSys.setClient (demoSys.dt.SetGuild "g1")).dt.ActiveGuild = "g1"
    ∧ demoWorld.GuildChannels "g1" = .ok [demoGeneral, demoRandom]
    ∧ firstMatch demoWorld.UnicodeToLower (fun name => decide (" zzz".data <:+: name.data)) 0
        [demoGeneral.Name, demoRandom.Name] = none
    ∧ executeCommand demoWorld (demoSys.setClient (demoSys.dt.SetGuild "g1")) "/cr  zzz"
        = (.error "Please provide a regular expression to search with",
           demoSys.setClient (demoSys.dt.SetGuild "g1")) := by
  refine ⟨by decide, by decide, rfl, by decide, by decide⟩

/-- C19 as amended: for a "gr" (or "guild_regex") command whose argument 1 is
not empty (the pattern p does not start with a space) and whose lower-cased
pattern compiles, where i is the smallest index of a guild whose lower-cased
name the compiled pattern matches, the command leaves the client (selection,
unread table, configuration) exactly as "g i" does from the same state; and
for "cr" (or "channel_regex") with an active guild and the guild's channel
list, exactly as "c i" does. When argument 1 is empty, as for every pattern
that starts with a space, both commands return an error and select
nothing. -/
theorem regex_selects_like_index (w : World) (s : Sys) (line : String) (args : Args)
    (i : Nat) (hp : parseLine line = some (some args)) :
    (Args.Get args 1 ≠ "" → ∀ q : String → Bool,
      w.RegexpCompile (strings.ToLower w.UnicodeToLower (Args.After args 1)) = .ok q →
      (parseVerb (Args.Get args 0) = some .guildRegex →
        ∀ guild, w.Guilds.get? i = some guild →
        q (strings.ToLower w.UnicodeToLower guild.Name) = true →
        (∀ j other, j < i → w.Guilds.get? j = some other →
          q (strings.ToLower w.UnicodeToLower other.Name) = false) →
        (executeCommand w s line).2.dt
          = (executeCommand w s ("/g " ++ strconv.Itoa i)).2.dt)
      ∧ (parseVerb (Args.Get args 0) = some .channelRegex →
        s.dt.ActiveGuild ≠ "" →
        ∀ channels channel, w.GuildChannels s.dt.ActiveGuild = .ok channels →
        channels.get? i = some channel →
        q (strings.ToLower w.UnicodeToLower channel.Name) = true →
        (∀ j other, j < i → channels.get? j = some other →
          q (strings.ToLower w.UnicodeToLower other.Name) = false) →
        (executeCommand w s line).2.dt
          = (executeCommand w s ("/c " ++ strconv.Itoa i)).2.dt))
    ∧ (Args.Get args 1 = "" →
      (parseVerb (Args.Get args 0) = some .guildRegex →
        executeCommand w s line
          = (.error "Please provide a regular expression to search with", s))
      ∧ (parseVerb (Args.Get args 0) = some .channelRegex → s.dt.ActiveGuild ≠ "" →
        executeCommand w s line
          = (.error "Please provide a regular expression to search with", s))) := by
  constructor
  · intro hpat q hq
    exact regex_first_match_as_index w s line args q i hp hpat hq
  · intro hempty
    constructor
    · intro hv
      rw [executeCommand_of_verb w s line args .guildRegex hp hv]
      simp [runVerb, cmdGuildRegex, hempty]
    · intro hv hg
      rw [executeCommand_of_verb w s line args .channelRegex hp hv]
      simp [runVerb, cmdChannelRegex, hg, hempty]

/-- Witness of C19: on the demo world "/gr BET" selects what "/g 1" selects,
the guild "Beta". -/
theorem regex_selects_like_index_witness :
    (executeCommand demoWorld demoSys "/gr BET").2.dt
        = (executeCommand demoWorld demoSys ("/g " ++ strconv.Itoa (1 : Nat))).2.dt
    ∧ (executeCommand demoWorld demoSys "/gr BET").2.dt.ActiveGuild = "g2" :=
  ⟨((regex_selects_like_index demoWorld demoSys "/gr BET" ["gr", "BET"] 1
      (by decide)).1 (by decide) (fun name => decide ("bet".data <:+: name.data)) rfl).1
      (by decide) demoEmptyGuild rfl (by decide)
      (by
        intro j other hj hget
        have hj0 : j = 0 := by omega
        subst hj0
        have e : other = demoGuild := by
          have h0 : demoWorld.Guilds.get? 0 = some demoGuild := rfl
          rw [h0] at hget
          exact (Option.some.inj hget).symm
        subst e
        decide),
    by decide⟩

/-- Counterexample to C19: the only guild of the world is "Delta Four" and the
line "/gr  four" has the pattern " four", which matches that name; "g 0"
selects the guild, while the "gr" command returns the error that no pattern
was given and selects nothing. -/
theorem guild_regex_pattern_after_two_spaces :
    Args.After (strings.Split "gr  four" ' ') 1 = " four"
    ∧ firstMatch demoSpaceWorld.UnicodeToLower
        (fun name => decide (" four".data <:+: name.data)) 0
        (demoSpaceWorld.Guilds.map fun g => g.Name) = some 0
    ∧ (executeCommand demoSpaceWorld demoSys "/g 0").2.dt.ActiveGuild = "g4"
    ∧ executeCommand demoSpaceWorld demoSys "/gr  four"
        = (.error "Please provide a regular expression to search with", demoSys) := by
  refine ⟨?_, ?_, ?_, ?_⟩ <;> decide

/-- Names are compared in lower case beyond ASCII as well: with the guilds
"ÉCOLE" and "école", in this order, "/gr école" selects the first. -/
theorem guild_regex_beyond_ascii :
    strings.ToLower demoAccentWorld.UnicodeToLower "ÉCOLE" = "école"
    ∧ (executeCommand demoAccentWorld demoSys "/gr école").2.dt.ActiveGuild = "g5"
    ∧ (executeCommand demoAccentWorld demoSys "/gr ÉCOLE").2.dt.ActiveGuild = "g5" := by
  refine ⟨?_, ?_, ?_⟩ <;> decide

/-! ## The frame of an embed: claim C20 -/

theorem MaxInt_eq_max (a b : Int) : MaxInt a b = max a b := by
  unfold MaxInt
  simp only [max_def]
  split_ifs <;> omega

theorem maxOf_nil : maxOf [] = 0 := rfl

theorem maxOf_cons (x : Int) (rest : List Int) : maxOf (x :: rest) = max (maxOf rest) x := by
  show MaxInt (maxOf rest) x = _
  rw [MaxInt_eq_max]

theorem maxOf_nonneg (l : List Int) : 0 ≤ maxOf l := by
  induction l with
  | nil => exact le_of_eq maxOf_nil.symm
  | cons x rest ih =>
    rw [maxOf_cons]
    exact le_trans ih (le_max_left _ _)

theorem maxOf_append (l1 l2 : List Int) :
    maxOf (l1 ++ l2) = max (maxOf l1) (maxOf l2) := by
  induction l1 with
  | nil =>
    have h := maxOf_nonneg l2
    simp [maxOf_nil, h]
  | cons x rest ih =>
    rw [List.cons_append, maxOf_cons, maxOf_cons, ih]
    omega

theorem fieldsWidth_eq (fields : List MessageEmbedField) :
    ∀ acc : Int, 0 ≤ acc →
      fieldsWidth fields acc
        = max acc (maxOf (fields.flatMap fun v => [len v.Name, len (firstLine v.Value)])) := by
  induction fields with
  | nil =>
    intro acc h
    simp [fieldsWidth, maxOf_nil, h]
  | cons v rest ih =>
    intro acc h
    have hacc : 0 ≤ MaxInt (MaxInt acc (len v.Name)) (len (firstLine v.Value)) := by
      simp only [MaxInt_eq_max]
      exact le_trans h (le_trans (le_max_left _ _) (le_max_left _ _))
    have hrest := maxOf_nonneg (rest.flatMap fun v => [len v.Name, len (firstLine v.Value)])
    unfold fieldsWidth
    rw [ih _ hacc]
    simp only [List.flatMap_cons, maxOf_append, maxOf_cons, maxOf_nil, MaxInt_eq_max]
    omega

theorem max_zero_absorb (a : Int) (h : 0 ≤ a) : max a 0 = a := max_eq_left h

theorem max_one_absorb (a x : Int) (h : 0 ≤ a) : max a (max 0 x) = max a x := by omega

theorem max_two_absorb (a x y : Int) (h : 0 ≤ a) :
    max a (max (max 0 y) x) = max (max a x) y := by omega

/-- The frame width PrintEmbeds computes is the largest of its candidates. -/
theorem embedFrameWidth_eq (em : MessageEmbed) (conf : Config) :
    embedFrameWidth em conf = maxOf (frameCandidates em conf) := by
  have hacc : 0 ≤ MaxInt (MaxInt 0 (len em.Title)) (len (firstLine em.Description)) := by
    simp only [MaxInt_eq_max]
    exact le_trans (le_max_left _ _) (le_max_left _ _)
  have key := fieldsWidth_eq em.Fields _ hacc
  have hrest :=
    maxOf_nonneg (em.Fields.flatMap fun v => [len v.Name, len (firstLine v.Value)])
  unfold embedFrameWidth frameCandidates
  simp only [key, maxOf_append]
  generalize maxOf (em.Fields.flatMap fun v => [len v.Name, len (firstLine v.Value)]) = r
    at hrest ⊢
  generalize len em.Title = t
  generalize len (firstLine em.Description) = d
  generalize intOfUint conf.ImageWidth = iw
  have hA : (0 : Int) ≤ max (max (max 0 t) d) r := le_trans hrest (le_max_right _ _)
  have hswap : max (max (0 : Int) d) t = max (max 0 t) d := by omega
  cases conf.ShowImages <;> cases em.Image <;> cases em.Thumbnail <;>
    simp only [Option.isSome, Option.toList, List.append_nil, List.nil_append, List.map_nil,
      List.map_cons, List.singleton_append, Bool.false_eq_true, if_false, if_true, or_self,
      or_true, true_or, maxOf_cons, maxOf_nil, MaxInt_eq_max, hswap] <;>
    first
      | exact (max_zero_absorb _ hA).symm
      | exact (max_one_absorb _ _ hA).symm
      | exact (max_two_absorb _ _ _ hA).symm

theorem emit_extends (s : Sys) (e : Effect) : s.out <+: (s.emit e).out :=
  List.prefix_append _ _

theorem println_extends (s : Sys) (operands : List String) : s.out <+: (s.println operands).out :=
  List.prefix_append _ _

theorem printEmbedImage_extends (w : World) (s : Sys) (image : Option String) (conf : Config) :
    s.out <+: (printEmbedImage w s image conf).out := by
  unfold printEmbedImage
  cases image with
  | none => exact List.prefix_refl _
  | some url =>
    simp only [PrintImageURLComplex]
    split_ifs
    · cases w.ImageError url with
      | none => exact emit_extends _ _
      | some err => exact (emit_extends _ _).trans (emit_extends _ _)
    · exact emit_extends _ _
    · exact emit_extends _ _
    · exact List.prefix_refl _

theorem printEmbedFields_extends (frameWidth : Int) (fields : List MessageEmbedField) :
    ∀ s : Sys, s.out <+: (printEmbedFields s frameWidth fields).2.out := by
  induction fields with
  | nil => intro s; exact List.prefix_refl _
  | cons v rest ih =>
    intro s
    unfold printEmbedFields
    cases strings.Repeat "-" (frameWidth - len v.Name - 2) with
    | none => exact List.prefix_refl _
    | some dashes =>
      exact ((println_extends _ _).trans (println_extends _ _)).trans (ih _)

theorem andThen_extends (r : Result × Sys) (k : Sys → Result × Sys)
    (hk : ∀ t, t.out <+: (k t).2.out) : r.2.out <+: (andThen r k).2.out := by
  unfold andThen
  split_ifs
  · exact hk _
  · exact List.prefix_refl _

theorem repeat_of_nonneg (text : String) (count : Int) (h : 0 ≤ count) :
    strings.Repeat text count = some (String.join (List.replicate count.toNat text)) := by
  unfold strings.Repeat
  rw [if_neg (by omega)]

/-- The first thing printEmbed prints is the top border, as wide as the
frame. -/
theorem printEmbed_top (w : World) (s : Sys) (em : MessageEmbed) (conf : Config) :
    (printEmbed w s em conf).2.out.get? s.out.length
      = some (.println [plain "|",
          plain (String.join (List.replicate (embedFrameWidth em conf).toNat "=")),
          plain "|"]) := by
  have hfw : 0 ≤ embedFrameWidth em conf := by
    rw [embedFrameWidth_eq]
    exact maxOf_nonneg _
  have hpre : (s.println ["|",
        String.join (List.replicate (embedFrameWidth em conf).toNat "="), "|"]).out
      <+: (printEmbed w s em conf).2.out := by
    unfold printEmbed
    simp only [repeat_of_nonneg _ _ hfw]
    refine List.IsPrefix.trans ?_ (andThen_extends _ _ (fun t => println_extends _ _))
    refine List.IsPrefix.trans ?_ (printEmbedFields_extends _ _ _)
    refine List.IsPrefix.trans ?_ (printEmbedImage_extends _ _ _ _)
    refine List.IsPrefix.trans ?_ (printEmbedImage_extends _ _ _ _)
    split_ifs <;>
      first
        | exact List.prefix_refl _
        | exact emit_extends _ _
        | exact println_extends _ _
        | exact (emit_extends _ _).trans (println_extends _ _)
  obtain ⟨l, hl⟩ := hpre
  have e : (printEmbed w s em conf).2.out
      = s.out ++ (.println [plain "|",
          plain (String.join (List.replicate (embedFrameWidth em conf).toNat "=")),
          plain "|"] :: l) := by
    rw [← hl]
    simp [Sys.println, Sys.emit]
  rw [e, List.get?_eq_getElem?, List.getElem?_append_right (le_refl _)]
  simp

theorem andThen_last (r : Result × Sys) (x : Effect)
    (h : (andThen r fun s => (.nil, s.emit x)).1 = .nil) :
    (andThen r fun s => (.nil, s.emit x)).2.out.getLast? = some x := by
  unfold andThen at h ⊢
  split_ifs at h ⊢ with halive
  · simp [Sys.emit]
  · rw [h] at halive
    exact absurd rfl halive

/-- When printEmbed returns, the last thing it printed is the bottom border,
as wide as the frame. -/
theorem printEmbed_bottom (w : World) (s : Sys) (em : MessageEmbed) (conf : Config)
    (h : (printEmbed w s em conf).1 = .nil) :
    (printEmbed w s em conf).2.out.getLast?
      = some (.println [plain "|",
          plain (String.join (List.replicate (embedFrameWidth em conf).toNat "_")),
          plain "|"]) := by
  have hfw : 0 ≤ embedFrameWidth em conf := by
    rw [embedFrameWidth_eq]
    exact maxOf_nonneg _
  unfold printEmbed at h ⊢
  simp only [repeat_of_nonneg _ _ hfw] at h ⊢
  exact andThen_last _ _ h


/-- C20 as amended: for every embed e and configuration conf, the frame width
PrintEmbeds uses equals the largest of 0, len(e.Title), the length of the
first line of e.Description, len(name) and the length of the first line of
the value of every field, and: when conf.ShowImages is set and e has an image
or a thumbnail, int(conf.ImageWidth); when conf.ShowImages is not set, the
length of the URL of the image and of the thumbnail e has. The top border is
printed first and the bottom border last with that width. When
conf.ShowImages is not set, or e has an image or a thumbnail, and the image
width fits an int, this is the width the specification words. -/
theorem frame_width_is_max_of_candidates (w : World) (s : Sys) (em : MessageEmbed)
    (conf : Config) :
    embedFrameWidth em conf = maxOf (frameCandidates em conf)
    ∧ (printEmbed w s em conf).2.out.get? s.out.length
        = some (.println [plain "|",
            plain (String.join (List.replicate (embedFrameWidth em conf).toNat "=")),
            plain "|"])
    ∧ ((printEmbed w s em conf).1 = .nil →
        (printEmbed w s em conf).2.out.getLast?
          = some (.println [plain "|",
              plain (String.join (List.replicate (embedFrameWidth em conf).toNat "_")),
              plain "|"]))
    ∧ ((conf.ImageWidth : Int) < 9223372036854775808 →
        (conf.ShowImages = false ∨ em.Image.isSome = true ∨ em.Thumbnail.isSome = true) →
        embedFrameWidth em conf = specFrameWidth em conf) := by
  refine ⟨embedFrameWidth_eq em conf, printEmbed_top w s em conf,
    printEmbed_bottom w s em conf, ?_⟩
  intro hw hcase
  have hiw : intOfUint conf.ImageWidth = (conf.ImageWidth : Int) :=
    wrap64_of_isInt64 ⟨by omega, hw⟩
  rw [embedFrameWidth_eq]
  unfold frameCandidates specFrameWidth
  rw [hiw]
  rcases hcase with h | h | h
  · simp [h]
  · simp [h]
  · simp [h]

/-- Witness of C20: an embed with an image under the default configuration
has the frame width of the specification, 100. -/
theorem frame_width_is_max_of_candidates_witness :
    embedFrameWidth demoPicture NewConfig = specFrameWidth demoPicture NewConfig
    ∧ specFrameWidth demoPicture NewConfig = 100 :=
  ⟨(frame_width_is_max_of_candidates demoWorld demoSys demoPicture NewConfig).2.2.2
      (by decide) (Or.inr (Or.inl rfl)), by decide⟩

/-- Counterexample to C20: under the default configuration, which inlines
images and has image width 100, an embed with the title "hi" and neither
image nor thumbnail is framed with width 2, not 100. -/
theorem image_width_counts_only_with_an_image :
    NewConfig.ShowImages = true
    ∧ NewConfig.ImageWidth = 100
    ∧ embedFrameWidth demoEmbed NewConfig = 2
    ∧ specFrameWidth demoEmbed NewConfig = 100
    ∧ (printEmbed demoWorld demoSys demoEmbed NewConfig).2.out
        = [.println [plain "|", plain "==", plain "|"],
           .println [paint .red "hi"],
           .println [plain "|", plain "__", plain "|"]] := by
  refine ⟨rfl, rfl, ?_, ?_, ?_⟩ <;> decide

/-! ## The header line of a message: claim C21 -/

theorem printEmbed_extends (w : World) (s : Sys) (em : MessageEmbed) (conf : Config) :
    s.out <+: (printEmbed w s em conf).2.out := by
  have hfw : 0 ≤ embedFrameWidth em conf := by
    rw [embedFrameWidth_eq]
    exact maxOf_nonneg _
  unfold printEmbed
  simp only [repeat_of_nonneg _ _ hfw]
  refine List.IsPrefix.trans ?_ (andThen_extends _ _ (fun t => println_extends _ _))
  refine List.IsPrefix.trans ?_ (printEmbedFields_extends _ _ _)
  refine List.IsPrefix.trans ?_ (printEmbedImage_extends _ _ _ _)
  refine List.IsPrefix.trans ?_ (printEmbedImage_extends _ _ _ _)
  split_ifs <;>
    first
      | exact println_extends _ _
      | exact (println_extends _ _).trans (emit_extends _ _)
      | exact ((println_extends _ _).trans (emit_extends _ _)).trans (println_extends _ _)

theorem printEmbeds_extends (w : World) (conf : Config) (embeds : List MessageEmbed) :
    ∀ s : Sys, s.out <+: (PrintEmbeds w s conf embeds).2.out := by
  induction embeds with
  | nil => intro s; exact List.prefix_refl _
  | cons em rest ih =>
    intro s
    unfold PrintEmbeds
    exact (printEmbed_extends w s em conf).trans (andThen_extends _ _ fun t => ih t)

theorem printAttachments_extends (w : World) (conf : Config)
    (attachments : List MessageAttachment) :
    ∀ s : Sys, s.out <+: (PrintAttachments w s conf attachments).out := by
  induction attachments with
  | nil => intro s; exact List.prefix_refl _
  | cons a rest ih =>
    intro s
    unfold PrintAttachments
    simp only [PrintImageURLComplex]
    split_ifs <;>
      first
        | exact ih _
        | exact (emit_extends _ _).trans (ih _)
        | exact ((emit_extends _ _).trans (emit_extends _ _)).trans (ih _)

/-- Everything PrintMessageComplex does after the header keeps the header in
its place. -/
theorem header_stays (w : World) (s : Sys) (m : Message) (conf : Config) (header : Effect) :
    (s.emit header).out
      <+: (andThen (PrintEmbeds w
            (PrintAttachments w
              (if m.Content ≠ "" then (s.emit header).println [m.ContentWithMentionsReplaced]
                else s.emit header) conf m.Attachments) conf m.Embeds)
            fun t => (.nil, t.println [])).2.out := by
  refine List.IsPrefix.trans ?_ (andThen_extends _ _ fun t => println_extends _ _)
  refine List.IsPrefix.trans ?_ (printEmbeds_extends _ _ _ _)
  refine List.IsPrefix.trans ?_ (printAttachments_extends _ _ _ _)
  split_ifs
  · exact println_extends _ _
  · exact List.prefix_refl _

theorem get_of_extends (pre : List Effect) (x : Effect) (l : List Effect)
    (h : pre ++ [x] <+: l) : l.get? pre.length = some x := by
  obtain ⟨rest, hr⟩ := h
  rw [← hr, List.get?_eq_getElem?, List.append_assoc,
    List.getElem?_append_right (le_refl _)]
  simp

/-- C21: the header line PrintMessageComplex prints has the message id only
when text is coloured. With coloured text the header is the display name,
the padding, m.ID, a tab and m.Author.ID; without, it is the display name,
the padding, a tab and m.Author.ID, and m.ID is not printed: the header of
the demo message "m1" of "bob" ("u1") mentions "bob" and "u1" but not
"m1". -/
theorem header_without_colour_omits_message_id (w : World) (s : Sys) (m : Message)
    (conf : Config) :
    headerOf w s m { conf with ColorText := true }
        = some (.println [paint .cyan (resolveDisplayName w s m conf).1,
            plain (padding (30 - len (resolveDisplayName w s m conf).1)),
            paint .blue m.ID, plain "\t", paint .blue m.Author.ID])
    ∧ headerOf w s m { conf with ColorText := false }
        = some (.println [plain (resolveDisplayName w s m conf).1,
            plain (padding (30 - len (resolveDisplayName w s m conf).1)),
            plain "\t", plain m.Author.ID])
    ∧ headerOf demoWorld demoSys demoMessage { NewConfig with ColorText := false }
        = some (.println [plain "bob", plain (padding 27), plain "\t", plain "u1"])
    ∧ lineMentions (.println [plain "bob", plain (padding 27), plain "\t", plain "u1"])
        "bob" = true
    ∧ lineMentions (.println [plain "bob", plain (padding 27), plain "\t", plain "u1"])
        "u1" = true
    ∧ lineMentions (.println [plain "bob", plain (padding 27), plain "\t", plain "u1"])
        "m1" = false := by
  refine ⟨?_, ?_, by decide, by decide, by decide, by decide⟩
  · unfold headerOf PrintMessageComplex
    exact get_of_extends _ _ _ (header_stays w _ m _ _)
  · unfold headerOf PrintMessageComplex
    exact get_of_extends _ _ _ (header_stays w _ m _ _)

/-! ## The display name of the author: claim C22 -/

theorem fetchNickname_eq (w : World) (s : Sys) (m : Message) :
    (fetchNickname w s m).1
      = match lookupChannel w m.ChannelID with
        | none => none
        | some channel =>
          match w.StateMember channel.GuildID m.Author.ID with
          | .error _ => none
          | .ok member => if member.Nick ≠ "" then some member.Nick else none := by
  unfold fetchNickname lookupChannel memberNickname
  cases w.StateChannel m.ChannelID with
  | ok channel =>
    simp only
    cases w.StateMember channel.GuildID m.Author.ID with
    | error err => rfl
    | ok member => simp only; split_ifs <;> rfl
  | error err =>
    simp only
    cases w.Channel m.ChannelID with
    | error err2 => rfl
    | ok channel =>
      simp only
      cases w.StateMember channel.GuildID m.Author.ID with
      | error err => rfl
      | ok member => simp only; split_ifs <;> rfl

/-- The name resolution calls the state cache for the channel, the remote
call for the channel when the cache fails, and the state cache for the
member; it calls nothing else. -/
theorem fetchNickname_calls (w : World) (s : Sys) (m : Message) :
    ∃ added, (fetchNickname w s m).2 = { s with out := s.out ++ added }
      ∧ ∀ e ∈ added, e = .call "State.Channel" [m.ChannelID]
          ∨ e = .call "Channel" [m.ChannelID]
          ∨ ∃ guildID, e = .call "State.Member" [guildID, m.Author.ID] := by
  unfold fetchNickname memberNickname
  cases w.StateChannel m.ChannelID with
  | ok channel =>
    refine ⟨[.call "State.Channel" [m.ChannelID],
      .call "State.Member" [channel.GuildID, m.Author.ID]], ?_, ?_⟩
    · simp only
      cases w.StateMember channel.GuildID m.Author.ID with
      | error err => simp [Sys.emit]
      | ok member => simp only; split_ifs <;> simp [Sys.emit]
    · intro e he
      simp only [List.mem_cons, List.mem_singleton, List.not_mem_nil, or_false] at he
      rcases he with rfl | rfl
      · exact Or.inl rfl
      · exact Or.inr (Or.inr ⟨_, rfl⟩)
  | error err =>
    simp only
    cases w.Channel m.ChannelID with
    | error err2 =>
      refine ⟨[.call "State.Channel" [m.ChannelID], .call "Channel" [m.ChannelID]], ?_, ?_⟩
      · simp [Sys.emit]
      · intro e he
        simp only [List.mem_cons, List.mem_singleton, List.not_mem_nil, or_false] at he
        rcases he with rfl | rfl
        · exact Or.inl rfl
        · exact Or.inr (Or.inl rfl)
    | ok channel =>
      refine ⟨[.call "State.Channel" [m.ChannelID], .call "Channel" [m.ChannelID],
        .call "State.Member" [channel.GuildID, m.Author.ID]], ?_, ?_⟩
      · simp only
        cases w.StateMember channel.GuildID m.Author.ID with
        | error err => simp [Sys.emit]
        | ok member => simp only; split_ifs <;> simp [Sys.emit]
      · intro e he
        simp only [List.mem_cons, List.mem_singleton, List.not_mem_nil, or_false] at he
        rcases he with rfl | rfl | rfl
        · exact Or.inl rfl
        · exact Or.inr (Or.inl rfl)
        · exact Or.inr (Or.inr ⟨_, rfl⟩)

/-- C22 as amended: the display name PrintMessageComplex uses is the author's
guild nickname exactly when show-nicknames is enabled, the channel resolves
(in the state cache or, failing that, by the remote call) and the state
cache has a member with a non-empty nickname; in every other case
(nicknames disabled, channel not resolved, member not in the state cache,
empty nickname) it is the author's username. The member is never looked up
remotely: the resolution makes no GuildMember call, and its result does not
depend on what that call would return. -/
theorem display_name_resolution (w : World) (s : Sys) (m : Message) (conf : Config) :
    (conf.ShowNicknames = false → resolveDisplayName w s m conf = (m.Author.Username, s))
    ∧ (∀ channel member, conf.ShowNicknames = true →
        lookupChannel w m.ChannelID = some channel →
        w.StateMember channel.GuildID m.Author.ID = .ok member → member.Nick ≠ "" →
        (resolveDisplayName w s m conf).1 = member.Nick)
    ∧ (conf.ShowNicknames = true → lookupChannel w m.ChannelID = none →
        (resolveDisplayName w s m conf).1 = m.Author.Username)
    ∧ (∀ channel err, conf.ShowNicknames = true →
        lookupChannel w m.ChannelID = some channel →
        w.StateMember channel.GuildID m.Author.ID = .error err →
        (resolveDisplayName w s m conf).1 = m.Author.Username)
    ∧ (∀ channel member, conf.ShowNicknames = true →
        lookupChannel w m.ChannelID = some channel →
        w.StateMember channel.GuildID m.Author.ID = .ok member → member.Nick = "" →
        (resolveDisplayName w s m conf).1 = m.Author.Username)
    ∧ (∀ arguments,
        Effect.call "GuildMember" arguments ∉ (resolveDisplayName w s m conf).2.out.drop
          s.out.length)
    ∧ (∀ remote, resolveDisplayName { w with GuildMember := remote } s m conf
        = resolveDisplayName w s m conf) := by
  refine ⟨?_, ?_, ?_, ?_, ?_, ?_, ?_⟩
  · intro h
    simp [resolveDisplayName, h]
  · intro channel member h hc hm hn
    simp [resolveDisplayName, h, fetchNickname_eq, hc, hm, hn]
  · intro h hc
    simp [resolveDisplayName, h, fetchNickname_eq, hc]
  · intro channel err h hc hm
    simp [resolveDisplayName, h, fetchNickname_eq, hc, hm]
  · intro channel member h hc hm hn
    simp [resolveDisplayName, h, fetchNickname_eq, hc, hm, hn]
  · intro arguments
    obtain ⟨added, hout, hadded⟩ := fetchNickname_calls w s m
    have hres : (resolveDisplayName w s m conf).2 = s
        ∨ (resolveDisplayName w s m conf).2 = (fetchNickname w s m).2 := by
      unfold resolveDisplayName
      split_ifs
      · exact Or.inl rfl
      · right
        simp only
        split <;> rfl
    rcases hres with h | h
    · rw [h]
      simp
    · rw [h, hout]
      simp only [List.drop_left]
      intro hmem
      rcases hadded _ hmem with h | h | ⟨g, h⟩ <;> simp at h
  · intro remote
    rfl

/-- Witness of C22: with show-nicknames on and the author in the state cache,
the demo message is shown under the nickname "Bobby". -/
theorem display_name_resolution_witness :
    (resolveDisplayName demoCachedWorld demoSys demoMessage
      { NewConfig with ShowNicknames := true }).1 = "Bobby" :=
  (display_name_resolution demoCachedWorld demoSys demoMessage
    { NewConfig with ShowNicknames := true }).2.1 demoRandom demoMember rfl (by decide)
    rfl (by decide)

/-- Counterexample to C22: show-nicknames is on, the channel resolves, the
state cache has no member and the remote member lookup would find the member
with the nickname "Bobby"; the display name is the username "bob", and the
remote lookup is not made. -/
theorem remote_member_is_not_looked_up :
    lookupChannel demoRemoteWorld demoMessage.ChannelID = some demoRandom
    ∧ demoRemoteWorld.StateMember "g1" "u1" = .error "state cache miss"
    ∧ demoRemoteWorld.GuildMember "g1" "u1" = .ok demoMember
    ∧ demoMember.Nick = "Bobby"
    ∧ resolveDisplayName demoRemoteWorld demoSys demoMessage
          { NewConfig with ShowNicknames := true }
        = ("bob", { demoSys with out := [.call "State.Channel" ["c2"],
            .call "State.Member" ["g1", "u1"]] }) := by
  refine ⟨?_, ?_, ?_, ?_, ?_⟩ <;> rfl

/-! ## The paragraph command: claim C23 -/

theorem splitLines_one_line (text : List Char) (h : '\n' ∉ text) :
    splitLines (text ++ ['\n']) = ([String.mk (text ++ ['\n'])], []) := by
  induction text with
  | nil => rfl
  | cons c rest ih =>
    have hc : c ≠ '\n' := fun e => h (by rw [e]; exact List.mem_cons_self _ _)
    have hrest : '\n' ∉ rest := fun hm => h (List.mem_cons_of_mem _ hm)
    rw [List.cons_append, splitLines]
    simp only [ih hrest, hc, if_false]

/-- On a console in line mode one line that is no sentinel costs the read
loop of "p" one read and is appended, trimmed, to the buffer. -/
theorem paragraphLoop_one_line (w : World) (dt : Client) (out : List Effect)
    (lines : List String) (text : List Char) (reads : List String) (h : '\n' ∉ text)
    (hsend : strings.Trim (String.mk (text ++ ['\n'])) ['\r', '\n'] ≠ "/send")
    (hcancel : strings.Trim (String.mk (text ++ ['\n'])) ['\r', '\n'] ≠ "/cancel") :
    paragraphLoop w dt out lines [] (String.mk (text ++ ['\n']) :: reads)
      = paragraphLoop w dt out
          (lines ++ [strings.Trim (String.mk (text ++ ['\n'])) ['\r', '\n']]) [] reads := by
  rw [paragraphLoop]
  simp only [List.nil_append, splitLines_one_line text h, paragraphTurns, hsend, hcancel,
    if_false]

/-- The same for any number of lines. -/
theorem paragraphLoop_lines (w : World) (dt : Client) (out : List Effect)
    (texts : List (List Char)) :
    ∀ (lines reads : List String),
      (∀ text ∈ texts, '\n' ∉ text
        ∧ strings.Trim (String.mk (text ++ ['\n'])) ['\r', '\n'] ≠ "/send"
        ∧ strings.Trim (String.mk (text ++ ['\n'])) ['\r', '\n'] ≠ "/cancel") →
      paragraphLoop w dt out lines [] ((texts.map fun text => String.mk (text ++ ['\n'])) ++ reads)
        = paragraphLoop w dt out
            (lines ++ texts.map fun text => strings.Trim (String.mk (text ++ ['\n'])) ['\r', '\n'])
            [] reads := by
  induction texts with
  | nil => intro lines reads _; simp
  | cons text rest ih =>
    intro lines reads h
    obtain ⟨h1, h2, h3⟩ := h text (List.mem_cons_self _ _)
    rw [List.map_cons, List.cons_append, paragraphLoop_one_line w dt out lines text _ h1 h2 h3,
      ih _ _ fun t ht => h t (List.mem_cons_of_mem _ ht)]
    simp

/-- What holds of claim C23: on a console that delivers one line to each
read (a terminal in line mode), with an active channel, the "p" command with
tail t followed by the lines l1..lk, none of which is "/send" or "/cancel",
and then by the line "/send" makes exactly one ChannelMessageSend call, to
the active channel, with the buffer (t if non-empty, then l1..lk, each
without its line end) joined by newlines, and returns what the send returns;
followed by "/cancel" it sends nothing and returns nil. In both cases the
reads left are those after the k + 1 lines. -/
theorem paragraph_on_line_console (w : World) (s : Sys) (line : String) (args : Args)
    (texts : List (List Char)) (final : List Char) (tail : List String)
    (hp : parseLine line = some (some args))
    (hv : parseVerb (Args.Get args 0) = some .paragraph)
    (hch : s.dt.ActiveChannel ≠ "")
    (htexts : ∀ text ∈ texts, '\n' ∉ text
      ∧ strings.Trim (String.mk (text ++ ['\n'])) ['\r', '\n'] ≠ "/send"
      ∧ strings.Trim (String.mk (text ++ ['\n'])) ['\r', '\n'] ≠ "/cancel")
    (hfinal : '\n' ∉ final)
    (hin : s.stdin = (texts.map fun text => String.mk (text ++ ['\n']))
      ++ String.mk (final ++ ['\n']) :: tail) :
    (strings.Trim (String.mk (final ++ ['\n'])) ['\r', '\n'] = "/send" →
      executeCommand w s line
        = ((match w.ChannelMessageSend s.dt.ActiveChannel
              (strings.Join ((if Args.After args 1 ≠ "" then [Args.After args 1] else [])
                ++ texts.map fun text =>
                  strings.Trim (String.mk (text ++ ['\n'])) ['\r', '\n']) "\n") with
            | some err => Result.error err
            | none => Result.nil),
           { dt := s.dt,
             out := s.out ++ [.println [plain
                 "Enter your paragraph in multiple lines. Type /send or /cancel to finish"],
               .call "ChannelMessageSend" [s.dt.ActiveChannel,
                 strings.Join ((if Args.After args 1 ≠ "" then [Args.After args 1] else [])
                   ++ texts.map fun text =>
                     strings.Trim (String.mk (text ++ ['\n'])) ['\r', '\n']) "\n"]],
             stdin := tail }))
    ∧ (strings.Trim (String.mk (final ++ ['\n'])) ['\r', '\n'] = "/cancel" →
      executeCommand w s line
        = (.nil,
           { dt := s.dt,
             out := s.out ++ [.println [plain
                 "Enter your paragraph in multiple lines. Type /send or /cancel to finish"]],
             stdin := tail })) := by
  refine ⟨?_, ?_⟩ <;>
    rw [executeCommand_of_verb w s line args .paragraph hp hv] <;>
    simp only [runVerb, cmdParagraph, hch, if_false, println_dt, Sys.println, Sys.emit, hin] <;>
    rw [paragraphLoop_lines w _ _ texts _ _ htexts]
  · intro hsend
    rw [paragraphLoop]
    simp only [List.nil_append, splitLines_one_line final hfinal, paragraphTurns, hsend,
      if_true, Sys.emit]
    cases w.ChannelMessageSend s.dt.ActiveChannel
        (strings.Join ((if Args.After args 1 ≠ "" then [Args.After args 1] else [])
          ++ texts.map fun text =>
            strings.Trim (String.mk (text ++ ['\n'])) ['\r', '\n']) "\n") with
    | none => simp
    | some err => simp
  · intro hcancel
    rw [paragraphLoop]
    have hns : ("/cancel" : String) ≠ "/send" := by decide
    simp [List.nil_append, splitLines_one_line final hfinal, paragraphTurns, hcancel, hns]

/-- C23: the read loop of "p" reads os.Stdin through a reader of its own,
not through the reader of the input loop. On the demo world with the channel
"c1" active: when one read delivers "/p one", "two" and "/send" together, the
input loop's reader holds "two" and "/send", the reader of "p" finds the end
of the input, and the process exits with nothing sent; when one read
delivers the lines "two", "/send" and "/gl" together, the message is sent
but the line "/gl" is lost with the reader of "p", so three lines are
consumed, not two; when the input ends in "/send" without a line end, the
process exits with nothing sent. Delivered one line to a read, the same
lines do what the claim says. -/
theorem paragraph_reader_is_not_the_loop_reader :
    (executeCommand demoWorld demoSys "/g 0").2.dt.ActiveChannel = "c1"
    ∧ readInputStep demoWorld []
        { (executeCommand demoWorld demoSys "/g 0").2 with stdin := ["/p one\ntwo\n/send\n"] }
      = (.exit 1, "two\n/send\n".data,
         { dt := (executeCommand demoWorld demoSys "/g 0").2.dt,
           out := (executeCommand demoWorld demoSys "/g 0").2.out ++ [.println [plain
               "Enter your paragraph in multiple lines. Type /send or /cancel to finish"]],
           stdin := [] })
    ∧ executeCommand demoWorld
        { (executeCommand demoWorld demoSys "/g 0").2 with stdin := ["two\n/send\n/gl\n"] }
        "/p one"
      = (.nil,
         { dt := (executeCommand demoWorld demoSys "/g 0").2.dt,
           out := (executeCommand demoWorld demoSys "/g 0").2.out ++ [.println [plain
               "Enter your paragraph in multiple lines. Type /send or /cancel to finish"],
             .call "ChannelMessageSend" ["c1", "one\ntwo"]],
           stdin := [] })
    ∧ executeCommand demoWorld
        { (executeCommand demoWorld demoSys "/g 0").2 with stdin := ["two\n", "/send"] }
        "/p one"
      = (.exit 1,
         { dt := (executeCommand demoWorld demoSys "/g 0").2.dt,
           out := (executeCommand demoWorld demoSys "/g 0").2.out ++ [.println [plain
               "Enter your paragraph in multiple lines. Type /send or /cancel to finish"]],
           stdin := [] })
    ∧ executeCommand demoWorld
        { (executeCommand demoWorld demoSys "/g 0").2 with
          stdin := ["two\n", "/send\n", "/gl\n"] } "/p one"
      = (.nil,
         { dt := (executeCommand demoWorld demoSys "/g 0").2.dt,
           out := (executeCommand demoWorld demoSys "/g 0").2.out ++ [.println [plain
               "Enter your paragraph in multiple lines. Type /send or /cancel to finish"],
             .call "ChannelMessageSend" ["c1", "one\ntwo"]],
           stdin := ["/gl\n"] }) := by
  refine ⟨?_, ?_, ?_, ?_, ?_⟩ <;> decide

/-! ## The sign of the unread counters: claim C24 -/

theorem mem_mapSet {β : Type} (m : List (String × β)) (k : String) (v : β) :
    ∀ x ∈ mapSet m k v, x = (k, v) ∨ x ∈ m := by
  induction m with
  | nil =>
    intro x hx
    simp only [mapSet, List.mem_singleton] at hx
    exact Or.inl hx
  | cons p rest ih =>
    obtain ⟨k', v'⟩ := p
    intro x hx
    unfold mapSet at hx
    split_ifs at hx with hk
    · rcases List.mem_cons.mp hx with h | h
      · left
        rw [h, hk]
      · exact Or.inr (List.mem_cons_of_mem _ h)
    · rcases List.mem_cons.mp hx with h | h
      · right
        rw [h]
        exact List.mem_cons_self _ _
      · rcases ih x h with h2 | h2
        · exact Or.inl h2
        · exact Or.inr (List.mem_cons_of_mem _ h2)

theorem mem_of_mapGet {β : Type} (m : List (String × β)) (k : String) (v : β)
    (h : mapGet m k = some v) : (k, v) ∈ m := by
  induction m with
  | nil => simp [mapGet] at h
  | cons p rest ih =>
    obtain ⟨k', v'⟩ := p
    unfold mapGet at h
    split_ifs at h with hk
    · simp only [Option.some.injEq] at h
      rw [← hk, ← h]
      exact List.mem_cons_self _ _
    · exact List.mem_cons_of_mem _ (ih h)

theorem sum_mapSet (m : List (String × Int)) (k : String) (v : Int) :
    ((mapSet m k v).map Prod.snd).sum = (m.map Prod.snd).sum - readCount m k + v := by
  induction m with
  | nil => simp [mapSet, readCount, mapGet]
  | cons p rest ih =>
    obtain ⟨k', v'⟩ := p
    by_cases hk : k' = k
    · simp only [mapSet, readCount, mapGet, hk, if_true, List.map_cons, List.sum_cons]
      omega
    · have e : readCount ((k', v') :: rest) k = readCount rest k := by
        simp [readCount, mapGet, hk]
      rw [e]
      simp only [mapSet, hk, if_false, List.map_cons, List.sum_cons, ih]
      omega

theorem readCount_bounds (m : List (String × Int)) (k : String)
    (h : ∀ counter ∈ m, 0 ≤ counter.2) :
    0 ≤ readCount m k ∧ readCount m k ≤ (m.map Prod.snd).sum := by
  induction m with
  | nil => simp [readCount, mapGet]
  | cons p rest ih =>
    obtain ⟨k', v'⟩ := p
    have hv : 0 ≤ v' := h (k', v') (List.mem_cons_self _ _)
    have hrest := ih fun counter hc => h counter (List.mem_cons_of_mem _ hc)
    by_cases hk : k' = k
    · have e : readCount ((k', v') :: rest) k = v' := by simp [readCount, mapGet, hk]
      rw [e]
      simp only [List.map_cons, List.sum_cons]
      omega
    · have e : readCount ((k', v') :: rest) k = readCount rest k := by
        simp [readCount, mapGet, hk]
      rw [e]
      simp only [List.map_cons, List.sum_cons]
      omega

theorem countersWithin_innerMap (c : Client) (bound : Int) (h : CountersWithin c bound)
    (hb : 0 ≤ bound) (g : String) :
    (∀ counter ∈ innerMap c.UnreadChannels g, 0 ≤ counter.2)
    ∧ ((innerMap c.UnreadChannels g).map Prod.snd).sum ≤ bound := by
  unfold innerMap
  cases hg : mapGet c.UnreadChannels g with
  | none => simpa using hb
  | some m => exact h (g, m) (mem_of_mapGet _ _ _ hg)

theorem countersWithin_set (c : Client) (bound bound2 : Int) (h : CountersWithin c bound)
    (hle : bound ≤ bound2) (g : String) (m : List (String × Int))
    (hm : (∀ counter ∈ m, 0 ≤ counter.2) ∧ (m.map Prod.snd).sum ≤ bound2) :
    CountersWithin { c with UnreadChannels := mapSet c.UnreadChannels g m } bound2 := by
  intro entry hentry
  rcases mem_mapSet _ _ _ entry hentry with he | he
  · rw [he]
    exact hm
  · exact ⟨(h entry he).1, le_trans (h entry he).2 hle⟩

theorem countersWithin_markUnread (c : Client) (bound : Int) (h : CountersWithin c bound)
    (hb : 0 ≤ bound) (g ch : String) (d : Int) (hd : 0 ≤ d)
    (hfit : bound + d < 9223372036854775808) :
    CountersWithin (c.MarkUnread g ch d) (bound + d) := by
  obtain ⟨hpos, hsum⟩ := countersWithin_innerMap c bound h hb g
  obtain ⟨h0, h1⟩ := readCount_bounds (innerMap c.UnreadChannels g) ch hpos
  have hw : addInt (readCount (innerMap c.UnreadChannels g) ch) d
      = readCount (innerMap c.UnreadChannels g) ch + d :=
    wrap64_of_isInt64 ⟨by omega, by omega⟩
  unfold Client.MarkUnread
  simp only [hw]
  refine countersWithin_set c bound (bound + d) h (by omega) g _ ⟨?_, ?_⟩
  · intro counter hc
    rcases mem_mapSet _ _ _ counter hc with he | he
    · rw [he]
      show 0 ≤ readCount (innerMap c.UnreadChannels g) ch + d
      omega
    · exact hpos counter he
  · rw [sum_mapSet]
    omega

theorem countersWithin_markRead (c : Client) (bound : Int) (h : CountersWithin c bound)
    (hb : 0 ≤ bound) (g ch : String) : CountersWithin (c.MarkRead g ch) bound := by
  obtain ⟨hpos, hsum⟩ := countersWithin_innerMap c bound h hb g
  obtain ⟨h0, h1⟩ := readCount_bounds (innerMap c.UnreadChannels g) ch hpos
  unfold Client.MarkRead
  refine countersWithin_set c bound bound h (le_refl _) g _ ⟨?_, ?_⟩
  · intro counter hc
    rcases mem_mapSet _ _ _ counter hc with he | he
    · rw [he]
    · exact hpos counter he
  · rw [sum_mapSet]
    omega

theorem totalDelta_nonneg (ops : List Op) (h : ∀ o ∈ ops, 0 ≤ o.delta) : 0 ≤ totalDelta ops := by
  induction ops with
  | nil => simp [totalDelta]
  | cons o rest ih =>
    have h1 := h o (List.mem_cons_self _ _)
    have h2 := ih fun o ho => h o (List.mem_cons_of_mem _ ho)
    simp only [totalDelta, List.map_cons, List.sum_cons] at h2 ⊢
    omega

theorem countersWithin_runOps (ops : List Op) :
    ∀ (c : Client) (bound : Int), CountersWithin c bound → 0 ≤ bound →
      (∀ o ∈ ops, 0 ≤ o.delta) → bound + totalDelta ops < 9223372036854775808 →
      CountersWithin (runOps c ops) (bound + totalDelta ops) := by
  induction ops with
  | nil =>
    intro c bound h _ _ _
    simpa [runOps, totalDelta] using h
  | cons o rest ih =>
    intro c bound h hb hpos hfit
    have ho := hpos o (List.mem_cons_self _ _)
    have hrest : ∀ o ∈ rest, 0 ≤ o.delta := fun o h => hpos o (List.mem_cons_of_mem _ h)
    have hr := totalDelta_nonneg rest hrest
    have e : totalDelta (o :: rest) = o.delta + totalDelta rest := by
      simp [totalDelta]
    rw [e] at hfit ⊢
    have hstep : CountersWithin (o.apply c) (bound + o.delta) := by
      cases o with
      | markUnread g ch d =>
        exact countersWithin_markUnread c bound h hb g ch d ho (by
          have : Op.delta (.markUnread g ch d) = d := rfl
          omega)
      | markRead g ch =>
        have e0 : Op.delta (.markRead g ch) = 0 := rfl
        rw [e0, add_zero]
        exact countersWithin_markRead c bound h hb g ch
    have hfinal := ih (o.apply c) (bound + o.delta) hstep (by omega) hrest (by omega)
    have e2 : runOps c (o :: rest) = runOps (o.apply c) rest := rfl
    rw [e2, ← add_assoc]
    exact hfinal

/-- C24 as amended: in every state reached from the empty unread table by
MarkUnread(g, c, delta) calls with delta at least 0 whose deltas add up to
less than 2^63, and MarkRead(g, c) calls, every counter stored in the table
is at least 0, and so is every value returned by ChannelUnreadMessages and
GuildUnreadMessages. -/
theorem counters_nonnegative_for_nonnegative_deltas (conf : Option Config) (ops : List Op)
    (hpos : ∀ o ∈ ops, 0 ≤ o.delta) (hfit : totalDelta ops < 9223372036854775808) :
    (∀ entry ∈ (runOps (NewClient conf) ops).UnreadChannels,
        ∀ counter ∈ entry.2, 0 ≤ counter.2)
    ∧ (∀ g ch, 0 ≤ (runOps (NewClient conf) ops).ChannelUnreadMessages g ch)
    ∧ (∀ g, 0 ≤ (runOps (NewClient conf) ops).GuildUnreadMessages g) := by
  have h0 : CountersWithin (NewClient conf) 0 := by
    intro entry hentry
    simp [NewClient] at hentry
  have h := countersWithin_runOps ops (NewClient conf) 0 h0 (le_refl _) hpos (by omega)
  rw [zero_add] at h
  have hb := totalDelta_nonneg ops hpos
  refine ⟨fun entry he => (h entry he).1, ?_, ?_⟩
  · intro g ch
    rw [channelUnread_eq]
    exact (readCount_bounds _ ch (countersWithin_innerMap _ _ h hb g).1).1
  · intro g
    obtain ⟨hposg, hsum⟩ := countersWithin_innerMap _ _ h hb g
    have hs0 : 0 ≤ ((innerMap (runOps (NewClient conf) ops).UnreadChannels g).map
        Prod.snd).sum := List.sum_nonneg (by
      intro x hx
      obtain ⟨counter, hc, rfl⟩ := List.mem_map.mp hx
      exact hposg counter hc)
    rw [guildUnread_eq, sumLoop_eq _ 0 (by decide), zero_add,
      wrap64_of_isInt64 ⟨by omega, by omega⟩]
    exact hs0

/-- Witness of C24: after three messages and one read the counters are 2 and
0, and the guild total is 2. -/
theorem counters_nonnegative_for_nonnegative_deltas_witness :
    0 ≤ (runOps (NewClient none)
      [.markUnread "g" "a" 1, .markUnread "g" "b" 1, .markRead "g" "b",
        .markUnread "g" "a" 1]).GuildUnreadMessages "g" :=
  (counters_nonnegative_for_nonnegative_deltas none
    [.markUnread "g" "a" 1, .markUnread "g" "b" 1, .markRead "g" "b", .markUnread "g" "a" 1]
    (by decide) (by decide)).2.2 "g"

/-- Counterexample to C24: MarkUnread adds any int. From the empty table,
MarkUnread("g", "c", -1) stores -1, which both queries return; and two
calls with the positive delta 2^62 add up to 2^63, which an int holds as
-2^63. -/
theorem negative_delta_gives_negative_counter :
    ((NewClient none).MarkUnread "g" "c" (-1)).UnreadChannels = [("g", [("c", -1)])]
    ∧ ((NewClient none).MarkUnread "g" "c" (-1)).ChannelUnreadMessages "g" "c" = -1
    ∧ ((NewClient none).MarkUnread "g" "c" (-1)).GuildUnreadMessages "g" = -1
    ∧ (((NewClient none).MarkUnread "g" "c" 4611686018427387904).MarkUnread "g" "c"
        4611686018427387904).ChannelUnreadMessages "g" "c" = -9223372036854775808 := by
  refine ⟨?_, ?_, ?_, ?_⟩ <;> decide

/-! ## The argument of "ls": claim C25 -/

/-- C25: "ls" ignores its argument. For every integer n, "/ls n" does what
"/ls" does; with a channel active that is the nested "/m 25", so 25 messages
are requested whatever n is: on the demo world with the channel "c1" active,
"/ls 5" requests 25 messages where "/m 5" requests 5. With only a guild
active "/ls" runs the nested "/cl", and with no guild active the nested
"/gl". -/
theorem ls_ignores_its_argument (w : World) (s : Sys) (n : Int) :
    executeCommand w s ("/ls " ++ strconv.Itoa n) = executeCommand w s "/ls"
    ∧ executeCommand w s "/ls"
        = (if s.dt.ActiveChannel ≠ "" then recurseDropped (executeCommandN w 2) s "/m 25"
           else if s.dt.ActiveGuild ≠ "" then recurseDropped (executeCommandN w 2) s "/cl"
           else recurseDropped (executeCommandN w 2) s "/gl")
    ∧ (executeCommand demoWorld demoSys "/g 0").2.dt.ActiveChannel = "c1"
    ∧ (executeCommand demoWorld (executeCommand demoWorld demoSys "/g 0").2 "/ls 5").2.out
        = (executeCommand demoWorld demoSys "/g 0").2.out
          ++ [.dispatch "/m 25", .call "ChannelMessages" ["c1", "25"],
              .println [plain "No messages to retrieve"]]
    ∧ (executeCommand demoWorld (executeCommand demoWorld demoSys "/g 0").2 "/m 5").2.out
        = (executeCommand demoWorld demoSys "/g 0").2.out
          ++ [.call "ChannelMessages" ["c1", "5"],
              .println [plain "No messages to retrieve"]] := by
  have hp : parseLine ("/ls " ++ strconv.Itoa n) = some (some ["ls", strconv.Itoa n]) :=
    parseLine_slash "ls" (strconv.Itoa n) (by decide) (itoa_no_space n)
  have hv : parseVerb (Args.Get ["ls", strconv.Itoa n] 0) = some .ls := by
    have e : Args.Get ["ls", strconv.Itoa n] 0 = "ls" := by simp [Args.Get]
    rw [e]
    decide
  have h0 : executeCommand w s "/ls" = runVerb (executeCommandN w 2) w s ["ls"] .ls :=
    executeCommand_of_verb w s "/ls" ["ls"] .ls (by decide) (by decide)
  refine ⟨?_, ?_, by decide, by decide, by decide⟩
  · rw [executeCommand_of_verb w s _ _ .ls hp hv, h0]
    rfl
  · rw [h0]
    rfl

/-! ## The dashes of a field header: claim C26 -/

theorem andThen_dead (r : Result × Sys) (k : Sys → Result × Sys) (message : String)
    (h : r.1 = .panic message) : (andThen r k).1 = .panic message := by
  unfold andThen
  have hd : r.1.alive = false := by rw [h]; rfl
  rw [if_neg (by simp [hd])]
  exact h

/-- C26: the dash count of a field header can be negative. An embed that is
one field named "status" with the value "ok" has frame width 6, the length of
the name, so the count passed to strings.Repeat is 6 - 6 - 2 = -2 and the
call panics: whatever the configuration, printEmbed, PrintEmbeds and
PrintMessageComplex on a message with that embed end in the panic, after the
top border has been printed. -/
theorem field_header_dash_count_negative (w : World) (s : Sys) (conf : Config) (m : Message) :
    embedFrameWidth demoFieldEmbed conf = 6
    ∧ embedFrameWidth demoFieldEmbed conf - len "status" - 2 = -2
    ∧ strings.Repeat "-" (-2) = none
    ∧ printEmbed w s demoFieldEmbed conf
        = (.panic "strings: negative Repeat count", s.println ["|", "======", "|"])
    ∧ (PrintEmbeds w s conf [demoFieldEmbed]).1 = .panic "strings: negative Repeat count"
    ∧ (PrintMessageComplex w s { m with Embeds := [demoFieldEmbed] } conf).1
        = .panic "strings: negative Repeat count" := by
  have hw : embedFrameWidth demoFieldEmbed conf = 6 := by
    have ei : demoFieldEmbed.Image = none := rfl
    have eth : demoFieldEmbed.Thumbnail = none := rfl
    have e0 : fieldsWidth demoFieldEmbed.Fields
        (MaxInt (MaxInt 0 (len demoFieldEmbed.Title))
          (len (firstLine demoFieldEmbed.Description))) = 6 := by decide
    unfold embedFrameWidth
    simp only [ei, eth, e0, Option.isSome_none, Bool.false_eq_true, or_self, if_false, ite_self]
  have hprint : ∀ t : Sys, printEmbed w t demoFieldEmbed conf
      = (.panic "strings: negative Repeat count", t.println ["|", "======", "|"]) := by
    intro t
    unfold printEmbed
    rw [hw]
    have h1 : strings.Repeat "=" 6 = some "======" := by decide
    have h2 : strings.Repeat "-" (6 - len "status" - 2) = none := by decide
    simp only [h1]
    have e : demoFieldEmbed.Fields = [{ Name := "status", Value := "ok" }] := rfl
    have et : demoFieldEmbed.Title = "" := rfl
    have ed : demoFieldEmbed.Description = "" := rfl
    have ei : demoFieldEmbed.Image = none := rfl
    have eth : demoFieldEmbed.Thumbnail = none := rfl
    simp only [e, et, ed, ei, eth, printEmbedImage, printEmbedFields, h2, andThen,
      Result.alive, ne_eq, not_true_eq_false, if_false, Bool.false_eq_true]
  have hembeds : ∀ t : Sys, (PrintEmbeds w t conf [demoFieldEmbed]).1
      = .panic "strings: negative Repeat count" := by
    intro t
    simp only [PrintEmbeds, hprint, andThen, Result.alive, Bool.false_eq_true, if_false]
  refine ⟨hw, by rw [hw]; decide, by decide, hprint s, hembeds s, ?_⟩
  unfold PrintMessageComplex
  exact andThen_dead _ _ _ (hembeds _)

/-! ## The channel left over from another guild: claim C27 -/

/-- C27: the active channel can be a channel of another guild than the
active one. On the demo world, "/g 0" selects the guild "g1" and its channel
"c1"; "/g 1" then selects the guild "g2", which has no channel, its automatic
"/c 0" fails, and the active channel is still "c1", which is not a channel
of "g2". The same happens with "/g 2", whose channel list cannot be
fetched. -/
theorem stale_channel_after_guild_change :
    (executeCommand demoWorld demoSys "/g 0").2.dt.ActiveGuild = "g1"
    ∧ (executeCommand demoWorld demoSys "/g 0").2.dt.ActiveChannel = "c1"
    ∧ (executeCommand demoWorld (executeCommand demoWorld demoSys "/g 0").2 "/g 1").1 = .nil
    ∧ (executeCommand demoWorld (executeCommand demoWorld demoSys "/g 0").2
        "/g 1").2.dt.ActiveGuild = "g2"
    ∧ (executeCommand demoWorld (executeCommand demoWorld demoSys "/g 0").2
        "/g 1").2.dt.ActiveChannel = "c1"
    ∧ demoWorld.GuildChannels "g2" = .ok []
    ∧ demoWorld.GuildChannels "g1" = .ok [demoGeneral, demoRandom]
    ∧ demoGeneral.ID = "c1"
    ∧ (executeCommand demoWorld (executeCommand demoWorld demoSys "/g 0").2
        "/g 2").2.dt.ActiveGuild = "g3"
    ∧ (executeCommand demoWorld (executeCommand demoWorld demoSys "/g 0").2
        "/g 2").2.dt.ActiveChannel = "c1"
    ∧ demoWorld.GuildChannels "g3" = .error "HTTP 404 Not Found" := by
  refine ⟨?_, ?_, ?_, ?_, ?_, ?_, ?_, ?_, ?_, ?_, ?_⟩ <;> rfl

/-! ## The message handler: claim C5 -/

theorem printEmbedFields_completes (frameWidth : Int) (fields : List MessageEmbedField) :
    ∀ s : Sys, (∀ v ∈ fields, len v.Name + 2 ≤ frameWidth) →
      (printEmbedFields s frameWidth fields).1 = .nil := by
  induction fields with
  | nil => intro s _; rfl
  | cons v rest ih =>
    intro s h
    have hv := h v (List.mem_cons_self _ _)
    unfold printEmbedFields
    rw [repeat_of_nonneg _ _ (by omega)]
    exact ih _ fun u hu => h u (List.mem_cons_of_mem _ hu)

theorem printEmbed_completes (w : World) (s : Sys) (em : MessageEmbed) (conf : Config)
    (h : ∀ v ∈ em.Fields, len v.Name + 2 ≤ embedFrameWidth em conf) :
    (printEmbed w s em conf).1 = .nil := by
  have hfw : 0 ≤ embedFrameWidth em conf := by
    rw [embedFrameWidth_eq]
    exact maxOf_nonneg _
  unfold printEmbed
  simp only [repeat_of_nonneg _ _ hfw, andThen, printEmbedFields_completes _ _ _ h,
    Result.alive, if_true]

theorem printEmbeds_completes (w : World) (conf : Config) (embeds : List MessageEmbed) :
    ∀ s : Sys, (∀ em ∈ embeds, ∀ v ∈ em.Fields, len v.Name + 2 ≤ embedFrameWidth em conf) →
      (PrintEmbeds w s conf embeds).1 = .nil := by
  induction embeds with
  | nil => intro s _; rfl
  | cons em rest ih =>
    intro s h
    unfold PrintEmbeds
    unfold andThen
    rw [printEmbed_completes w s em conf (h em (List.mem_cons_self _ _))]
    simp only [Result.alive, if_true]
    exact ih _ fun e he => h e (List.mem_cons_of_mem _ he)

theorem printMessageComplex_eq (w : World) (s : Sys) (m : Message) (conf : Config) :
    PrintMessageComplex w s m conf
      = andThen (PrintEmbeds w
          (PrintAttachments w
            (if m.Content ≠ "" then
              ((resolveDisplayName w s m conf).2.emit
                (headerLine conf (resolveDisplayName w s m conf).1 m)).println
                  [m.ContentWithMentionsReplaced]
            else (resolveDisplayName w s m conf).2.emit
              (headerLine conf (resolveDisplayName w s m conf).1 m)) conf m.Attachments)
          conf m.Embeds)
        fun t => (.nil, t.println []) := by
  unfold PrintMessageComplex headerLine
  cases hcol : conf.ColorText <;> rfl

/-- What PrintMessageComplex does once the display name is resolved, from
the state `t` the resolution leaves and with the header line `header`. -/
theorem render_after_header (w : World) (t : Sys) (header : Effect) (m : Message)
    (conf : Config) :
    (andThen (PrintEmbeds w (PrintAttachments w
        (if m.Content ≠ "" then (t.emit header).println [m.ContentWithMentionsReplaced]
          else t.emit header) conf m.Attachments) conf m.Embeds)
        fun t => (.nil, t.println [])).2.out.get? t.out.length = some header
    ∧ (m.Content ≠ "" →
        (andThen (PrintEmbeds w (PrintAttachments w
          (if m.Content ≠ "" then (t.emit header).println [m.ContentWithMentionsReplaced]
            else t.emit header) conf m.Attachments) conf m.Embeds)
          fun t => (.nil, t.println [])).2.out.get? (t.out.length + 1)
          = some (.println [plain m.ContentWithMentionsReplaced]))
    ∧ ((∀ em ∈ m.Embeds, ∀ v ∈ em.Fields, len v.Name + 2 ≤ embedFrameWidth em conf) →
        (andThen (PrintEmbeds w (PrintAttachments w
          (if m.Content ≠ "" then (t.emit header).println [m.ContentWithMentionsReplaced]
            else t.emit header) conf m.Attachments) conf m.Embeds)
          fun t => (.nil, t.println [])).1 = .nil)
    ∧ ((andThen (PrintEmbeds w (PrintAttachments w
          (if m.Content ≠ "" then (t.emit header).println [m.ContentWithMentionsReplaced]
            else t.emit header) conf m.Attachments) conf m.Embeds)
          fun t => (.nil, t.println [])).1 = .nil →
        (andThen (PrintEmbeds w (PrintAttachments w
          (if m.Content ≠ "" then (t.emit header).println [m.ContentWithMentionsReplaced]
            else t.emit header) conf m.Attachments) conf m.Embeds)
          fun t => (.nil, t.println [])).2.out.getLast? = some (.println []))
    ∧ (m.Attachments = [] → m.Embeds = [] →
        (andThen (PrintEmbeds w (PrintAttachments w
          (if m.Content ≠ "" then (t.emit header).println [m.ContentWithMentionsReplaced]
            else t.emit header) conf m.Attachments) conf m.Embeds)
          fun t => (.nil, t.println []))
          = (.nil,
             { t with
               out := t.out ++ [header]
                 ++ (if m.Content ≠ "" then [.println [plain m.ContentWithMentionsReplaced]]
                     else [])
                 ++ [.println []] })) := by
  generalize hstart : (if m.Content ≠ "" then
      (t.emit header).println [m.ContentWithMentionsReplaced] else t.emit header) = start
  have hhead : (t.emit header).out <+: start.out := by
    rw [← hstart]
    split_ifs
    · exact println_extends _ _
    · exact List.prefix_refl _
  have hrest : start.out
      <+: (andThen (PrintEmbeds w (PrintAttachments w start conf m.Attachments) conf m.Embeds)
            fun t => (.nil, t.println [])).2.out := by
    refine List.IsPrefix.trans ?_ (andThen_extends _ _ fun t => println_extends _ _)
    refine List.IsPrefix.trans ?_ (printEmbeds_extends _ _ _ _)
    exact printAttachments_extends _ _ _ _
  refine ⟨?_, ?_, ?_, ?_, ?_⟩
  · exact get_of_extends t.out header _ (hhead.trans hrest)
  · intro hcontent
    have hs : start = (t.emit header).println [m.ContentWithMentionsReplaced] := by
      rw [← hstart, if_pos hcontent]
    have hpre : (t.out ++ [header]) ++ [.println [plain m.ContentWithMentionsReplaced]]
        <+: (andThen (PrintEmbeds w (PrintAttachments w start conf m.Attachments) conf
              m.Embeds) fun t => (.nil, t.println [])).2.out := by
      refine List.IsPrefix.trans ?_ hrest
      rw [hs]
      exact List.prefix_refl _
    have hget := get_of_extends _ _ _ hpre
    simpa using hget
  · intro h
    unfold andThen
    rw [printEmbeds_completes w conf m.Embeds _ h]
    rfl
  · intro h
    exact andThen_last _ (.println []) h
  · intro ha he
    rw [ha, he, ← hstart]
    by_cases hcontent : m.Content = ""
    · simp [hcontent, PrintAttachments, PrintEmbeds, andThen, Result.alive, Sys.println,
        Sys.emit]
    · simp [hcontent, PrintAttachments, PrintEmbeds, andThen, Result.alive, Sys.println,
        Sys.emit]

/-- PrintMessageComplex prints the header line first, then the content if
there is one; it returns when no field header of an embed has a negative
dash count, and when it returns the last thing printed is the empty line
that separates messages. -/
theorem printMessageComplex_renders (w : World) (s : Sys) (m : Message) (conf : Config) :
    (PrintMessageComplex w s m conf).2.out.get? (resolveDisplayName w s m conf).2.out.length
        = some (headerLine conf (resolveDisplayName w s m conf).1 m)
    ∧ (m.Content ≠ "" →
        (PrintMessageComplex w s m conf).2.out.get?
            ((resolveDisplayName w s m conf).2.out.length + 1)
          = some (.println [plain m.ContentWithMentionsReplaced]))
    ∧ ((∀ em ∈ m.Embeds, ∀ v ∈ em.Fields, len v.Name + 2 ≤ embedFrameWidth em conf) →
        (PrintMessageComplex w s m conf).1 = .nil)
    ∧ ((PrintMessageComplex w s m conf).1 = .nil →
        (PrintMessageComplex w s m conf).2.out.getLast? = some (.println []))
    ∧ (m.Attachments = [] → m.Embeds = [] →
        PrintMessageComplex w s m conf
          = (.nil,
             { (resolveDisplayName w s m conf).2 with
               out := (resolveDisplayName w s m conf).2.out
                 ++ [headerLine conf (resolveDisplayName w s m conf).1 m]
                 ++ (if m.Content ≠ "" then [.println [plain m.ContentWithMentionsReplaced]]
                     else [])
                 ++ [.println []] })) := by
  rw [printMessageComplex_eq]
  exact render_after_header w (resolveDisplayName w s m conf).2
    (headerLine conf (resolveDisplayName w s m conf).1 m) m conf

/-- C5: for a message-created event whose channel and guild both resolve:
when the channel of the message is not the active one, the handler returns
without printing anything (its only effects are the two state lookups), the
counter of the resolved (guild, channel) becomes Go's old + 1 (exactly
old + 1 unless the int overflows), every other counter keeps its value and
the selection is unchanged. When it is the active one, the client (all
counters, the selection) is unchanged and the message is rendered: after the
lookups of the name resolution the header line is printed, then the content
if there is one; the handler returns when no field header of an embed of the
message has a negative dash count, the last line printed then being the
empty separator line, and a message without attachments and embeds gives
exactly these lines. When an embed does have such a field the rendering
stops in a panic: the demo message with the embed of one field "status",
arriving in the active channel, gets its header, its content and the top
border of the embed printed, and then the process dies. -/
theorem messageCreate_marks_or_renders (w : World) (s : Sys) (m : Message)
    (channel : Channel) (guild : Guild)
    (hc : w.StateChannel m.ChannelID = .ok channel)
    (hg : w.StateGuild channel.GuildID = .ok guild) :
    (m.ChannelID ≠ s.dt.ActiveChannel →
        (messageCreate w s m).1 = .nil
      ∧ (messageCreate w s m).2.dt.ChannelUnreadMessages guild.ID channel.ID
          = addInt (s.dt.ChannelUnreadMessages guild.ID channel.ID) 1
      ∧ (isInt64 (s.dt.ChannelUnreadMessages guild.ID channel.ID) →
          s.dt.ChannelUnreadMessages guild.ID channel.ID + 1 < 9223372036854775808 →
          (messageCreate w s m).2.dt.ChannelUnreadMessages guild.ID channel.ID
            = s.dt.ChannelUnreadMessages guild.ID channel.ID + 1)
      ∧ (∀ g2 c2, (g2, c2) ≠ (guild.ID, channel.ID) →
          (messageCreate w s m).2.dt.ChannelUnreadMessages g2 c2
            = s.dt.ChannelUnreadMessages g2 c2)
      ∧ (messageCreate w s m).2.out
          = s.out ++ [.call "State.Channel" [m.ChannelID],
              .call "State.Guild" [channel.GuildID]]
      ∧ (messageCreate w s m).2.dt.ActiveGuild = s.dt.ActiveGuild
      ∧ (messageCreate w s m).2.dt.ActiveChannel = s.dt.ActiveChannel)
    ∧ (m.ChannelID = s.dt.ActiveChannel →
        (messageCreate w s m).2.dt = s.dt
      ∧ (messageCreate w s m).2.out.get?
            (resolveDisplayName w ((s.emit (.call "State.Channel" [m.ChannelID])).emit
              (.call "State.Guild" [channel.GuildID])) m s.dt.Conf).2.out.length
          = some (headerLine s.dt.Conf
              (resolveDisplayName w ((s.emit (.call "State.Channel" [m.ChannelID])).emit
                (.call "State.Guild" [channel.GuildID])) m s.dt.Conf).1 m)
      ∧ (m.Content ≠ "" →
          (messageCreate w s m).2.out.get?
              ((resolveDisplayName w ((s.emit (.call "State.Channel" [m.ChannelID])).emit
                (.call "State.Guild" [channel.GuildID])) m s.dt.Conf).2.out.length + 1)
            = some (.println [plain m.ContentWithMentionsReplaced]))
      ∧ ((∀ em ∈ m.Embeds, ∀ v ∈ em.Fields,
            len v.Name + 2 ≤ embedFrameWidth em s.dt.Conf) →
          (messageCreate w s m).1 = .nil)
      ∧ ((messageCreate w s m).1 = .nil →
          (messageCreate w s m).2.out.getLast? = some (.println []))
      ∧ (m.Attachments = [] → m.Embeds = [] →
          (messageCreate w s m).1 = .nil
          ∧ (messageCreate w s m).2.out
            = (resolveDisplayName w ((s.emit (.call "State.Channel" [m.ChannelID])).emit
                (.call "State.Guild" [channel.GuildID])) m s.dt.Conf).2.out
              ++ [headerLine s.dt.Conf
                (resolveDisplayName w ((s.emit (.call "State.Channel" [m.ChannelID])).emit
                  (.call "State.Guild" [channel.GuildID])) m s.dt.Conf).1 m]
              ++ (if m.Content ≠ "" then [.println [plain m.ContentWithMentionsReplaced]]
                  else [])
              ++ [.println []]))
    ∧ messageCreate demoWorld demoActiveSys demoEmbedMessage
        = (.panic "strings: negative Repeat count",
           { demoActiveSys with
             out := [.call "State.Channel" ["c2"], .call "State.Guild" ["g1"],
               .println [paint .cyan "bob", plain (padding 27), paint .blue "m1", plain "\t",
                 paint .blue "u1"],
               .println [plain "hello"],
               .println [plain "|", plain "======", plain "|"]] }) := by
  refine ⟨?_, ?_, by decide⟩
  · intro hne
    have e : messageCreate w s m
        = (.nil, { (s.emit (.call "State.Channel" [m.ChannelID])).emit
              (.call "State.Guild" [channel.GuildID]) with
            dt := s.dt.MarkUnread guild.ID channel.ID 1 }) := by
      simp [messageCreate, hc, hg, hne]
    rw [e]
    refine ⟨rfl, channelUnread_markUnread_same _ _ _ _, ?_,
      fun g2 c2 h => channelUnread_markUnread_ne _ _ _ _ _ _ h, ?_, rfl, rfl⟩
    · intro hk hlt
      simp only []
      rw [channelUnread_markUnread_same, addInt]
      apply wrap64_of_isInt64
      unfold isInt64 at hk ⊢
      omega
    · simp [Sys.emit]
  · intro heq
    have e : messageCreate w s m
        = PrintMessageComplex w ((s.emit (.call "State.Channel" [m.ChannelID])).emit
              (.call "State.Guild" [channel.GuildID])) m s.dt.Conf := by
      unfold messageCreate
      simp only [hc, hg, emit_dt]
      rw [if_pos heq]
      rfl
    obtain ⟨h1, h2, h3, h4, h5⟩ := printMessageComplex_renders w
      ((s.emit (.call "State.Channel" [m.ChannelID])).emit
        (.call "State.Guild" [channel.GuildID])) m s.dt.Conf
    rw [e]
    refine ⟨by simp, h1, h2, h3, h4, ?_⟩
    intro ha he
    rw [h5 ha he]
    exact ⟨rfl, rfl⟩

/-- Witness of C5: a message in the channel "c2" while nothing is selected
raises the counter of ("g1", "c2"); while "c2" is the active channel it is
printed: the two lookups, the header line, the content and the empty
line. -/
theorem messageCreate_marks_or_renders_witness :
    (messageCreate demoWorld demoSys demoMessage).2.dt.ChannelUnreadMessages
        demoGuild.ID demoRandom.ID
      = addInt (demoSys.dt.ChannelUnreadMessages demoGuild.ID demoRandom.ID) 1
    ∧ (messageCreate demoWorld demoActiveSys demoMessage).1 = .nil
    ∧ (messageCreate demoWorld demoActiveSys demoMessage).2.out
        = [.call "State.Channel" ["c2"], .call "State.Guild" ["g1"],
           .println [paint .cyan "bob", plain (padding 27), paint .blue "m1", plain "\t",
             paint .blue "u1"],
           .println [plain "hello"],
           .println []] :=
  ⟨((messageCreate_marks_or_renders demoWorld demoSys demoMessage demoRandom demoGuild
      rfl rfl).1 (by decide)).2.1,
    (((messageCreate_marks_or_renders demoWorld demoActiveSys demoMessage demoRandom demoGuild
      rfl rfl).2.1 (by decide)).2.2.2.2.2 rfl rfl).1,
    (((messageCreate_marks_or_renders demoWorld demoActiveSys demoMessage demoRandom demoGuild
      rfl rfl).2.1 (by decide)).2.2.2.2.2 rfl rfl).2.trans (by decide)⟩

end Discordterm
